import Mathlib

/-!
# linux-user-chroot: a shallow embedding and its verified properties

The development embeds the C sources of linux-user-chroot
(`linux-user-chroot.c`, `linux-user-chroot-newnet.c`, `setup-dev.c`,
`setup-seccomp.c`) as Lean functions and proves properties of the launcher's
privileged sequence.

## How the C code is embedded

* A process run is a function of a `World`, the oracle that fixes what every
  library call returns: the k-th call made by the process returns
  `World.ret k`, leaves `errno` equal to `World.err k`, and fills its output
  arguments from the `out_` fields at index k.  Theorems quantify over every
  `World`, that is, over every outcome of every call.
* A run yields a `Res` (normal return, `exit (code)`, or a successful
  `execvp`), the final `Proc` state and the list of `Event`s (call and
  returned value) in the order they were made.
* `argv` is a `List String`; `argc` is its length.  A `char *` that may be
  `NULL` is an `Option String`.  The `next` pointer of `MountSpec` is the tail of a `List`.
* uid and gid values, flag words and wait statuses are natural numbers;
  C `int` results are integers.
-/

namespace LinuxUserChroot

/-! ## Constants of the Linux ABI used by the sources -/

def PR_SET_NO_NEW_PRIVS : Nat := 38

def MAX_BIND_MOUNTS : Nat := 1024

def MS_RDONLY : Nat := 1
def MS_NOSUID : Nat := 2
def MS_REMOUNT : Nat := 32
def MS_BIND : Nat := 4096
def MS_MOVE : Nat := 8192
def MS_REC : Nat := 16384
def MS_PRIVATE : Nat := 262144
def MS_MGC_VAL : Nat := 0xC0ED0000

def SIGCHLD : Nat := 17
def CLONE_NEWNS : Nat := 0x00020000
def CLONE_NEWUTS : Nat := 0x04000000
def CLONE_NEWIPC : Nat := 0x08000000
def CLONE_NEWUSER : Nat := 0x10000000
def CLONE_NEWPID : Nat := 0x20000000
def CLONE_NEWNET : Nat := 0x40000000

def O_RDONLY : Nat := 0
def O_NOCTTY : Nat := 0o400
def O_NONBLOCK : Nat := 0o4000
def O_DIRECTORY : Nat := 0o200000
def O_CLOEXEC : Nat := 0o2000000

def EPERM : Int := 1
def EFAULT : Int := 14
def EEXIST : Int := 17
def EAFNOSUPPORT : Int := 97

def AF_UNSPEC : Nat := 0
def AF_UNIX : Nat := 1
def AF_INET : Nat := 2
def AF_AX25 : Nat := 3
def AF_IPX : Nat := 4
def AF_APPLETALK : Nat := 5
def AF_NETROM : Nat := 6
def AF_BRIDGE : Nat := 7
def AF_ATMPVC : Nat := 8
def AF_X25 : Nat := 9
def AF_INET6 : Nat := 10
def AF_ROSE : Nat := 11
def AF_DECnet : Nat := 12
def AF_NETBEUI : Nat := 13
def AF_SECURITY : Nat := 14
def AF_KEY : Nat := 15
def AF_NETLINK : Nat := 16

/-- The macro `WIFEXITED` of `sys/wait.h`: the low seven bits of the status are zero. -/
def WIFEXITED (status : Nat) : Bool := status &&& 0x7f == 0

/-- The macro `WEXITSTATUS` of `sys/wait.h`: bits 8 to 15 of the status. -/
def WEXITSTATUS (status : Nat) : Nat := (status &&& 0xff00) >>> 8

/-! ## libseccomp rules -/

/-- Comparison operators of `struct scmp_arg_cmp` used by the sources. -/
inductive ScmpCompare where
  | SCMP_CMP_EQ
  | SCMP_CMP_GE
  | SCMP_CMP_MASKED_EQ
deriving DecidableEq, Repr

/-- One `struct scmp_arg_cmp`: argument index, operator and the two data words. -/
structure ScmpArgCmp where
  arg : Nat
  op : ScmpCompare
  datum_a : Nat
  datum_b : Nat
deriving DecidableEq, Repr

/-- The filter actions used by the sources, and `SCMP_ACT_KILL`, the action
of a filter on a call made from an architecture that the filter does not hold. -/
inductive ScmpAction where
  | SCMP_ACT_ALLOW
  | SCMP_ACT_ERRNO (errnum : Int)
  | SCMP_ACT_KILL
deriving DecidableEq, Repr

/-- The architecture tokens passed to `seccomp_arch_add`; `other` stands for
the native architecture of a build for a machine that is none of the three. -/
inductive ScmpArch where
  | SCMP_ARCH_X86
  | SCMP_ARCH_X86_64
  | SCMP_ARCH_X32
  | other
deriving DecidableEq, Repr

/-! ## Library calls, events and the oracle -/

/-- The library calls made by the sources, with their arguments.  `SCMP_SYS(name)`
is represented by the name of the system call. -/
inductive Op where
  | getresgid
  | getresuid
  | clone (flags : Nat)
  | prctl (option arg2 arg3 arg4 arg5 : Nat)
  | mount (source : Option String) (target : String) (fstype : Option String)
      (flags : Nat) (data : Option String)
  | setfsuid (uid : Nat)
  | chdir (path : Option String)
  | chroot (path : String)
  | setgid (gid : Nat)
  | setuid (uid : Nat)
  | execvp (file : String) (argv : List String)
  | waitpid (pid : Int) (options : Nat)
  | openat (path : String) (flags : Nat)
  | fstatat (dirfd : Int) (name : String) (flags : Nat)
  | mknodat (dirfd : Int) (name : String) (mode dev : Nat)
  | fchmodat (dirfd : Int) (name : String) (mode flags : Nat)
  | symlinkat (target : String) (newdirfd : Int) (linkpath : String)
  | seccomp_init (def_action : ScmpAction)
  | seccomp_arch_add (arch : ScmpArch)
  | seccomp_rule_add (action : ScmpAction) (syscall : String) (args : List ScmpArgCmp)
  | seccomp_load
  | seccomp_release
  | uname
deriving DecidableEq, Repr

/-- A library call together with the value it returned. -/
structure Event where
  op : Op
  ret : Int
deriving DecidableEq, Repr

/-- The three ids written by `getresuid` / `getresgid`. -/
structure Ids where
  r : Nat
  e : Nat
  s : Nat
deriving DecidableEq, Repr

/-- The fields of `struct stat` read by the sources. -/
structure Stat where
  st_mode : Nat
  st_rdev : Nat
deriving DecidableEq, Repr

/-- The oracle: what the k-th library call of the process returns and writes. -/
structure World where
  ret : Nat → Int
  err : Nat → Int
  out_ids : Nat → Ids
  out_stat : Nat → Stat
  out_machine : Nat → String
  out_status : Nat → Nat

/-- A line on standard error: a formatted message, or `perror`-style output
(the message followed by the text of the given `errno`). -/
inductive Diag where
  | msg (text : String)
  | perror (message : String) (errnum : Int)
deriving DecidableEq, Repr

/-- The state of the process that the sources read or write. -/
structure Proc where
  calls : Nat
  errno : Int
  stderr : List Diag
deriving DecidableEq, Repr

/-- The state of a process that has made no call yet. -/
def Proc.start : Proc := ⟨0, 0, []⟩

/-- How a process stops before the code reaches its end. -/
inductive Stop where
  | exit (code : Int)
  | exec (file : String) (argv : List String)
deriving DecidableEq, Repr

/-- The result of running a piece of code: it returned a value or the process stopped. -/
inductive Res (α : Type) where
  | ret (a : α)
  | stop (s : Stop)
deriving DecidableEq, Repr

/-- The outcome of running a piece of code: result, final state, calls made. -/
structure Out (α : Type) where
  res : Res α
  proc : Proc
  events : List Event

/-- A piece of C code: a function of the oracle and the state before it. -/
def Run (α : Type) : Type := World → Proc → Out α

/-- Sequencing: the second part runs only if the first returned. -/
def Run.bind {α β : Type} (m : Run α) (f : α → Run β) : Run β := fun w s =>
  match (m w s).res with
  | Res.ret a => ⟨(f a w (m w s).proc).res, (f a w (m w s).proc).proc,
      (m w s).events ++ (f a w (m w s).proc).events⟩
  | Res.stop x => ⟨Res.stop x, (m w s).proc, (m w s).events⟩

instance : Monad Run where
  pure a := fun _ s => ⟨Res.ret a, s, []⟩
  bind := Run.bind

/-- A library call: the oracle fixes the returned value and `errno`. -/
def call (op : Op) : Run Int := fun w s =>
  ⟨Res.ret (w.ret s.calls), ⟨s.calls + 1, w.err s.calls, s.stderr⟩, [⟨op, w.ret s.calls⟩]⟩

/-- The library call `execvp`: it returns, with a negative value, only when it
failed; otherwise the process image is replaced. -/
def execvp (file : String) (argv : List String) : Run Int := fun w s =>
  if w.ret s.calls < 0 then
    ⟨Res.ret (w.ret s.calls), ⟨s.calls + 1, w.err s.calls, s.stderr⟩,
      [⟨Op.execvp file argv, w.ret s.calls⟩]⟩
  else
    ⟨Res.stop (Stop.exec file argv), ⟨s.calls + 1, w.err s.calls, s.stderr⟩,
      [⟨Op.execvp file argv, w.ret s.calls⟩]⟩

/-- The library function `exit`. -/
def exit {α : Type} (code : Int) : Run α := fun _ s => ⟨Res.stop (Stop.exit code), s, []⟩

/-- Read `errno`. -/
def get_errno : Run Int := fun _ s => ⟨Res.ret s.errno, s, []⟩

/-- Assign `errno`. -/
def set_errno (e : Int) : Run Unit := fun _ s => ⟨Res.ret (), ⟨s.calls, e, s.stderr⟩, []⟩

/-- Write one line to standard error. -/
def eprint (d : Diag) : Run Unit := fun _ s =>
  ⟨Res.ret (), ⟨s.calls, s.errno, s.stderr ++ [d]⟩, []⟩

/-- A library call that also fills an output argument: the value written is
read from the oracle at the index of the call. -/
def call_out {β : Type} (op : Op) (out : World → Nat → β) : Run (Int × β) := fun w s =>
  ⟨Res.ret (w.ret s.calls, out w s.calls), ⟨s.calls + 1, w.err s.calls, s.stderr⟩,
    [⟨op, w.ret s.calls⟩]⟩

/-! ## linux-user-chroot.c: helpers -/

/-- The function `fatal`: print the message and `exit (1)`. -/
def fatal {α : Type} (message : String) : Run α := do
  eprint (Diag.msg message)
  exit 1

/-- The function `fatal_errno`: `perror (message)` and `exit (1)`. -/
def fatal_errno {α : Type} (message : String) : Run α := do
  let e ← get_errno
  eprint (Diag.perror message e)
  exit 1

inductive MountSpecType where
  | MOUNT_SPEC_BIND
  | MOUNT_SPEC_READONLY
  | MOUNT_SPEC_PROCFS
  | MOUNT_SPEC_DEVAPI
deriving DecidableEq, Repr

/-- The struct `MountSpec`; the `next` pointer is the tail of the list holding it. -/
structure MountSpec where
  type : MountSpecType
  source : Option String
  dest : String
deriving DecidableEq, Repr

/-- The loop of `reverse_mount_list`: `prev` is the list reversed so far,
the second argument is `mount`. -/
def reverse_mount_list_loop (prev : List MountSpec) : List MountSpec → List MountSpec
  | [] => prev
  | mount :: next => reverse_mount_list_loop (mount :: prev) next

/-- The function `reverse_mount_list`. -/
def reverse_mount_list (mount : List MountSpec) : List MountSpec :=
  reverse_mount_list_loop [] mount

/-- The function `fsuid_chdir`: `chdir` with the filesystem uid of `uid`. -/
def fsuid_chdir (uid : Nat) (path : Option String) : Run Int := do
  let _ ← call (Op.setfsuid uid)
  let ret ← call (Op.chdir path)
  let errsv ← get_errno
  let _ ← call (Op.setfsuid 0)
  set_errno errsv
  pure ret

/-- The function `raw_clone`: the `clone` system call with a null child stack
(the order of the two arguments at the system call is not recorded). -/
def raw_clone (flags : Nat) : Run Int := call (Op.clone flags)

/-! ## linux-user-chroot.c: the option loop of `main` -/

/-- The C library's `isspace` in the C locale. -/
def isspace (c : Char) : Bool := c.toNat == 32 || (9 ≤ c.toNat && c.toNat ≤ 13)

/-- The value of the longest run of decimal digits at the head of the list. -/
def digits_value (acc : Nat) : List Char → Nat
  | [] => acc
  | c :: cs =>
    if 48 ≤ c.toNat ∧ c.toNat ≤ 57 then digits_value (acc * 10 + (c.toNat - 48)) cs else acc

/-- The C library's `atoi` as glibc computes it: `strtol` in base 10 (blanks,
an optional sign, digits; clamped to the range of `long`), converted to `int`. -/
def atoi (s : String) : Int :=
  let cs := s.toList.dropWhile isspace
  let v : Int :=
    match cs with
    | [] => 0
    | c :: ds =>
      if c.toNat = 45 then - (digits_value 0 ds : Int)
      else if c.toNat = 43 then (digits_value 0 ds : Int)
      else (digits_value 0 (c :: ds) : Int)
  let l : Int := max (-(2 ^ 63)) (min v (2 ^ 63 - 1))
  (l + 2 ^ 31) % 2 ^ 32 - 2 ^ 31

/-- The local variables of `main` that the option loop updates. -/
structure Locals where
  n_mounts : Nat
  bind_mounts : List MountSpec
  unshare_ipc : Bool
  unshare_net : Bool
  unshare_pid : Bool
  chdir_target : String
  seccomp_profile_version : Int
deriving DecidableEq, Repr

/-- The initial values of the locals of `main`. -/
def Locals.start : Locals := ⟨0, [], false, false, false, "/", -1⟩

/-- How the argument handling of `main` ends. -/
inductive Parsed (α : Type) where
  | ok (a : α)
  | fatal (message : String)
  | help
  | version
deriving DecidableEq, Repr

/-- The `while (after_mount_arg_index < argc)` loop of `main`.  The list is
`argv` from `after_mount_arg_index` on; the result holds the locals and the
arguments left when the loop ends. -/
def parse_options : Locals → List String → Parsed (Locals × List String)
  | l, [] => Parsed.ok (l, [])
  | l, arg :: rest =>
    if l.n_mounts ≥ MAX_BIND_MOUNTS then
      Parsed.fatal ("Too many mounts (maximum of " ++ toString l.n_mounts ++ ")")
    else if arg = "--help" then Parsed.help
    else if arg = "--version" then Parsed.version
    else if arg = "--mount-bind" then
      match rest with
      | source :: dest :: rest2 =>
        parse_options
          { l with n_mounts := l.n_mounts + 1,
                   bind_mounts := ⟨MountSpecType.MOUNT_SPEC_BIND, some source, dest⟩
                     :: l.bind_mounts } rest2
      | _ => Parsed.fatal "--mount-bind takes two arguments"
    else if arg = "--mount-readonly" then
      match rest with
      | dest :: rest1 =>
        parse_options
          { l with n_mounts := l.n_mounts + 1,
                   bind_mounts := ⟨MountSpecType.MOUNT_SPEC_READONLY, none, dest⟩
                     :: l.bind_mounts } rest1
      | _ => Parsed.fatal "--mount-readonly takes one argument"
    else if arg = "--mount-proc" then
      match rest with
      | dest :: rest1 =>
        parse_options
          { l with n_mounts := l.n_mounts + 1,
                   bind_mounts := ⟨MountSpecType.MOUNT_SPEC_PROCFS, none, dest⟩
                     :: l.bind_mounts } rest1
      | _ => Parsed.fatal "--mount-proc takes one argument"
    else if arg = "--mount-devapi" then
      match rest with
      | dest :: rest1 =>
        parse_options
          { l with n_mounts := l.n_mounts + 1,
                   bind_mounts := ⟨MountSpecType.MOUNT_SPEC_DEVAPI, none, dest⟩
                     :: l.bind_mounts } rest1
      | _ => Parsed.fatal "--mount-devapi takes one argument"
    else if arg = "--unshare-ipc" then
      parse_options { l with n_mounts := l.n_mounts + 1, unshare_ipc := true } rest
    else if arg = "--unshare-pid" then
      parse_options { l with n_mounts := l.n_mounts + 1, unshare_pid := true } rest
    else if arg = "--unshare-net" then
      parse_options { l with n_mounts := l.n_mounts + 1, unshare_net := true } rest
    else if arg = "--chdir" then
      match rest with
      | dir :: rest1 =>
        parse_options { l with n_mounts := l.n_mounts + 1, chdir_target := dir } rest1
      | _ => Parsed.fatal "--chdir takes one argument"
    else if arg = "--seccomp-profile-version" then
      match rest with
      | v :: rest1 =>
        parse_options
          { l with n_mounts := l.n_mounts + 1, seccomp_profile_version := atoi v } rest1
      | _ => Parsed.fatal "--seccomp-profile-version takes one argument"
    else Parsed.ok ({ l with n_mounts := l.n_mounts + 1 }, arg :: rest)

/-- What `main` has fixed when the argument handling is over (line 316). -/
structure Config where
  chroot_dir : String
  program : String
  program_argv : List String
  bind_mounts : List MountSpec
  unshare_ipc : Bool
  unshare_net : Bool
  unshare_pid : Bool
  chdir_target : String
  seccomp_profile_version : Int
deriving DecidableEq, Repr

/-- The argument handling of `main` after `argv[0]` is taken off (lines 190 to
316): the option loop, `reverse_mount_list`, and the check that `ROOTDIR` and
`PROGRAM` are left. -/
def parse_command_line (argv0 : String) (args : List String) : Parsed Config :=
  if args.length < 1 then Parsed.fatal "ROOTDIR argument must be specified"
  else
    match parse_options Locals.start args with
    | Parsed.fatal message => Parsed.fatal message
    | Parsed.help => Parsed.help
    | Parsed.version => Parsed.version
    | Parsed.ok (l, rest) =>
      match rest with
      | chroot_dir :: program :: program_args =>
        Parsed.ok ⟨chroot_dir, program, program :: program_args,
          reverse_mount_list l.bind_mounts, l.unshare_ipc, l.unshare_net, l.unshare_pid,
          l.chdir_target, l.seccomp_profile_version⟩
      | _ =>
        Parsed.fatal ("usage: " ++ argv0 ++ " [--unshare-ipc] [--unshare-pid] [--unshare-net] [--mount-proc DIR] [--mount-readonly DIR] [--mount-bind SOURCE DEST] [--chdir DIR] ROOTDIR PROGRAM ARGS...")

/-! ## setup-dev.c -/

def devnodes : List String := ["null", "zero", "full", "random", "urandom", "tty"]

/-- The `for` loop of `setup_dev` over `devnodes`: `some v` when the function
returned `v` from inside the loop, `none` when the loop ran to its end. -/
def setup_dev_nodes (src_fd dest_fd : Int) : List String → Run (Option Int)
  | [] => pure none
  | nodename :: rest => do
    let (r, stbuf) ← call_out (Op.fstatat src_fd nodename 0) World.out_stat
    if r == -1 then pure (some (-1))
    else if (← call (Op.mknodat dest_fd nodename stbuf.st_mode stbuf.st_rdev)) != 0 then
      pure (some (-1))
    else if (← call (Op.fchmodat dest_fd nodename stbuf.st_mode 0)) != 0 then
      pure (some (-1))
    else setup_dev_nodes src_fd dest_fd rest

/-- The function `setup_dev`.  `AT_FDCWD` is implicit in `Op.openat`.  The
closing of the two descriptors when the function returns (the attribute
`_cleanup_fd_close_`, declared in a header that is not among the sources) is
left out of the list of calls. -/
def setup_dev (dest_devdir : String) : Run Int := do
  let src_fd ← call (Op.openat "/dev"
    (O_RDONLY ||| O_NONBLOCK ||| O_DIRECTORY ||| O_CLOEXEC ||| O_NOCTTY))
  if src_fd == -1 then pure (-1)
  else if (← call (Op.mount (some "tmpfs") dest_devdir (some "tmpfs")
      (MS_MGC_VAL ||| MS_PRIVATE ||| MS_NOSUID) (some "mode=0755"))) < 0 then pure (-1)
  else do
    let dest_fd ← call (Op.openat dest_devdir
      (O_RDONLY ||| O_NONBLOCK ||| O_DIRECTORY ||| O_CLOEXEC ||| O_NOCTTY))
    if dest_fd == -1 then pure (-1)
    else do
      match ← setup_dev_nodes src_fd dest_fd devnodes with
      | some v => pure v
      | none =>
        if (← call (Op.symlinkat "/proc/self/fd/0" dest_fd "stdin")) < 0 then pure (-1)
        else if (← call (Op.symlinkat "/proc/self/fd/1" dest_fd "stdout")) < 0 then pure (-1)
        else if (← call (Op.symlinkat "/proc/self/fd/2" dest_fd "stderr")) < 0 then pure (-1)
        else pure 0

/-! ## setup-seccomp.c -/

/-- The function `die_with_error`: the message, the text of `errno`, `exit (1)`. -/
def die_with_error {α : Type} (message : String) : Run α := do
  let errsv ← get_errno
  eprint (Diag.perror message errsv)
  exit 1

/-- The function `die`: the message and `exit (1)`. -/
def die {α : Type} (message : String) : Run α := do
  eprint (Diag.msg message)
  exit 1

/-- The function `die_oom`. -/
def die_oom {α : Type} : Run α := die "Out of memory"

/-- An element of the array `syscall_blacklist`. -/
structure BlacklistEntry where
  scall : String
  arg : Option ScmpArgCmp
deriving DecidableEq, Repr

/-- The macro `SCMP_A0 (op, datum_a, datum_b)`: a comparison on argument 0. -/
def SCMP_A0 (op : ScmpCompare) (datum_a : Nat) (datum_b : Nat) : ScmpArgCmp :=
  ⟨0, op, datum_a, datum_b⟩

def syscall_blacklist : List BlacklistEntry :=
  [⟨"syslog", none⟩, ⟨"uselib", none⟩, ⟨"personality", none⟩, ⟨"acct", none⟩,
   ⟨"modify_ldt", none⟩, ⟨"quotactl", none⟩,
   ⟨"move_pages", none⟩, ⟨"mbind", none⟩, ⟨"get_mempolicy", none⟩,
   ⟨"set_mempolicy", none⟩, ⟨"migrate_pages", none⟩,
   ⟨"unshare", none⟩, ⟨"mount", none⟩, ⟨"pivot_root", none⟩,
   ⟨"clone", some (SCMP_A0 ScmpCompare.SCMP_CMP_MASKED_EQ CLONE_NEWUSER CLONE_NEWUSER)⟩,
   ⟨"perf_event_open", none⟩]

def socket_family_blacklist : List Nat :=
  [AF_AX25, AF_IPX, AF_APPLETALK, AF_NETROM, AF_BRIDGE, AF_ATMPVC, AF_X25, AF_ROSE,
   AF_DECnet, AF_NETBEUI, AF_SECURITY, AF_KEY, AF_NETLINK + 1]

/-- The first `for` loop of `setup_seccomp_v0`, over `syscall_blacklist`.  The
diagnostic names the system call where the source prints its number. -/
def block_syscalls : List BlacklistEntry → Run Unit
  | [] => pure ()
  | entry :: rest => do
    let scall := entry.scall
    let r ←
      match entry.arg with
      | some arg =>
        call (Op.seccomp_rule_add (ScmpAction.SCMP_ACT_ERRNO EPERM) scall [arg])
      | none => call (Op.seccomp_rule_add (ScmpAction.SCMP_ACT_ERRNO EPERM) scall [])
    if r < 0 ∧ r = -EFAULT then
      die_with_error ("Failed to block syscall " ++ scall)
    block_syscalls rest

/-- The second `for` loop of `setup_seccomp_v0`, over `socket_family_blacklist`:
`i` is the loop index, `n` is `N_ELEMENTS (socket_family_blacklist)`, the list
holds the elements from index `i` on. -/
def block_socket_families (n : Nat) (i : Nat) : List Nat → Run Unit
  | [] => pure ()
  | family :: rest => do
    let r ←
      if i = n - 1 then
        call (Op.seccomp_rule_add (ScmpAction.SCMP_ACT_ERRNO EAFNOSUPPORT) "socket"
          [SCMP_A0 ScmpCompare.SCMP_CMP_GE family 0])
      else
        call (Op.seccomp_rule_add (ScmpAction.SCMP_ACT_ERRNO EAFNOSUPPORT) "socket"
          [SCMP_A0 ScmpCompare.SCMP_CMP_EQ family 0])
    if r < 0 then
      die_with_error ("Failed to block socket family " ++ toString family)
    block_socket_families n (i + 1) rest

/-- The three `seccomp_arch_add` calls of `setup_seccomp_v0`, compiled in when
`__i386__` or `__x86_64__` is defined. -/
def add_secondary_archs : Run Unit := do
  let r ← call (Op.seccomp_arch_add ScmpArch.SCMP_ARCH_X86)
  if r < 0 ∧ r ≠ -EEXIST then
    die_with_error "Failed to add x86 architecture to seccomp filter"
  let r ← call (Op.seccomp_arch_add ScmpArch.SCMP_ARCH_X86_64)
  if r < 0 ∧ r ≠ -EEXIST then
    die_with_error "Failed to add x86_64 architecture to seccomp filter"
  let r ← call (Op.seccomp_arch_add ScmpArch.SCMP_ARCH_X32)
  if r < 0 ∧ r ≠ -EEXIST then
    die_with_error "Failed to add x32 architecture to seccomp filter"

/-- The function `setup_seccomp_v0`.  `x86` says whether the program was
compiled with `__i386__` or `__x86_64__` defined.  `seccomp_init` returns the
filter context, 0 being the null pointer. -/
def setup_seccomp_v0 (x86 : Bool) : Run Unit := do
  let seccomp ← call (Op.seccomp_init ScmpAction.SCMP_ACT_ALLOW)
  if seccomp = 0 then
    die_oom
  if x86 then
    add_secondary_archs
  block_syscalls syscall_blacklist
  let (u, machine) ← call_out Op.uname World.out_machine
  if u = 0 ∧ machine ≠ "i686" then
    block_socket_families socket_family_blacklist.length 0 socket_family_blacklist
  let r ← call Op.seccomp_load
  if r < 0 then
    die_with_error "Failed to install seccomp audit filter: "
  let _ ← call Op.seccomp_release

/-! ## linux-user-chroot.c: `main` after the argument handling -/

/-- The start of the child (lines 367 to 383): `PR_SET_NO_NEW_PRIVS`, then
the two remounts of `/`. -/
def child_isolate : Run Unit := do
  if (← call (Op.prctl PR_SET_NO_NEW_PRIVS 1 0 0 0)) < 0 then
    fatal_errno "prctl (PR_SET_NO_NEW_PRIVS)"
  if (← call (Op.mount none "/" (some "none") (MS_PRIVATE ||| MS_REC) none)) < 0 then
    fatal_errno "mount(/, MS_PRIVATE | MS_REC)"
  if (← call (Op.mount none "/" (some "none")
      (MS_PRIVATE ||| MS_REMOUNT ||| MS_NOSUID) none)) < 0 then
    fatal_errno "mount(/, MS_PRIVATE | MS_REC | MS_NOSUID)"

/-- The body of the loop over `bind_mounts` (lines 388 to 422).  `dest` is
the result of `asprintf ("%s%s", chroot_dir, bind_mount_iter->dest)`. -/
def apply_mount (ruid : Nat) (chroot_dir : String) (bind_mount_iter : MountSpec) :
    Run Unit :=
  let dest := chroot_dir ++ bind_mount_iter.dest
  match bind_mount_iter.type with
  | MountSpecType.MOUNT_SPEC_READONLY => do
    if (← call (Op.mount (some dest) dest none (MS_BIND ||| MS_PRIVATE) none)) < 0 then
      fatal_errno "mount (MS_BIND)"
    if (← call (Op.mount (some dest) dest none
        (MS_BIND ||| MS_PRIVATE ||| MS_REMOUNT ||| MS_RDONLY) none)) < 0 then
      fatal_errno "mount (MS_BIND | MS_RDONLY)"
  | MountSpecType.MOUNT_SPEC_BIND => do
    if (← fsuid_chdir ruid bind_mount_iter.source) < 0 then
      fatal "Couldn't chdir to bind mount source"
    if (← call (Op.mount (some ".") dest none (MS_BIND ||| MS_PRIVATE) none)) < 0 then
      fatal_errno "mount (MS_BIND)"
  | MountSpecType.MOUNT_SPEC_PROCFS => do
    if (← call (Op.mount (some "proc") dest (some "proc")
        (MS_MGC_VAL ||| MS_PRIVATE) none)) < 0 then
      fatal_errno "mount (\x22proc\x22)"
  | MountSpecType.MOUNT_SPEC_DEVAPI => do
    if (← setup_dev dest) < 0 then
      fatal_errno "setting up devapi"

/-- The loop over `bind_mounts` (line 386). -/
def apply_mounts (ruid : Nat) (chroot_dir : String) : List MountSpec → Run Unit
  | [] => pure ()
  | bind_mount_iter :: next => do
    apply_mount ruid chroot_dir bind_mount_iter
    apply_mounts ruid chroot_dir next

/-- The change of root (lines 425 to 439). -/
def root_transition (ruid : Nat) (chroot_dir : String) : Run Unit := do
  if (← fsuid_chdir ruid (some chroot_dir)) < 0 then
    fatal_errno "chdir"
  if (← call (Op.mount (some ".") "." none (MS_BIND ||| MS_PRIVATE) none)) < 0 then
    fatal_errno "mount (MS_BIND)"
  if chroot_dir ≠ "/" then
    if (← call (Op.mount (some chroot_dir) "/" none MS_MOVE none)) < 0 then
      fatal_errno "mount (MS_MOVE)"
    if (← call (Op.chroot ".")) < 0 then
      fatal_errno "chroot"

/-- The switch to the ids of the invoking process (lines 443 to 446 in the
child, the same two statements at lines 465 to 468 in the parent). -/
def drop_privileges (rgid ruid : Nat) : Run Unit := do
  if (← call (Op.setgid rgid)) < 0 then
    fatal_errno "setgid"
  if (← call (Op.setuid ruid)) < 0 then
    fatal_errno "setuid"

/-- What the child does between the drop of privileges and `execvp` (lines
448 to 457). -/
def child_prepare_exec (x86 : Bool) (c : Config) : Run Unit := do
  if (← call (Op.chdir (some c.chdir_target))) < 0 then
    fatal_errno "chdir"
  if c.seccomp_profile_version = 0 then
    setup_seccomp_v0 x86
  else if c.seccomp_profile_version = -1 then
    pure ()
  else
    fatal "Unknown --seccomp-profile-version"

/-- The branch `if (child == 0)` of `main` (lines 351 to 461). -/
def child (x86 : Bool) (c : Config) (rgid ruid : Nat) : Run Unit := do
  child_isolate
  apply_mounts ruid c.chroot_dir c.bind_mounts
  root_transition ruid c.chroot_dir
  drop_privileges rgid ruid
  child_prepare_exec x86 c
  if (← execvp c.program c.program_argv) < 0 then
    fatal_errno "execv"

/-- The value of `clone_flags` at the call of `raw_clone` (lines 331 to 346). -/
def clone_flags (c : Config) : Nat :=
  let f0 := SIGCHLD ||| CLONE_NEWNS
  let f1 := if c.unshare_ipc then f0 ||| (CLONE_NEWIPC ||| CLONE_NEWUTS) else f0
  let f2 := if c.unshare_pid then f1 ||| CLONE_NEWPID else f1
  if c.unshare_net then f2 ||| CLONE_NEWNET else f2

/-- The part of `main` after the argument handling (lines 318 to 478); the
value returned is the value `main` returns. -/
def launch (x86 : Bool) (c : Config) : Run Int := do
  let (g, gids) ← call_out Op.getresgid World.out_ids
  if g < 0 then
    fatal_errno "getresgid"
  let (u, uids) ← call_out Op.getresuid World.out_ids
  if u < 0 then
    fatal_errno "getresuid"
  let ruid := uids.r
  let rgid := if gids.r = 0 then ruid else gids.r
  let child_pid ← raw_clone (clone_flags c)
  if child_pid < 0 then
    fatal_errno "clone"
  if child_pid = 0 then
    child x86 c rgid ruid
  drop_privileges rgid ruid
  let (r, child_status) ← call_out (Op.waitpid child_pid 0) World.out_status
  if r < 0 then
    fatal_errno "waitpid"
  if WIFEXITED child_status then
    pure (WEXITSTATUS child_status : Int)
  else
    pure 1

/-- The function `main` of linux-user-chroot.c. -/
def main (x86 : Bool) (argv : List String) : Run Int :=
  match argv with
  | [] => pure 1
  | argv0 :: args =>
    match parse_command_line argv0 args with
    | Parsed.fatal message => fatal message
    | Parsed.help => exit 0
    | Parsed.version => exit 0
    | Parsed.ok c => launch x86 c

/-! ## Vocabulary for the properties -/

/-- The outcome `o` with the event `e` put in front of its events. -/
def Out.cons {α : Type} (e : Event) (o : Out α) : Out α := ⟨o.res, o.proc, e :: o.events⟩

/-- The state after a library call made in state `s`. -/
def Proc.after (w : World) (s : Proc) : Proc := ⟨s.calls + 1, w.err s.calls, s.stderr⟩

def Op.is_execvp : Op → Bool
  | Op.execvp _ _ => true
  | _ => false

/-- The calls `setgid` and `setuid`. -/
def Op.is_drop : Op → Bool
  | Op.setgid _ => true
  | Op.setuid _ => true
  | _ => false

/-- The calls that mount or change the root: `mount`, `chroot` and the calls
made by `setup_dev`. -/
def Op.is_mount_work : Op → Bool
  | Op.mount _ _ _ _ _ => true
  | Op.chroot _ => true
  | Op.openat _ _ => true
  | Op.fstatat _ _ _ => true
  | Op.mknodat _ _ _ _ => true
  | Op.fchmodat _ _ _ _ => true
  | Op.symlinkat _ _ _ => true
  | _ => false

/-- The calls of the privileged phase of the child: `prctl`, `setfsuid`,
`chdir` and the mount work. -/
def Op.is_setup : Op → Bool
  | Op.prctl _ _ _ _ _ => true
  | Op.setfsuid _ => true
  | Op.chdir _ => true
  | op => op.is_mount_work

/-- The libseccomp calls and `uname`: the calls made by `setup_seccomp_v0`. -/
def Op.is_seccomp : Op → Bool
  | Op.seccomp_init _ => true
  | Op.seccomp_arch_add _ => true
  | Op.seccomp_rule_add _ _ _ => true
  | Op.seccomp_load => true
  | Op.seccomp_release => true
  | Op.uname => true
  | _ => false

/-- The calls made between the drop of privileges and `execvp`: `chdir` and
the calls of `setup_seccomp_v0`. -/
def Op.is_exec_prep : Op → Bool
  | Op.chdir _ => true
  | op => op.is_seccomp

/-- A failed call among those the launcher must not survive: `clone`, `prctl`,
`mount`, `chdir`, `chroot`, `setgid`, `setuid` returning a negative value, or
one of the other calls of `setup_dev` returning -1. -/
def Event.failed (e : Event) : Bool :=
  match e.op with
  | Op.clone _ => decide (e.ret < 0)
  | Op.prctl _ _ _ _ _ => decide (e.ret < 0)
  | Op.mount _ _ _ _ _ => decide (e.ret < 0)
  | Op.chdir _ => decide (e.ret < 0)
  | Op.chroot _ => decide (e.ret < 0)
  | Op.setgid _ => decide (e.ret < 0)
  | Op.setuid _ => decide (e.ret < 0)
  | Op.openat _ _ => decide (e.ret = -1)
  | Op.fstatat _ _ _ => decide (e.ret = -1)
  | Op.mknodat _ _ _ _ => decide (e.ret = -1)
  | Op.fchmodat _ _ _ _ => decide (e.ret = -1)
  | Op.symlinkat _ _ _ => decide (e.ret = -1)
  | _ => false

/-- The failures inside `setup_seccomp_v0` that end the process: `seccomp_init`
returning the null pointer, `seccomp_arch_add` failing with an error other
than `EEXIST`, `seccomp_rule_add` for `socket` failing, `seccomp_rule_add` for
another system call returning `-EFAULT`, `seccomp_load` failing. -/
def Event.seccomp_fatal (e : Event) : Bool :=
  match e.op with
  | Op.seccomp_init _ => decide (e.ret = 0)
  | Op.seccomp_arch_add _ => decide (e.ret < 0 ∧ e.ret ≠ -EEXIST)
  | Op.seccomp_rule_add _ syscall _ =>
    if syscall = "socket" then decide (e.ret < 0) else decide (e.ret = -EFAULT)
  | Op.seccomp_load => decide (e.ret < 0)
  | _ => false

/-- A run of a piece of code that makes only calls of the class `cls`, that
stops only by `exit (1)`, and that returns only if no call was `bad`. -/
def Phase {α : Type} (cls : Op → Bool) (bad : Event → Bool) (o : Out α) : Prop :=
  (∀ e ∈ o.events, cls e.op = true) ∧
  (match o.res with
   | Res.ret _ => ∀ e ∈ o.events, bad e = false
   | Res.stop x => x = Stop.exit 1)

/-- A run of a function that makes only calls of the class `cls`, always
returns, and returns a value that is `good` only if no call was `bad`. -/
def Sub {α : Type} (cls : Op → Bool) (bad : Event → Bool) (good : α → Prop) (o : Out α) :
    Prop :=
  (∀ e ∈ o.events, cls e.op = true) ∧
  ∃ a, o.res = Res.ret a ∧ (good a → ∀ e ∈ o.events, bad e = false)

/-! ### The mount options as the command line states them -/

/-- The mount options of a command line in the order in which they are
written, as the usage describes the options: the words are read from the
left; `--mount-bind` takes a source and a destination; `--mount-readonly`,
`--mount-proc` and `--mount-devapi` take a destination; the `--unshare-`
flags take no operand; `--chdir` and `--seccomp-profile-version` take one;
the first word that is no option (or an option short of operands) ends them. -/
def mount_options_in_order : List String → List MountSpec
  | [] => []
  | arg :: rest =>
    if arg = "--mount-bind" then
      match rest with
      | source :: dest :: rest2 =>
        ⟨MountSpecType.MOUNT_SPEC_BIND, some source, dest⟩ :: mount_options_in_order rest2
      | _ => []
    else if arg = "--mount-readonly" then
      match rest with
      | dest :: rest1 =>
        ⟨MountSpecType.MOUNT_SPEC_READONLY, none, dest⟩ :: mount_options_in_order rest1
      | _ => []
    else if arg = "--mount-proc" then
      match rest with
      | dest :: rest1 =>
        ⟨MountSpecType.MOUNT_SPEC_PROCFS, none, dest⟩ :: mount_options_in_order rest1
      | _ => []
    else if arg = "--mount-devapi" then
      match rest with
      | dest :: rest1 =>
        ⟨MountSpecType.MOUNT_SPEC_DEVAPI, none, dest⟩ :: mount_options_in_order rest1
      | _ => []
    else if arg = "--unshare-ipc" ∨ arg = "--unshare-pid" ∨ arg = "--unshare-net" then
      mount_options_in_order rest
    else if arg = "--chdir" ∨ arg = "--seccomp-profile-version" then
      match rest with
      | _ :: rest1 => mount_options_in_order rest1
      | _ => []
    else []

/-! ### What a seccomp filter does (libseccomp) -/

/-- A rule of a filter: the action, the system call, the argument comparisons. -/
structure ScmpRule where
  action : ScmpAction
  syscall : String
  args : List ScmpArgCmp
deriving DecidableEq, Repr

/-- The rules that the calls `es` ask the library for: those of the
`seccomp_rule_add` calls that did not fail, in the order of the calls. -/
def requested_rules : List Event → List ScmpRule
  | [] => []
  | e :: es =>
    match e.op with
    | Op.seccomp_rule_add action syscall args =>
      if 0 ≤ e.ret then ⟨action, syscall, args⟩ :: requested_rules es else requested_rules es
    | _ => requested_rules es

/-- The number of `socket` among the calls that the i386 system call
`socketcall` multiplexes (`SYS_SOCKET`). -/
def SYS_SOCKET : Nat := 1

/-- The rule that `seccomp_rule_add` stores for one architecture of the filter.
The function adds the rule to every architecture, adjusted to it: on x86 the
call `socket` is made through `socketcall`, whose argument 0 is the number of
the multiplexed call, so the rule stored is one for `socketcall` with
argument 0 equal to `SYS_SOCKET`, and the comparison on the address family,
which `socketcall` does not receive as an argument, is not part of it. -/
def stored_rule (arch : ScmpArch) (r : ScmpRule) : ScmpRule :=
  if arch = ScmpArch.SCMP_ARCH_X86 ∧ r.syscall = "socket" then
    ⟨r.action, "socketcall", [⟨0, ScmpCompare.SCMP_CMP_EQ, SYS_SOCKET, 0⟩]⟩
  else r

/-- Whether the filter holds the architecture `arch` after the calls `es`,
`present` saying whether it held it before them: `seccomp_arch_add` puts the
architecture in the filter when it returns 0, and returns `-EEXIST` for an
architecture that the filter holds already. -/
def arch_present (arch : ScmpArch) : Bool → List Event → Bool
  | present, [] => present
  | present, e :: es =>
    match e.op with
    | Op.seccomp_arch_add a =>
      arch_present arch
        (present || (a == arch && (decide (0 ≤ e.ret) || e.ret == -EEXIST))) es
    | _ => arch_present arch present es

/-- The rules that the filter holds for the architecture `arch` after the
calls `es`, `present` saying whether it held the architecture before them: a
`seccomp_rule_add` that did not fail stores its rule for every architecture
that the filter holds at the time of the call; an architecture added later
does not get the rules added before. -/
def stored_rules (arch : ScmpArch) : Bool → List Event → List ScmpRule
  | _, [] => []
  | present, e :: es =>
    match e.op with
    | Op.seccomp_arch_add a =>
      stored_rules arch
        (present || (a == arch && (decide (0 ≤ e.ret) || e.ret == -EEXIST))) es
    | Op.seccomp_rule_add action syscall args =>
      if 0 ≤ e.ret ∧ present = true then
        stored_rule arch ⟨action, syscall, args⟩ :: stored_rules arch present es
      else stored_rules arch present es
    | _ => stored_rules arch present es

/-- Whether the filter built by the calls `es` of a program whose native
architecture is `native` holds the architecture `arch`: `seccomp_init` makes a
filter that holds the native architecture only. -/
def filter_has_arch (native : ScmpArch) (es : List Event) (arch : ScmpArch) : Bool :=
  arch_present arch (arch == native) es

/-- The rules of the filter built by the calls `es` for the architecture
`arch`, in the order they were added. -/
def added_rules (native : ScmpArch) (es : List Event) (arch : ScmpArch) : List ScmpRule :=
  stored_rules arch (arch == native) es

/-- Whether a comparison holds of the arguments of a system call (64-bit
unsigned values; a missing argument reads as 0). -/
def ScmpArgCmp.holds (c : ScmpArgCmp) (args : List Nat) : Bool :=
  match c.op with
  | ScmpCompare.SCMP_CMP_EQ => args.getD c.arg 0 == c.datum_a
  | ScmpCompare.SCMP_CMP_GE => decide (c.datum_a ≤ args.getD c.arg 0)
  | ScmpCompare.SCMP_CMP_MASKED_EQ => (args.getD c.arg 0 &&& c.datum_a) == c.datum_b

/-- A rule applies to a system call when the name is the rule's and every
comparison holds. -/
def ScmpRule.applies (r : ScmpRule) (syscall : String) (args : List Nat) : Bool :=
  r.syscall == syscall && r.args.all (fun c => c.holds args)

/-- The action of a list of rules on a system call: the action of the first
rule that applies, the default action if none does. -/
def rules_action (def_action : ScmpAction) (rules : List ScmpRule) (syscall : String)
    (args : List Nat) : ScmpAction :=
  match rules.find? (fun r => r.applies syscall args) with
  | some r => r.action
  | none => def_action

/-- The action of the filter built by the calls `es`, in a program whose
native architecture is `native`, on the system call `syscall` entered from
code of the architecture `arch` (a `socket` call of i386 code is the system
call `socketcall` with `SYS_SOCKET` as argument 0): `SCMP_ACT_KILL` when the
filter does not hold the architecture, and otherwise the action of the rules
of that architecture. -/
def filter_action (def_action : ScmpAction) (native : ScmpArch) (es : List Event)
    (arch : ScmpArch) (syscall : String) (args : List Nat) : ScmpAction :=
  if filter_has_arch native es arch then
    rules_action def_action (added_rules native es arch) syscall args
  else ScmpAction.SCMP_ACT_KILL

/-! ### Oracles used to run the code on concrete inputs -/

/-- The oracle whose k-th call returns `ret k`; the ids written by
`getresgid` (call 0) and `getresuid` (call 1) are `gids` and `uids`; every
`fstatat` reports a character device of mode 0666; `uname` reports `x86_64`;
`waitpid` writes `status`. -/
def oracle (ret : Nat → Int) (gids uids : Ids) (status : Nat) : World :=
  ⟨ret, fun _ => 0, fun k => if k = 0 then gids else uids, fun _ => ⟨0o20666, 0x103⟩,
    fun _ => "x86_64", fun _ => status⟩

/-- Every call returns 0: the process is the child and every call succeeds
(`seccomp_init` yields the null pointer). -/
def child_oracle : World := oracle (fun _ => 0) ⟨1000, 1000, 1000⟩ ⟨1000, 0, 1000⟩ 0

/-! ### The shapes of the runs of the child and of `launch` -/

/-- The shapes of a run of the child: `pre` holds the calls of the privileged
phase, `post` those made between the drop of privileges and `execvp`. -/
def ChildShape (c : Config) (rgid ruid : Nat) (o : Out Unit) : Prop :=
  (o.res = Res.stop (Stop.exit 1) ∧ (∀ e ∈ o.events, e.op.is_setup = true)) ∨
  (∃ pre r1, o.res = Res.stop (Stop.exit 1) ∧ o.events = pre ++ [⟨Op.setgid rgid, r1⟩] ∧
    (∀ e ∈ pre, e.op.is_setup = true) ∧ (∀ e ∈ pre, e.failed = false) ∧ r1 < 0) ∨
  (∃ pre r1 r2, o.res = Res.stop (Stop.exit 1) ∧
    o.events = pre ++ [⟨Op.setgid rgid, r1⟩, ⟨Op.setuid ruid, r2⟩] ∧
    (∀ e ∈ pre, e.op.is_setup = true) ∧ (∀ e ∈ pre, e.failed = false) ∧ 0 ≤ r1 ∧ r2 < 0) ∨
  (∃ pre r1 r2 post, o.res = Res.stop (Stop.exit 1) ∧
    o.events = pre ++ [⟨Op.setgid rgid, r1⟩, ⟨Op.setuid ruid, r2⟩] ++ post ∧
    (∀ e ∈ pre, e.op.is_setup = true) ∧ (∀ e ∈ pre, e.failed = false) ∧ 0 ≤ r1 ∧ 0 ≤ r2 ∧
    (∀ e ∈ post, e.op.is_exec_prep = true)) ∨
  (∃ pre r1 r2 post r3,
    o.res = (if r3 < 0 then Res.stop (Stop.exit 1)
      else Res.stop (Stop.exec c.program c.program_argv)) ∧
    o.events = pre ++ [⟨Op.setgid rgid, r1⟩, ⟨Op.setuid ruid, r2⟩] ++ post ++
      [⟨Op.execvp c.program c.program_argv, r3⟩] ∧
    (∀ e ∈ pre, e.op.is_setup = true) ∧ (∀ e ∈ pre, e.failed = false) ∧ 0 ≤ r1 ∧ 0 ≤ r2 ∧
    (∀ e ∈ post, e.op.is_exec_prep = true) ∧ (∀ e ∈ post, e.failed = false) ∧
    (c.seccomp_profile_version = 0 ∨ c.seccomp_profile_version = -1))

/-- The value of `ruid` after `getresuid` in a run of `launch` from state `s`. -/
def launch_ruid (w : World) (s : Proc) : Nat := (w.out_ids (s.calls + 1)).r

/-- The value of `rgid` when `launch` calls `clone`: the real gid written by
`getresgid`, replaced by `ruid` when it is 0. -/
def launch_rgid (w : World) (s : Proc) : Nat :=
  if (w.out_ids s.calls).r = 0 then launch_ruid w s else (w.out_ids s.calls).r

/-- The shapes of a run of `launch` from state `s`. -/
def LaunchShape (c : Config) (w : World) (s : Proc) (o : Out Int) : Prop :=
  (w.ret s.calls < 0 ∧ o.res = Res.stop (Stop.exit 1) ∧
    o.events = [⟨Op.getresgid, w.ret s.calls⟩]) ∨
  (0 ≤ w.ret s.calls ∧ w.ret (s.calls + 1) < 0 ∧ o.res = Res.stop (Stop.exit 1) ∧
    o.events = [⟨Op.getresgid, w.ret s.calls⟩, ⟨Op.getresuid, w.ret (s.calls + 1)⟩]) ∨
  (0 ≤ w.ret s.calls ∧ 0 ≤ w.ret (s.calls + 1) ∧ w.ret (s.calls + 2) < 0 ∧
    o.res = Res.stop (Stop.exit 1) ∧
    o.events = [⟨Op.getresgid, w.ret s.calls⟩, ⟨Op.getresuid, w.ret (s.calls + 1)⟩,
      ⟨Op.clone (clone_flags c), w.ret (s.calls + 2)⟩]) ∨
  (0 ≤ w.ret s.calls ∧ 0 ≤ w.ret (s.calls + 1) ∧ w.ret (s.calls + 2) = 0 ∧
    ∃ oc : Out Unit, ChildShape c (launch_rgid w s) (launch_ruid w s) oc ∧
      (∃ x, oc.res = Res.stop x ∧ o.res = Res.stop x) ∧
      o.events = ⟨Op.getresgid, w.ret s.calls⟩ :: ⟨Op.getresuid, w.ret (s.calls + 1)⟩ ::
        ⟨Op.clone (clone_flags c), 0⟩ :: oc.events) ∨
  (0 ≤ w.ret s.calls ∧ 0 ≤ w.ret (s.calls + 1) ∧ 0 < w.ret (s.calls + 2) ∧
    ((w.ret (s.calls + 3) < 0 ∧ o.res = Res.stop (Stop.exit 1) ∧
      o.events = [⟨Op.getresgid, w.ret s.calls⟩, ⟨Op.getresuid, w.ret (s.calls + 1)⟩,
        ⟨Op.clone (clone_flags c), w.ret (s.calls + 2)⟩,
        ⟨Op.setgid (launch_rgid w s), w.ret (s.calls + 3)⟩]) ∨
     (0 ≤ w.ret (s.calls + 3) ∧ w.ret (s.calls + 4) < 0 ∧ o.res = Res.stop (Stop.exit 1) ∧
      o.events = [⟨Op.getresgid, w.ret s.calls⟩, ⟨Op.getresuid, w.ret (s.calls + 1)⟩,
        ⟨Op.clone (clone_flags c), w.ret (s.calls + 2)⟩,
        ⟨Op.setgid (launch_rgid w s), w.ret (s.calls + 3)⟩,
        ⟨Op.setuid (launch_ruid w s), w.ret (s.calls + 4)⟩]) ∨
     (0 ≤ w.ret (s.calls + 3) ∧ 0 ≤ w.ret (s.calls + 4) ∧
      o.res = (if w.ret (s.calls + 5) < 0 then Res.stop (Stop.exit 1)
        else if WIFEXITED (w.out_status (s.calls + 5)) = true then
          Res.ret (WEXITSTATUS (w.out_status (s.calls + 5)) : Int)
        else Res.ret 1) ∧
      o.events = [⟨Op.getresgid, w.ret s.calls⟩, ⟨Op.getresuid, w.ret (s.calls + 1)⟩,
        ⟨Op.clone (clone_flags c), w.ret (s.calls + 2)⟩,
        ⟨Op.setgid (launch_rgid w s), w.ret (s.calls + 3)⟩,
        ⟨Op.setuid (launch_ruid w s), w.ret (s.calls + 4)⟩,
        ⟨Op.waitpid (w.ret (s.calls + 2)) 0, w.ret (s.calls + 5)⟩])))

/-- A command line with one mount option. -/
def sample_argv : List String :=
  ["linux-user-chroot", "--mount-proc", "/proc", "/sandbox", "true"]

/-- What the argument handling fixes for `sample_argv`. -/
def sample_config : Config :=
  ⟨"/sandbox", "true", ["true"], [⟨MountSpecType.MOUNT_SPEC_PROCFS, none, "/proc"⟩],
    false, false, false, "/", -1⟩

/-- The process is the child, and its fourth call after `clone`, the mount of
`proc`, fails. -/
def proc_mount_fails : World :=
  oracle (fun k => if k = 6 then -1 else 0) ⟨1000, 1000, 1000⟩ ⟨1000, 0, 1000⟩ 0

/-- The process is the child, every call succeeds, the real gid is 0 and the
real uid is 1000. -/
def root_group_oracle : World := oracle (fun _ => 0) ⟨0, 0, 0⟩ ⟨1000, 0, 1000⟩ 0

/-- The process is the parent of the child 4242, every call succeeds, and the
status written by `waitpid` is that of a child that called `exit (3)`. -/
def parent_oracle : World :=
  oracle (fun k => if k = 2 then 4242 else 0) ⟨1000, 1000, 1000⟩ ⟨1000, 0, 1000⟩ 0x300

/-- A command line that asks for the seccomp profile version 7. -/
def version7_argv : List String :=
  ["linux-user-chroot", "--seccomp-profile-version", "7", "/sandbox", "true"]

/-- What the argument handling fixes for `version7_argv`. -/
def version7_config : Config :=
  ⟨"/sandbox", "true", ["true"], [], false, false, false, "/", 7⟩

/-- The command line of the usage example: two bind mounts on the same destination. -/
def two_binds_args : List String :=
  ["--mount-bind", "A", "/x", "--mount-bind", "B", "/x", "/sandbox", "true"]

/-- What the argument handling fixes for `two_binds_args`. -/
def two_binds_config : Config :=
  ⟨"/sandbox", "true", ["true"],
    [⟨MountSpecType.MOUNT_SPEC_BIND, some "A", "/x"⟩,
     ⟨MountSpecType.MOUNT_SPEC_BIND, some "B", "/x"⟩],
    false, false, false, "/", -1⟩

/-- The arguments `--mount-proc /proc`, `k` times, then `ROOTDIR PROGRAM`. -/
def many_mounts_args (k : Nat) : List String :=
  (List.replicate k ["--mount-proc", "/proc"]).flatten ++ ["/sandbox", "true"]

/-- The argument `--unshare-net`, `k` times, then `ROOTDIR PROGRAM`. -/
def many_flags_args (k : Nat) : List String :=
  List.replicate k "--unshare-net" ++ ["/sandbox", "true"]

/-- The calls of `setup_seccomp_v0` other than a `seccomp_rule_add` for `socket`. -/
def Op.is_filter_base : Op → Bool
  | Op.seccomp_rule_add _ syscall _ => decide (syscall ≠ "socket")
  | op => op.is_seccomp

/-- The rules that the loop `block_socket_families n i` adds for the list of
families when every `seccomp_rule_add` succeeds. -/
def socket_rules_of (n : Nat) (i : Nat) : List Nat → List ScmpRule
  | [] => []
  | family :: rest =>
    ⟨ScmpAction.SCMP_ACT_ERRNO EAFNOSUPPORT, "socket",
      [SCMP_A0 (if i = n - 1 then ScmpCompare.SCMP_CMP_GE else ScmpCompare.SCMP_CMP_EQ)
        family 0]⟩ :: socket_rules_of n (i + 1) rest

/-- The calls of a run of `setup_seccomp_v0` that returned, around `uname`:
`pre` and `post` add no rule for `socket`, and `mid` adds the rules of the
socket loop when `uname` succeeded on a machine other than `i686`. -/
def SeccompShape (w : World) (es : List Event) : Prop :=
  ∃ pre k mid post, es = pre ++ ⟨Op.uname, w.ret k⟩ :: (mid ++ post) ∧
    (∀ e ∈ pre, e.op.is_filter_base = true) ∧ (∀ e ∈ post, e.op.is_filter_base = true) ∧
    ((w.ret k = 0 ∧ w.out_machine k ≠ "i686") →
      requested_rules mid =
        socket_rules_of socket_family_blacklist.length 0 socket_family_blacklist) ∧
    (¬ (w.ret k = 0 ∧ w.out_machine k ≠ "i686") → mid = [])

/-- For a run of `setup_seccomp_v0` from `Proc.start`: `seccomp_init` (call 0)
yields a context and every later call succeeds. -/
def seccomp_oracle : World :=
  oracle (fun k => if k = 0 then 1 else 0) ⟨1000, 1000, 1000⟩ ⟨1000, 0, 1000⟩ 0

/-- For a run of `setup_seccomp_v0` from `Proc.start` compiled without the
secondary architectures: `seccomp_init` yields a context, the first
`seccomp_rule_add` (call 1, for `syslog`) fails with `-ENOMEM`, every other
call succeeds. -/
def rule_add_enomem : World :=
  oracle (fun k => if k = 0 then 1 else if k = 1 then -12 else 0)
    ⟨1000, 1000, 1000⟩ ⟨1000, 0, 1000⟩ 0

/-- The same failure in a run of `main` on `version0_argv`: the process is the
child, `seccomp_init` is call 15 and the `seccomp_rule_add` for `syslog` is
call 16. -/
def main_rule_add_enomem : World :=
  oracle (fun k => if k = 15 then 1 else if k = 16 then -12 else 0)
    ⟨1000, 1000, 1000⟩ ⟨1000, 0, 1000⟩ 0

/-- A command line that asks for the seccomp profile version 0. -/
def version0_argv : List String :=
  ["linux-user-chroot", "--seccomp-profile-version", "0", "/sandbox", "true"]

/-- The test the code applies to the value a call returned: `true` when the
code treats the call as failed. -/
def Event.refused (e : Event) : Bool :=
  match e.op with
  | Op.openat _ _ => decide (e.ret = -1)
  | Op.fstatat _ _ _ => decide (e.ret = -1)
  | Op.mknodat _ _ _ _ => decide (e.ret ≠ 0)
  | Op.fchmodat _ _ _ _ => decide (e.ret ≠ 0)
  | Op.setfsuid _ => false
  | _ => decide (e.ret < 0)

/-- A run that returns, with a `good` value, when the code treated none of
its calls as failed. -/
def Live {α : Type} (good : α → Prop) (o : Out α) : Prop :=
  (∀ e ∈ o.events, e.refused = false) → ∃ a, o.res = Res.ret a ∧ good a

/-- The calls that change the root of the process: a `mount` with the flag
`MS_MOVE`, and `chroot`. -/
def Op.is_root_move : Op → Bool
  | Op.mount _ _ _ flags _ => decide (flags &&& MS_MOVE ≠ 0)
  | Op.chroot _ => true
  | _ => false

/-- The configuration of `linux-user-chroot / true`: the root is `/` itself. -/
def slash_root_config : Config :=
  ⟨"/", "true", ["true"], [], false, false, false, "/", -1⟩

/-- The permission bits of a file mode (the bits below the file type). -/
def permission_bits (mode : Nat) : Nat := mode &&& 0o7777

/-- The calls of the `for` loop of `setup_dev` when no call fails, the first
of them being call number `k` of the process: for each name, `fstatat` on the
host directory, then `mknodat` in the destination with the `st_mode` and the
`st_rdev` that this `fstatat` wrote, then `fchmodat` with the same `st_mode`. -/
def node_calls (w : World) (src_fd dest_fd : Int) : Nat → List String → List Event
  | _, [] => []
  | k, nodename :: rest =>
    ⟨Op.fstatat src_fd nodename 0, w.ret k⟩ ::
    ⟨Op.mknodat dest_fd nodename (w.out_stat k).st_mode (w.out_stat k).st_rdev, w.ret (k + 1)⟩ ::
    ⟨Op.fchmodat dest_fd nodename (w.out_stat k).st_mode 0, w.ret (k + 2)⟩ ::
    node_calls w src_fd dest_fd (k + 3) rest

/-- The calls of `setup_dev` started as call number `k` when no call fails. -/
def setup_dev_calls (w : World) (dest_devdir : String) (k : Nat) : List Event :=
  [⟨Op.openat "/dev" (O_RDONLY ||| O_NONBLOCK ||| O_DIRECTORY ||| O_CLOEXEC ||| O_NOCTTY),
      w.ret k⟩,
    ⟨Op.mount (some "tmpfs") dest_devdir (some "tmpfs")
      (MS_MGC_VAL ||| MS_PRIVATE ||| MS_NOSUID) (some "mode=0755"), w.ret (k + 1)⟩,
    ⟨Op.openat dest_devdir
      (O_RDONLY ||| O_NONBLOCK ||| O_DIRECTORY ||| O_CLOEXEC ||| O_NOCTTY), w.ret (k + 2)⟩] ++
  node_calls w (w.ret k) (w.ret (k + 2)) (k + 3) devnodes ++
  [⟨Op.symlinkat "/proc/self/fd/0" (w.ret (k + 2)) "stdin", w.ret (k + 21)⟩,
    ⟨Op.symlinkat "/proc/self/fd/1" (w.ret (k + 2)) "stdout", w.ret (k + 22)⟩,
    ⟨Op.symlinkat "/proc/self/fd/2" (w.ret (k + 2)) "stderr", w.ret (k + 23)⟩]

/-- Every call succeeds; the two `openat` calls of `setup_dev` return the
descriptors 3 and 4, and every host node is a character device of mode 0666
(`st_mode` 020666) with device number 1:3. -/
def dev_oracle : World :=
  oracle (fun k => if k = 0 then 3 else if k = 2 then 4 else 0) ⟨1000, 1000, 1000⟩
    ⟨1000, 0, 1000⟩ 0

/-- The `--unshare-` flags of a command line in the order in which they are
written, as the usage describes the options: the words are read from the
left; `--mount-bind` takes two operands; the other `--mount-` options,
`--chdir` and `--seccomp-profile-version` take one; the first word that is no
option (or an option short of operands) ends them. -/
def unshare_options : List String → List String
  | [] => []
  | arg :: rest =>
    if arg = "--mount-bind" then
      match rest with
      | _ :: _ :: rest2 => unshare_options rest2
      | _ => []
    else if arg = "--mount-readonly" ∨ arg = "--mount-proc" ∨ arg = "--mount-devapi" then
      match rest with
      | _ :: rest1 => unshare_options rest1
      | _ => []
    else if arg = "--unshare-ipc" ∨ arg = "--unshare-pid" ∨ arg = "--unshare-net" then
      arg :: unshare_options rest
    else if arg = "--chdir" ∨ arg = "--seccomp-profile-version" then
      match rest with
      | _ :: rest1 => unshare_options rest1
      | _ => []
    else []

/-- The flags the command line asks `clone` for: `SIGCHLD | CLONE_NEWNS`, with
`CLONE_NEWIPC | CLONE_NEWUTS` for `--unshare-ipc`, `CLONE_NEWPID` for
`--unshare-pid` and `CLONE_NEWNET` for `--unshare-net`. -/
def requested_clone_flags (args : List String) : Nat :=
  SIGCHLD ||| CLONE_NEWNS |||
    (if "--unshare-ipc" ∈ unshare_options args then CLONE_NEWIPC ||| CLONE_NEWUTS else 0) |||
    (if "--unshare-pid" ∈ unshare_options args then CLONE_NEWPID else 0) |||
    (if "--unshare-net" ∈ unshare_options args then CLONE_NEWNET else 0)

def Op.is_clone : Op → Bool
  | Op.clone _ => true
  | _ => false

/-- A command line with two of the three `--unshare-` flags. -/
def unshare_args : List String :=
  ["--unshare-ipc", "--chdir", "--unshare-pid", "--unshare-net", "/sandbox", "true"]

/-- What the argument handling makes of `unshare_args`: `--unshare-pid` is the
operand of `--chdir` there, not a flag. -/
def unshare_config : Config :=
  ⟨"/sandbox", "true", ["true"], [], true, true, false, "--unshare-pid", -1⟩

/-! ## linux-user-chroot-newnet.c -/

/-- The library function `perror`: the message and the text of `errno` on
standard error. -/
def perror (message : String) : Run Unit := do
  let e ← get_errno
  eprint (Diag.perror message e)

namespace Newnet

/-- The function `fatal` of linux-user-chroot-newnet.c. -/
def fatal {α : Type} (message : String) : Run α := do
  eprint (Diag.msg message)
  exit 1

/-- The function `fatal_errno` of linux-user-chroot-newnet.c. -/
def fatal_errno {α : Type} (message : String) : Run α := do
  perror message
  exit 1

/-- The function `main` of linux-user-chroot-newnet.c.  The `clone` system
call is made through `syscall (__NR_clone, ...)`; the value it returns is
stored in `child`. -/
def main (argv : List String) : Run Int :=
  match argv with
  | [] => pure 1
  | _ :: program_argv =>
    match program_argv with
    | [] => fatal "PROGRAM argument must be specified"
    | program :: _ => do
      let (g, gids) ← call_out Op.getresgid World.out_ids
      if g < 0 then
        fatal_errno "getresgid"
      let (u, uids) ← call_out Op.getresuid World.out_ids
      if u < 0 then
        fatal_errno "getresuid"
      let ruid := uids.r
      let rgid := if gids.r = 0 then ruid else gids.r
      let child ← call (Op.clone (SIGCHLD ||| CLONE_NEWNET))
      if child < 0 then
        perror "clone"
      if child = 0 then
        if (← call (Op.setgid rgid)) < 0 then
          fatal_errno "setgid"
        if (← call (Op.setuid ruid)) < 0 then
          fatal_errno "setuid"
        if (← execvp program program_argv) < 0 then
          fatal_errno "execv"
      if (← call (Op.setgid rgid)) < 0 then
        fatal_errno "setgid"
      if (← call (Op.setuid ruid)) < 0 then
        fatal_errno "setuid"
      let (r, child_status) ← call_out (Op.waitpid child 0) World.out_status
      if r < 0 then
        fatal_errno "waitpid"
      if WIFEXITED child_status then
        pure (WEXITSTATUS child_status : Int)
      else
        pure 1

end Newnet

/-- The oracle of a run in which `clone` fails (call number 2 returns -1 and
leaves `errno` 12, `ENOMEM`) and every other call succeeds; `waitpid` reports
a child that exited with status 0. -/
def clone_fails : World :=
  ⟨fun k => if k = 2 then -1 else 0, fun k => if k = 2 then 12 else 0,
    fun _ => ⟨1000, 1000, 1000⟩, fun _ => ⟨0o20666, 0x103⟩, fun _ => "x86_64", fun _ => 0⟩

/-- The oracle of a run in which `clone` fails and `waitpid` then fails too
(call number 5 returns -1), as it does when the process has no child. -/
def clone_fails_no_child : World :=
  ⟨fun k => if k = 2 ∨ k = 5 then -1 else 0, fun k => if k = 2 then 12 else if k = 5 then 10 else 0,
    fun _ => ⟨1000, 1000, 1000⟩, fun _ => ⟨0o20666, 0x103⟩, fun _ => "x86_64", fun _ => 0⟩

/-! ### The credentials of the process (setgid(2), setuid(2)) -/

/-- The real, effective and saved user and group ids of a process. -/
structure Creds where
  ruid : Nat
  euid : Nat
  suid : Nat
  rgid : Nat
  egid : Nat
  sgid : Nat
deriving DecidableEq, Repr

/-- The effect of a successful `setgid (gid)`: a process whose effective uid
is 0 sets its real, effective and saved gid; any other process sets its
effective gid only. -/
def Creds.setgid (c : Creds) (gid : Nat) : Creds :=
  if c.euid = 0 then { c with rgid := gid, egid := gid, sgid := gid }
  else { c with egid := gid }

/-- The effect of a successful `setuid (uid)`: a process whose effective uid
is 0 sets its real, effective and saved uid; any other process sets its
effective uid only. -/
def Creds.setuid (c : Creds) (uid : Nat) : Creds :=
  if c.euid = 0 then { c with ruid := uid, euid := uid, suid := uid }
  else { c with euid := uid }

/-- The credentials of the process after the calls `es`, from the credentials
`c`: a `setgid` or `setuid` that did not fail has its effect, a failed one and
every other call of the sources leave the six ids as they are (`clone` hands
them to the child unchanged). -/
def creds_after : Creds → List Event → Creds
  | c, [] => c
  | c, e :: es =>
    match e.op with
    | Op.setgid gid => creds_after (if 0 ≤ e.ret then c.setgid gid else c) es
    | Op.setuid uid => creds_after (if 0 ≤ e.ret then c.setuid uid else c) es
    | _ => creds_after c es

/-- The credentials that `getresgid` and `getresuid` report to `launch` started
in state `s`. -/
def reported_creds (w : World) (s : Proc) : Creds :=
  ⟨(w.out_ids (s.calls + 1)).r, (w.out_ids (s.calls + 1)).e, (w.out_ids (s.calls + 1)).s,
    (w.out_ids s.calls).r, (w.out_ids s.calls).e, (w.out_ids s.calls).s⟩

/-! ### The calls the mounts of a command line ask for -/

/-- The calls that one mount specification asks for under the root
`chroot_dir`, the first of them being call number `k` of the process, when no
call fails: the two mounts of a read-only bind, `chdir` to the source with the
filesystem uid `ruid` and the bind mount of `.` for a bind, the mount of `proc`,
or the calls of `setup_dev`. -/
def mount_spec_calls (w : World) (ruid : Nat) (chroot_dir : String) (k : Nat)
    (m : MountSpec) : List Event :=
  match m.type with
  | MountSpecType.MOUNT_SPEC_READONLY =>
    [⟨Op.mount (some (chroot_dir ++ m.dest)) (chroot_dir ++ m.dest) none
        (MS_BIND ||| MS_PRIVATE) none, w.ret k⟩,
      ⟨Op.mount (some (chroot_dir ++ m.dest)) (chroot_dir ++ m.dest) none
        (MS_BIND ||| MS_PRIVATE ||| MS_REMOUNT ||| MS_RDONLY) none, w.ret (k + 1)⟩]
  | MountSpecType.MOUNT_SPEC_BIND =>
    [⟨Op.setfsuid ruid, w.ret k⟩, ⟨Op.chdir m.source, w.ret (k + 1)⟩,
      ⟨Op.setfsuid 0, w.ret (k + 2)⟩,
      ⟨Op.mount (some ".") (chroot_dir ++ m.dest) none (MS_BIND ||| MS_PRIVATE) none,
        w.ret (k + 3)⟩]
  | MountSpecType.MOUNT_SPEC_PROCFS =>
    [⟨Op.mount (some "proc") (chroot_dir ++ m.dest) (some "proc")
        (MS_MGC_VAL ||| MS_PRIVATE) none, w.ret k⟩]
  | MountSpecType.MOUNT_SPEC_DEVAPI => setup_dev_calls w (chroot_dir ++ m.dest) k

/-- The calls that a list of mount specifications asks for, one specification
after the other in the order of the list. -/
def mount_list_calls (w : World) (ruid : Nat) (chroot_dir : String) :
    Nat → List MountSpec → List Event
  | _, [] => []
  | k, m :: rest =>
    mount_spec_calls w ruid chroot_dir k m ++
      mount_list_calls w ruid chroot_dir
        (k + (mount_spec_calls w ruid chroot_dir k m).length) rest

/-- The three calls at the start of the child, the first being call number `k`. -/
def isolate_calls (w : World) (k : Nat) : List Event :=
  [⟨Op.prctl PR_SET_NO_NEW_PRIVS 1 0 0 0, w.ret k⟩,
    ⟨Op.mount none "/" (some "none") (MS_PRIVATE ||| MS_REC) none, w.ret (k + 1)⟩,
    ⟨Op.mount none "/" (some "none") (MS_PRIVATE ||| MS_REMOUNT ||| MS_NOSUID) none,
      w.ret (k + 2)⟩]

/-- The calls `seccomp_arch_add`. -/
def Op.is_arch_add : Op → Bool
  | Op.seccomp_arch_add _ => true
  | _ => false

/-- The calls `seccomp_rule_add`. -/
def Op.is_rule_add : Op → Bool
  | Op.seccomp_rule_add _ _ _ => true
  | _ => false

/-! ## Laws of sequencing -/

@[simp] theorem cons_res {α : Type} (e : Event) (o : Out α) : (o.cons e).res = o.res := rfl
@[simp] theorem cons_events {α : Type} (e : Event) (o : Out α) :
    (o.cons e).events = e :: o.events := rfl
@[simp] theorem cons_proc {α : Type} (e : Event) (o : Out α) : (o.cons e).proc = o.proc := rfl

theorem run_bind_ret {α β : Type} {m : Run α} {f : α → Run β} {w : World} {s : Proc} {a : α}
    (h : (m w s).res = Res.ret a) :
    (m >>= f) w s = ⟨(f a w (m w s).proc).res, (f a w (m w s).proc).proc,
      (m w s).events ++ (f a w (m w s).proc).events⟩ := by
  show Run.bind m f w s = _
  unfold Run.bind
  rw [h]

theorem run_bind_stop {α β : Type} {m : Run α} {f : α → Run β} {w : World} {s : Proc} {x : Stop}
    (h : (m w s).res = Res.stop x) :
    (m >>= f) w s = ⟨Res.stop x, (m w s).proc, (m w s).events⟩ := by
  show Run.bind m f w s = _
  unfold Run.bind
  rw [h]

@[simp] theorem pure_run {α : Type} (a : α) (w : World) (s : Proc) :
    (pure a : Run α) w s = ⟨Res.ret a, s, []⟩ := rfl

@[simp] theorem bind_pure_run {α β : Type} (a : α) (f : α → Run β) (w : World) (s : Proc) :
    ((pure a : Run α) >>= f) w s = f a w s := by
  rw [run_bind_ret (a := a) rfl]
  simp

@[simp] theorem bind_call_run {β : Type} (op : Op) (f : Int → Run β) (w : World) (s : Proc) :
    (call op >>= f) w s = (f (w.ret s.calls) w (s.after w)).cons ⟨op, w.ret s.calls⟩ := by
  rw [run_bind_ret (a := w.ret s.calls) rfl]
  rfl

@[simp] theorem call_run (op : Op) (w : World) (s : Proc) :
    call op w s = ⟨Res.ret (w.ret s.calls), s.after w, [⟨op, w.ret s.calls⟩]⟩ := rfl

@[simp] theorem bind_call_out_run {β γ : Type} (op : Op) (out : World → Nat → γ)
    (f : Int × γ → Run β) (w : World) (s : Proc) :
    (call_out op out >>= f) w s =
      (f (w.ret s.calls, out w s.calls) w (s.after w)).cons ⟨op, w.ret s.calls⟩ := by
  rw [run_bind_ret (a := (w.ret s.calls, out w s.calls)) rfl]
  rfl

@[simp] theorem bind_get_errno_run {β : Type} (f : Int → Run β) (w : World) (s : Proc) :
    (get_errno >>= f) w s = f s.errno w s := by
  rw [run_bind_ret (a := s.errno) rfl]
  simp [get_errno]

@[simp] theorem bind_set_errno_run {β : Type} (e : Int) (f : Unit → Run β) (w : World)
    (s : Proc) : (set_errno e >>= f) w s = f () w ⟨s.calls, e, s.stderr⟩ := by
  rw [run_bind_ret (a := ()) rfl]
  simp [set_errno]

@[simp] theorem set_errno_run (e : Int) (w : World) (s : Proc) :
    set_errno e w s = ⟨Res.ret (), ⟨s.calls, e, s.stderr⟩, []⟩ := rfl

@[simp] theorem exit_run {α : Type} (code : Int) (w : World) (s : Proc) :
    (exit code : Run α) w s = ⟨Res.stop (Stop.exit code), s, []⟩ := rfl

@[simp] theorem fatal_run {α : Type} (message : String) (w : World) (s : Proc) :
    (fatal message : Run α) w s =
      ⟨Res.stop (Stop.exit 1), ⟨s.calls, s.errno, s.stderr ++ [Diag.msg message]⟩, []⟩ := rfl

@[simp] theorem fatal_errno_run {α : Type} (message : String) (w : World) (s : Proc) :
    (fatal_errno message : Run α) w s =
      ⟨Res.stop (Stop.exit 1),
        ⟨s.calls, s.errno, s.stderr ++ [Diag.perror message s.errno]⟩, []⟩ := rfl

@[simp] theorem die_with_error_run {α : Type} (message : String) (w : World) (s : Proc) :
    (die_with_error message : Run α) w s =
      ⟨Res.stop (Stop.exit 1),
        ⟨s.calls, s.errno, s.stderr ++ [Diag.perror message s.errno]⟩, []⟩ := rfl

@[simp] theorem die_oom_run {α : Type} (w : World) (s : Proc) :
    (die_oom : Run α) w s =
      ⟨Res.stop (Stop.exit 1),
        ⟨s.calls, s.errno, s.stderr ++ [Diag.msg "Out of memory"]⟩, []⟩ := rfl

@[simp] theorem bind_fatal_run {α β : Type} (message : String) (f : α → Run β) (w : World)
    (s : Proc) : ((fatal message : Run α) >>= f) w s = (fatal message : Run β) w s := by
  rw [run_bind_stop (x := Stop.exit 1) rfl]
  rfl

@[simp] theorem bind_fatal_errno_run {α β : Type} (message : String) (f : α → Run β)
    (w : World) (s : Proc) :
    ((fatal_errno message : Run α) >>= f) w s = (fatal_errno message : Run β) w s := by
  rw [run_bind_stop (x := Stop.exit 1) rfl]
  rfl

@[simp] theorem bind_die_with_error_run {α β : Type} (message : String) (f : α → Run β)
    (w : World) (s : Proc) :
    ((die_with_error message : Run α) >>= f) w s = (die_with_error message : Run β) w s := by
  rw [run_bind_stop (x := Stop.exit 1) rfl]
  rfl

@[simp] theorem bind_die_oom_run {α β : Type} (f : α → Run β) (w : World) (s : Proc) :
    ((die_oom : Run α) >>= f) w s = (die_oom : Run β) w s := by
  rw [run_bind_stop (x := Stop.exit 1) rfl]
  rfl

@[simp] theorem bind_exit_run {α β : Type} (code : Int) (f : α → Run β) (w : World)
    (s : Proc) : ((exit code : Run α) >>= f) w s = (exit code : Run β) w s := by
  rw [run_bind_stop (x := Stop.exit code) rfl]
  rfl

@[simp] theorem ite_run {α : Type} (c : Prop) [Decidable c] (a b : Run α) (w : World)
    (s : Proc) : (if c then a else b) w s = if c then a w s else b w s := by
  split_ifs <;> rfl

@[simp] theorem ite_bind_run {α β : Type} (c : Prop) [Decidable c] (a b : Run α)
    (f : α → Run β) (w : World) (s : Proc) :
    ((if c then a else b) >>= f) w s = if c then (a >>= f) w s else (b >>= f) w s := by
  split_ifs <;> rfl

theorem run_bind_assoc {α β γ : Type} (m : Run α) (f : α → Run β) (g : β → Run γ) :
    (m >>= f) >>= g = m >>= fun a => f a >>= g := by
  funext w s
  cases h : (m w s).res with
  | ret a =>
    cases h2 : (f a w (m w s).proc).res with
    | ret b =>
      have e1 : ((m >>= f) w s).res = Res.ret b := by rw [run_bind_ret h]; exact h2
      rw [run_bind_ret e1, run_bind_ret h, run_bind_ret h]
      simp [run_bind_ret h2]
    | stop x =>
      have e1 : ((m >>= f) w s).res = Res.stop x := by rw [run_bind_ret h]; exact h2
      rw [run_bind_stop e1, run_bind_ret h, run_bind_ret h]
      simp [run_bind_stop h2]
  | stop x =>
    have e1 : ((m >>= f) w s).res = Res.stop x := by rw [run_bind_stop h]
    rw [run_bind_stop e1, run_bind_stop h, run_bind_stop h]

/-! ## Phases -/

theorem phase_weaken {α : Type} {cls cls2 : Op → Bool} {bad bad2 : Event → Bool} {o : Out α}
    (h : Phase cls bad o) (hc : ∀ op, cls op = true → cls2 op = true)
    (hb : ∀ e, cls e.op = true → bad e = false → bad2 e = false) : Phase cls2 bad2 o := by
  obtain ⟨h1, h2⟩ := h
  refine ⟨fun e he => hc _ (h1 e he), ?_⟩
  cases hr : o.res with
  | ret a =>
    rw [hr] at h2
    exact fun e he => hb e (h1 e he) (h2 e he)
  | stop x =>
    rw [hr] at h2
    exact h2

theorem phase_bind {α β : Type} {cls : Op → Bool} {bad : Event → Bool} {m : Run α}
    {f : α → Run β} (hm : ∀ w s, Phase cls bad (m w s))
    (hf : ∀ a w s, Phase cls bad (f a w s)) (w : World) (s : Proc) :
    Phase cls bad ((m >>= f) w s) := by
  have h1 := hm w s
  cases hr : (m w s).res with
  | ret a =>
    have h2 := hf a w (m w s).proc
    rw [run_bind_ret hr]
    unfold Phase at h1 h2 ⊢
    rw [hr] at h1
    refine ⟨?_, ?_⟩
    · intro e he
      rcases List.mem_append.mp he with h | h
      · exact h1.1 e h
      · exact h2.1 e h
    · cases hr2 : (f a w (m w s).proc).res with
      | ret b =>
        rw [hr2] at h2
        intro e he
        rcases List.mem_append.mp he with h | h
        · exact h1.2 e h
        · exact h2.2 e h
      | stop x =>
        rw [hr2] at h2
        exact h2.2
  | stop x =>
    rw [run_bind_stop hr]
    unfold Phase at h1 ⊢
    rw [hr] at h1
    exact ⟨h1.1, h1.2⟩

theorem phase_pure {α : Type} (cls : Op → Bool) (bad : Event → Bool) (a : α) (w : World)
    (s : Proc) : Phase cls bad ((pure a : Run α) w s) := by
  simp [Phase]

/-- A phase that returned made no bad call; a phase never ends in `execvp`. -/
theorem phase_stop {α : Type} {cls : Op → Bool} {bad : Event → Bool} {o : Out α}
    (h : Phase cls bad o) {x : Stop} (hx : o.res = Res.stop x) : x = Stop.exit 1 := by
  have h2 := h.2
  rw [hx] at h2
  exact h2

theorem phase_ret {α : Type} {cls : Op → Bool} {bad : Event → Bool} {o : Out α}
    (h : Phase cls bad o) {a : α} (hx : o.res = Res.ret a) : ∀ e ∈ o.events, bad e = false := by
  have h2 := h.2
  rw [hx] at h2
  exact h2

/-! ## The segments of the child -/

theorem child_isolate_phase (w : World) (s : Proc) :
    Phase Op.is_setup Event.failed (child_isolate w s) := by
  simp only [child_isolate, bind_call_run, bind_pure_run, bind_fatal_errno_run,
    fatal_errno_run, pure_run, ite_run]
  split_ifs <;> simp [Phase, Op.is_setup, Op.is_mount_work, Event.failed]
  omega

theorem root_transition_phase (ruid : Nat) (chroot_dir : String) (w : World) (s : Proc) :
    Phase Op.is_setup Event.failed (root_transition ruid chroot_dir w s) := by
  simp only [root_transition, fsuid_chdir, run_bind_assoc, bind_call_run, bind_get_errno_run,
    bind_set_errno_run, bind_pure_run, bind_fatal_errno_run, fatal_errno_run, pure_run, ite_run]
  split_ifs <;> simp [Phase, Op.is_setup, Op.is_mount_work, Event.failed] <;> omega

theorem setup_dev_nodes_sub (src_fd dest_fd : Int) (l : List String) (w : World) (s : Proc) :
    Sub Op.is_setup Event.failed (fun v => v = none) (setup_dev_nodes src_fd dest_fd l w s) := by
  induction l generalizing s with
  | nil => simp [setup_dev_nodes, Sub]
  | cons nodename rest ih =>
    simp only [setup_dev_nodes, bind_call_out_run, bind_call_run, pure_run, ite_run]
    split_ifs with h1 h2 h3
    · simp [Sub, Op.is_setup, Op.is_mount_work]
    · simp [Sub, Op.is_setup, Op.is_mount_work]
    · simp [Sub, Op.is_setup, Op.is_mount_work]
    · obtain ⟨ha, a, hr, hg⟩ := ih (((s.after w).after w).after w)
      refine ⟨?_, a, ?_, ?_⟩
      · intro e he
        simp only [cons_events, List.mem_cons] at he
        rcases he with rfl | rfl | rfl | he
        · rfl
        · rfl
        · rfl
        · exact ha e he
      · simpa using hr
      · intro hgood e he
        simp only [cons_events, List.mem_cons] at he
        rcases he with rfl | rfl | rfl | he
        · simpa [Event.failed] using h1
        · simp only [Event.failed]
          simp at h2
          simp [h2]
        · simp only [Event.failed]
          simp at h3
          simp [h3]
        · exact hg hgood e he

theorem sub_cons {α : Type} {cls : Op → Bool} {bad : Event → Bool} {good : α → Prop}
    {o : Out α} {e : Event} (h : Sub cls bad good o) (hc : cls e.op = true)
    (hb : bad e = false) : Sub cls bad good (o.cons e) := by
  obtain ⟨ha, a, hr, hg⟩ := h
  refine ⟨?_, a, hr, ?_⟩
  · intro e2 he
    rcases List.mem_cons.mp he with rfl | he
    · exact hc
    · exact ha e2 he
  · intro hgood e2 he
    rcases List.mem_cons.mp he with rfl | he
    · exact hb
    · exact hg hgood e2 he

theorem phase_cons {α : Type} {cls : Op → Bool} {bad : Event → Bool} {o : Out α} {e : Event}
    (h : Phase cls bad o) (hc : cls e.op = true) (hb : bad e = false) :
    Phase cls bad (o.cons e) := by
  obtain ⟨ha, h2⟩ := h
  refine ⟨?_, ?_⟩
  · intro e2 he
    rcases List.mem_cons.mp he with rfl | he
    · exact hc
    · exact ha e2 he
  · show match o.res with
      | Res.ret _ => ∀ e2 ∈ e :: o.events, bad e2 = false
      | Res.stop x => x = Stop.exit 1
    cases hr : o.res with
    | ret a =>
      rw [hr] at h2
      intro e2 he
      rcases List.mem_cons.mp he with rfl | he
      · exact hb
      · exact h2 e2 he
    | stop x =>
      rw [hr] at h2
      exact h2

theorem setup_dev_nodes_ret (src_fd dest_fd : Int) (l : List String) (w : World) (s : Proc)
    (a : Option Int) (h : (setup_dev_nodes src_fd dest_fd l w s).res = Res.ret a) :
    a = none ∨ a = some (-1) := by
  induction l generalizing s with
  | nil =>
    simp [setup_dev_nodes] at h
    exact Or.inl h.symm
  | cons nodename rest ih =>
    simp only [setup_dev_nodes, bind_call_out_run, bind_call_run, pure_run, ite_run] at h
    split_ifs at h
    · simp at h; exact Or.inr h.symm
    · simp at h; exact Or.inr h.symm
    · simp at h; exact Or.inr h.symm
    · exact ih _ (by simpa using h)

theorem setup_dev_sub (dest_devdir : String) (w : World) (s : Proc) :
    Sub Op.is_setup Event.failed (fun r => ¬ r < 0) (setup_dev dest_devdir w s) := by
  simp only [setup_dev, bind_call_run, pure_run, ite_run]
  split_ifs with h1 h2 h3
  · simp [Sub, Op.is_setup, Op.is_mount_work]
  · simp [Sub, Op.is_setup, Op.is_mount_work]
  · simp [Sub, Op.is_setup, Op.is_mount_work]
  · simp only [beq_iff_eq] at h1 h3
    refine sub_cons (sub_cons (sub_cons ?_ rfl ?_) rfl ?_) rfl ?_
    · obtain ⟨ha, a, hr, hg⟩ := setup_dev_nodes_sub (w.ret s.calls)
        (w.ret ((s.after w).after w).calls) devnodes w (((s.after w).after w).after w)
      have hv := setup_dev_nodes_ret _ _ _ _ _ _ hr
      rw [run_bind_ret hr]
      rcases hv with rfl | rfl
      · simp only [bind_call_run, pure_run, ite_run]
        have hg2 := hg rfl
        split_ifs with k1 k2 k3
        · simp only [cons_events, cons_res]
          refine ⟨?_, -1, rfl, by simp⟩
          intro e he
          rcases List.mem_append.mp he with h | h
          · exact ha e h
          · simp at h; subst h; rfl
        · simp only [cons_events, cons_res]
          refine ⟨?_, -1, rfl, by simp⟩
          intro e he
          rcases List.mem_append.mp he with h | h
          · exact ha e h
          · simp at h; rcases h with rfl | rfl <;> rfl
        · simp only [cons_events, cons_res]
          refine ⟨?_, -1, rfl, by simp⟩
          intro e he
          rcases List.mem_append.mp he with h | h
          · exact ha e h
          · simp at h; rcases h with rfl | rfl | rfl <;> rfl
        · simp only [cons_events, cons_res]
          refine ⟨?_, 0, rfl, ?_⟩
          · intro e he
            rcases List.mem_append.mp he with h | h
            · exact ha e h
            · simp at h; rcases h with rfl | rfl | rfl <;> rfl
          · intro _ e he
            rcases List.mem_append.mp he with h | h
            · exact hg2 e h
            · simp at h
              rcases h with rfl | rfl | rfl <;> simp [Event.failed] <;> omega
      · simp only [pure_run]
        refine ⟨?_, -1, rfl, by simp⟩
        intro e he
        simp at he
        exact ha e he
    · simp [Event.failed]; exact h3
    · simp [Event.failed]; omega
    · simp [Event.failed]; exact h1

theorem apply_mount_phase (ruid : Nat) (chroot_dir : String) (m : MountSpec) (w : World)
    (s : Proc) : Phase Op.is_setup Event.failed (apply_mount ruid chroot_dir m w s) := by
  unfold apply_mount
  cases m.type with
  | MOUNT_SPEC_BIND =>
    simp only [fsuid_chdir, run_bind_assoc, bind_call_run, bind_get_errno_run,
      bind_set_errno_run, bind_pure_run, bind_fatal_run, bind_fatal_errno_run, fatal_run,
      fatal_errno_run, pure_run, ite_run]
    split_ifs <;> simp [Phase, Op.is_setup, Op.is_mount_work, Event.failed]
    omega
  | MOUNT_SPEC_READONLY =>
    simp only [bind_call_run, bind_pure_run, bind_fatal_errno_run, fatal_errno_run, pure_run,
      ite_run]
    split_ifs <;> simp [Phase, Op.is_setup, Op.is_mount_work, Event.failed]
    omega
  | MOUNT_SPEC_PROCFS =>
    simp only [bind_call_run, bind_pure_run, bind_fatal_errno_run, fatal_errno_run, pure_run,
      ite_run]
    split_ifs <;> simp [Phase, Op.is_setup, Op.is_mount_work, Event.failed]
    omega
  | MOUNT_SPEC_DEVAPI =>
    obtain ⟨ha, a, hr, hg⟩ := setup_dev_sub (chroot_dir ++ m.dest) w s
    simp only []
    rw [run_bind_ret hr]
    simp only [ite_run, fatal_errno_run, pure_run]
    split_ifs with h
    · exact ⟨by simpa using ha, rfl⟩
    · exact ⟨by simpa using ha, by simpa using hg h⟩

theorem apply_mounts_phase (ruid : Nat) (chroot_dir : String) (l : List MountSpec) :
    ∀ (w : World) (s : Proc), Phase Op.is_setup Event.failed (apply_mounts ruid chroot_dir l w s) := by
  induction l with
  | nil => exact fun w s => phase_pure _ _ _ w s
  | cons m rest ih =>
    intro w s
    show Phase _ _ ((apply_mount ruid chroot_dir m >>= fun _ =>
      apply_mounts ruid chroot_dir rest) w s)
    exact phase_bind (apply_mount_phase ruid chroot_dir m) (fun _ => ih) w s

/-- The drop of privileges followed by `f`: the two calls, each fatal when it fails. -/
theorem bind_drop_privileges_run {β : Type} (rgid ruid : Nat) (f : Unit → Run β) (w : World)
    (s : Proc) :
    (drop_privileges rgid ruid >>= f) w s =
      if w.ret s.calls < 0 then
        ((fatal_errno "setgid" : Run β) w (s.after w)).cons ⟨Op.setgid rgid, w.ret s.calls⟩
      else if w.ret (s.calls + 1) < 0 then
        (((fatal_errno "setuid" : Run β) w ((s.after w).after w)).cons
          ⟨Op.setuid ruid, w.ret (s.calls + 1)⟩).cons ⟨Op.setgid rgid, w.ret s.calls⟩
      else
        ((f () w ((s.after w).after w)).cons ⟨Op.setuid ruid, w.ret (s.calls + 1)⟩).cons
          ⟨Op.setgid rgid, w.ret s.calls⟩ := by
  simp only [drop_privileges, run_bind_assoc, ite_bind_run, bind_call_run, bind_pure_run,
    bind_fatal_errno_run, fatal_errno_run, pure_run, ite_run]
  split_ifs <;> simp_all [Proc.after]

theorem filter_base_is_seccomp (op : Op) (h : op.is_filter_base = true) :
    op.is_seccomp = true := by
  cases op <;> simp_all [Op.is_filter_base, Op.is_seccomp]

theorem add_secondary_archs_phase (w : World) (s : Proc) :
    Phase Op.is_filter_base Event.seccomp_fatal (add_secondary_archs w s) := by
  simp only [add_secondary_archs, bind_call_run, bind_pure_run, bind_die_with_error_run,
    die_with_error_run, pure_run, ite_run]
  split_ifs with h1 h2 h3
  · simp [Phase, Op.is_filter_base, Op.is_seccomp]
  · simp [Phase, Op.is_filter_base, Op.is_seccomp]
  · simp [Phase, Op.is_filter_base, Op.is_seccomp]
  · simp only [not_and, not_not] at h1 h2 h3
    simp only [Phase, cons_events, cons_res, List.mem_cons, List.not_mem_nil, or_false,
      forall_eq_or_imp, forall_eq, Op.is_filter_base, Op.is_seccomp, Event.seccomp_fatal,
      decide_eq_false_iff_not, not_and, not_not, true_and]
    exact ⟨h1, h2, h3⟩

theorem block_syscalls_phase (l : List BlacklistEntry)
    (hl : ∀ entry ∈ l, entry.scall ≠ "socket") :
    ∀ (w : World) (s : Proc),
      Phase Op.is_filter_base Event.seccomp_fatal (block_syscalls l w s) := by
  induction l with
  | nil => exact fun w s => phase_pure _ _ _ w s
  | cons entry rest ih =>
    intro w s
    have hne : entry.scall ≠ "socket" := hl entry (List.mem_cons_self _ _)
    have ih2 := ih (fun e he => hl e (List.mem_cons_of_mem _ he))
    unfold block_syscalls
    cases harg : entry.arg with
    | none =>
      simp only [bind_call_run, bind_pure_run, bind_die_with_error_run, die_with_error_run,
        ite_run]
      split_ifs with h
      · simp [Phase, Op.is_filter_base, hne]
      · refine phase_cons (ih2 w _) (by simp [Op.is_filter_base, hne]) ?_
        simp only [Event.seccomp_fatal, if_neg hne]
        simp only [decide_eq_false_iff_not]
        intro h3
        exact h ⟨by rw [h3]; decide, h3⟩
    | some arg =>
      simp only [bind_call_run, bind_pure_run, bind_die_with_error_run, die_with_error_run,
        ite_run]
      split_ifs with h
      · simp [Phase, Op.is_filter_base, hne]
      · refine phase_cons (ih2 w _) (by simp [Op.is_filter_base, hne]) ?_
        simp only [Event.seccomp_fatal, if_neg hne]
        simp only [decide_eq_false_iff_not]
        intro h3
        exact h ⟨by rw [h3]; decide, h3⟩

theorem block_socket_families_phase (n : Nat) (l : List Nat) :
    ∀ (i : Nat) (w : World) (s : Proc),
      Phase Op.is_seccomp Event.seccomp_fatal (block_socket_families n i l w s) := by
  induction l with
  | nil => exact fun i w s => phase_pure _ _ _ w s
  | cons family rest ih =>
    intro i w s
    unfold block_socket_families
    by_cases hi : i = n - 1
    · simp only [if_pos hi, bind_call_run, bind_pure_run, bind_die_with_error_run,
        die_with_error_run, ite_run]
      split_ifs with h
      · simp [Phase, Op.is_seccomp]
      · exact phase_cons (ih _ w _) rfl (by simpa [Event.seccomp_fatal] using h)
    · simp only [if_neg hi, bind_call_run, bind_pure_run, bind_die_with_error_run,
        die_with_error_run, ite_run]
      split_ifs with h
      · simp [Phase, Op.is_seccomp]
      · exact phase_cons (ih _ w _) rfl (by simpa [Event.seccomp_fatal] using h)

theorem syscall_blacklist_no_socket : ∀ entry ∈ syscall_blacklist, entry.scall ≠ "socket" := by
  decide

theorem seccomp_finish_phase (w : World) (s : Proc) :
    Phase Op.is_filter_base Event.seccomp_fatal
      ((do
        let r ← call Op.seccomp_load
        if r < 0 then
          die_with_error "Failed to install seccomp audit filter: "
        let _ ← call Op.seccomp_release : Run Unit) w s) := by
  simp only [bind_call_run, bind_pure_run, bind_die_with_error_run, die_with_error_run,
    pure_run, ite_run]
  split_ifs with h
  · simp [Phase, Op.is_filter_base, Op.is_seccomp]
  · simp [Phase, Op.is_filter_base, Op.is_seccomp, Event.seccomp_fatal]
    omega

theorem phase_base_to_seccomp {α : Type} {o : Out α}
    (h : Phase Op.is_filter_base Event.seccomp_fatal o) :
    Phase Op.is_seccomp Event.seccomp_fatal o :=
  phase_weaken h filter_base_is_seccomp (fun _ _ hb => hb)

theorem setup_seccomp_v0_phase (x86 : Bool) (w : World) (s : Proc) :
    Phase Op.is_seccomp Event.seccomp_fatal (setup_seccomp_v0 x86 w s) := by
  have tail : ∀ (w : World) (s : Proc), Phase Op.is_seccomp Event.seccomp_fatal
      ((do
        block_syscalls syscall_blacklist
        let (u, machine) ← call_out Op.uname World.out_machine
        if u = 0 ∧ machine ≠ "i686" then
          block_socket_families socket_family_blacklist.length 0 socket_family_blacklist
        let r ← call Op.seccomp_load
        if r < 0 then
          die_with_error "Failed to install seccomp audit filter: "
        let _ ← call Op.seccomp_release : Run Unit) w s) := by
    intro w s
    refine phase_bind
      (fun w s => phase_base_to_seccomp (block_syscalls_phase _ syscall_blacklist_no_socket w s))
      (fun _ w s => ?_) w s
    simp only [bind_call_out_run, ite_bind_run, bind_pure_run, ite_run]
    split_ifs with h
    · exact phase_cons (phase_bind (block_socket_families_phase _ _ _)
        (fun _ w s => phase_base_to_seccomp (seccomp_finish_phase w s)) w _) rfl rfl
    · exact phase_cons (phase_base_to_seccomp (seccomp_finish_phase w _)) rfl rfl
  simp only [setup_seccomp_v0, bind_call_run, ite_bind_run, bind_pure_run, bind_die_oom_run,
    die_oom_run, ite_run]
  split_ifs with h1 h2
  · simp [Phase, Op.is_seccomp]
  · refine phase_cons (phase_bind
      (fun w s => phase_base_to_seccomp (add_secondary_archs_phase w s))
      (fun _ w s => tail w s) w _) rfl ?_
    simpa [Event.seccomp_fatal] using h1
  · refine phase_cons (tail w _) rfl ?_
    simpa [Event.seccomp_fatal] using h1

theorem bind_execvp_run {β : Type} (file : String) (argv : List String) (f : Int → Run β)
    (w : World) (s : Proc) :
    (execvp file argv >>= f) w s =
      if w.ret s.calls < 0 then
        (f (w.ret s.calls) w (s.after w)).cons ⟨Op.execvp file argv, w.ret s.calls⟩
      else ⟨Res.stop (Stop.exec file argv), s.after w, [⟨Op.execvp file argv, w.ret s.calls⟩]⟩ := by
  by_cases h : w.ret s.calls < 0
  · have hr : (execvp file argv w s).res = Res.ret (w.ret s.calls) := by simp [execvp, h]
    rw [run_bind_ret hr, if_pos h]
    simp [execvp, h, Out.cons, Proc.after]
  · have hr : (execvp file argv w s).res = Res.stop (Stop.exec file argv) := by
      simp [execvp, h]
    rw [run_bind_stop hr, if_neg h]
    simp [execvp, h, Proc.after]

theorem seccomp_not_failed (e : Event) (h : e.op.is_seccomp = true) : e.failed = false := by
  obtain ⟨op, r⟩ := e
  cases op <;> simp_all [Op.is_seccomp, Event.failed]

theorem child_prepare_exec_phase (x86 : Bool) (c : Config) (w : World) (s : Proc) :
    Phase Op.is_exec_prep Event.failed (child_prepare_exec x86 c w s) := by
  have hs : ∀ (w : World) (s : Proc),
      Phase Op.is_exec_prep Event.failed (setup_seccomp_v0 x86 w s) := fun w s =>
    phase_weaken (setup_seccomp_v0_phase x86 w s)
      (fun op h => by cases op <;> simp_all [Op.is_exec_prep, Op.is_seccomp])
      (fun e h _ => seccomp_not_failed e h)
  simp only [child_prepare_exec, bind_call_run, ite_bind_run, bind_pure_run,
    bind_fatal_errno_run, fatal_errno_run, fatal_run, pure_run, ite_run]
  split_ifs with h1 h2 h3
  · simp [Phase, Op.is_exec_prep]
  · exact phase_cons (hs w _) rfl (by simpa [Event.failed] using h1)
  · simp only [Phase, cons_events, cons_res, List.mem_singleton, forall_eq, Op.is_exec_prep,
      Event.failed, decide_eq_false_iff_not, true_and]
    exact h1
  · simp [Phase, Op.is_exec_prep]

theorem child_prepare_exec_ret (x86 : Bool) (c : Config) (w : World) (s : Proc) (a : Unit)
    (h : (child_prepare_exec x86 c w s).res = Res.ret a) :
    c.seccomp_profile_version = 0 ∨ c.seccomp_profile_version = -1 := by
  simp only [child_prepare_exec, bind_call_run, ite_bind_run, bind_pure_run,
    bind_fatal_errno_run, fatal_errno_run, fatal_run, pure_run, ite_run] at h
  split_ifs at h with h1 h2 h3
  · simp at h
  · exact Or.inl h2
  · exact Or.inr h3
  · simp at h

/-- The privileged phase of the child: the start, the mounts, the change of root. -/
theorem child_setup_phase (c : Config) (ruid : Nat) (w : World) (s : Proc) :
    Phase Op.is_setup Event.failed
      ((do
        child_isolate
        apply_mounts ruid c.chroot_dir c.bind_mounts
        root_transition ruid c.chroot_dir : Run Unit) w s) :=
  phase_bind child_isolate_phase (fun _ w s =>
    phase_bind (apply_mounts_phase ruid c.chroot_dir c.bind_mounts)
      (fun _ w s => root_transition_phase ruid c.chroot_dir w s) w s) w s

theorem child_eq (x86 : Bool) (c : Config) (rgid ruid : Nat) :
    child x86 c rgid ruid =
      (do
        child_isolate
        apply_mounts ruid c.chroot_dir c.bind_mounts
        root_transition ruid c.chroot_dir : Run Unit) >>= fun _ =>
      drop_privileges rgid ruid >>= fun _ =>
      child_prepare_exec x86 c >>= fun _ =>
      execvp c.program c.program_argv >>= fun r =>
      if r < 0 then fatal_errno "execv" else pure () := by
  simp only [run_bind_assoc]
  rfl

theorem child_tail_shape (x86 : Bool) (c : Config) (w : World) (s : Proc) :
    ((child_prepare_exec x86 c >>= fun _ =>
        execvp c.program c.program_argv >>= fun r =>
        if r < 0 then fatal_errno "execv" else pure ()) w s).res = Res.stop (Stop.exit 1) ∧
      (∀ e ∈ ((child_prepare_exec x86 c >>= fun _ =>
        execvp c.program c.program_argv >>= fun r =>
        if r < 0 then fatal_errno "execv" else pure ()) w s).events,
          e.op.is_exec_prep = true) ∨
    ∃ post r3,
      ((child_prepare_exec x86 c >>= fun _ =>
        execvp c.program c.program_argv >>= fun r =>
        if r < 0 then fatal_errno "execv" else pure ()) w s).res =
          (if r3 < 0 then Res.stop (Stop.exit 1)
            else Res.stop (Stop.exec c.program c.program_argv)) ∧
      ((child_prepare_exec x86 c >>= fun _ =>
        execvp c.program c.program_argv >>= fun r =>
        if r < 0 then fatal_errno "execv" else pure ()) w s).events =
          post ++ [⟨Op.execvp c.program c.program_argv, r3⟩] ∧
      (∀ e ∈ post, e.op.is_exec_prep = true) ∧ (∀ e ∈ post, e.failed = false) ∧
      (c.seccomp_profile_version = 0 ∨ c.seccomp_profile_version = -1) := by
  have hprep := child_prepare_exec_phase x86 c w s
  cases hr : (child_prepare_exec x86 c w s).res with
  | stop x =>
    rw [run_bind_stop hr, phase_stop hprep hr]
    exact Or.inl ⟨rfl, hprep.1⟩
  | ret a =>
    rw [run_bind_ret hr, bind_execvp_run]
    refine Or.inr ⟨_, w.ret (child_prepare_exec x86 c w s).proc.calls, ?_, ?_, hprep.1,
      phase_ret hprep hr, child_prepare_exec_ret x86 c w s a hr⟩
    · split_ifs <;> simp
    · split_ifs <;> simp

theorem child_shape (x86 : Bool) (c : Config) (rgid ruid : Nat) (w : World) (s : Proc) :
    ChildShape c rgid ruid (child x86 c rgid ruid w s) := by
  rw [child_eq]
  have hsetup := child_setup_phase c ruid w s
  cases hr : ((do
        child_isolate
        apply_mounts ruid c.chroot_dir c.bind_mounts
        root_transition ruid c.chroot_dir : Run Unit) w s).res with
  | stop x =>
    rw [run_bind_stop hr]
    rw [phase_stop hsetup hr]
    exact Or.inl ⟨rfl, hsetup.1⟩
  | ret a =>
    rw [run_bind_ret hr, bind_drop_privileges_run]
    have hnf := phase_ret hsetup hr
    have hcls := hsetup.1
    generalize ((do
        child_isolate
        apply_mounts ruid c.chroot_dir c.bind_mounts
        root_transition ruid c.chroot_dir : Run Unit) w s) = o1 at hnf hcls ⊢
    split_ifs with h1 h2
    · exact Or.inr (Or.inl ⟨_, w.ret _, rfl, rfl, hcls, hnf, h1⟩)
    · exact Or.inr (Or.inr (Or.inl
        ⟨_, w.ret _, w.ret _, rfl, rfl, hcls, hnf, not_lt.mp h1, h2⟩))
    · rcases child_tail_shape x86 c w ((o1.proc.after w).after w) with
        ⟨k1, k2⟩ | ⟨post, r3, k1, k2, k3, k4, k5⟩
      · refine Or.inr (Or.inr (Or.inr (Or.inl
          ⟨o1.events, w.ret _, w.ret _, _, ?_, ?_, hcls, hnf, not_lt.mp h1, not_lt.mp h2, k2⟩)))
        · simpa using k1
        · simp
      · refine Or.inr (Or.inr (Or.inr (Or.inr
          ⟨o1.events, w.ret _, w.ret _, post, r3, ?_, ?_, hcls, hnf, not_lt.mp h1,
            not_lt.mp h2, k3, k4, k5⟩)))
        · simpa using k1
        · simp [k2]

theorem child_shape_stops {c : Config} {rgid ruid : Nat} {o : Out Unit}
    (h : ChildShape c rgid ruid o) : ∃ x, o.res = Res.stop x := by
  rcases h with ⟨h, _⟩ | ⟨_, _, h, _⟩ | ⟨_, _, _, h, _⟩ | ⟨_, _, _, _, h, _⟩ |
    ⟨_, _, _, _, r3, h, _⟩
  · exact ⟨_, h⟩
  · exact ⟨_, h⟩
  · exact ⟨_, h⟩
  · exact ⟨_, h⟩
  · by_cases h3 : r3 < 0
    · exact ⟨_, by rw [h, if_pos h3]⟩
    · exact ⟨_, by rw [h, if_neg h3]⟩

@[simp] theorem after_calls (w : World) (s : Proc) : (s.after w).calls = s.calls + 1 := rfl

theorem launch_shape (x86 : Bool) (c : Config) (w : World) (s : Proc) :
    LaunchShape c w s (launch x86 c w s) := by
  have e1 : (w.out_ids (s.calls + 1)).r = launch_ruid w s := rfl
  have e2 : (if (w.out_ids s.calls).r = 0 then launch_ruid w s else (w.out_ids s.calls).r) =
      launch_rgid w s := rfl
  simp only [launch, raw_clone, bind_call_out_run, bind_call_run, ite_bind_run, bind_pure_run,
    bind_fatal_errno_run, fatal_errno_run, ite_run, after_calls, e1, e2]
  split_ifs with h1 h2 h3 h4
  · exact Or.inl ⟨h1, rfl, rfl⟩
  · exact Or.inr (Or.inl ⟨not_lt.mp h1, h2, rfl, rfl⟩)
  · exact Or.inr (Or.inr (Or.inl ⟨not_lt.mp h1, not_lt.mp h2, h3, rfl, rfl⟩))
  · refine Or.inr (Or.inr (Or.inr (Or.inl ⟨not_lt.mp h1, not_lt.mp h2, h4, ?_⟩)))
    have hc := child_shape x86 c (launch_rgid w s) (launch_ruid w s) w
      (((s.after w).after w).after w)
    obtain ⟨x, hx⟩ := child_shape_stops hc
    rw [run_bind_stop hx]
    refine ⟨_, hc, ⟨x, hx, rfl⟩, ?_⟩
    simp only [cons_events]
    rw [show w.ret (s.calls + 1 + 1) = 0 from h4]
  · refine Or.inr (Or.inr (Or.inr (Or.inr ⟨not_lt.mp h1, not_lt.mp h2, ?_, ?_⟩)))
    · exact lt_of_le_of_ne (not_lt.mp h3) (Ne.symm h4)
    · rw [bind_drop_privileges_run]
      simp only [bind_call_out_run, ite_bind_run, bind_pure_run, bind_fatal_errno_run,
        fatal_errno_run, pure_run, ite_run, after_calls, Nat.add_assoc, Nat.reduceAdd]
      by_cases k1 : w.ret (s.calls + 3) < 0
      · rw [if_pos k1]
        exact Or.inl ⟨k1, rfl, rfl⟩
      · rw [if_neg k1]
        by_cases k2 : w.ret (s.calls + 4) < 0
        · rw [if_pos k2]
          exact Or.inr (Or.inl ⟨not_lt.mp k1, k2, rfl, rfl⟩)
        · rw [if_neg k2]
          refine Or.inr (Or.inr ⟨not_lt.mp k1, not_lt.mp k2, ?_, ?_⟩)
          · simp only [cons_res]
            split_ifs <;> rfl
          · simp only [cons_events]
            split_ifs <;> rfl

theorem setup_not_execvp {op : Op} (h : op.is_setup = true) : op.is_execvp = false := by
  cases op <;> simp_all [Op.is_setup, Op.is_mount_work, Op.is_execvp]

theorem exec_prep_not_execvp {op : Op} (h : op.is_exec_prep = true) : op.is_execvp = false := by
  cases op <;> simp_all [Op.is_exec_prep, Op.is_seccomp, Op.is_execvp]

/-- In a run of the child, a failed call ends the process with status 1
before `execvp` is reached. -/
theorem child_shape_failed_fatal {c : Config} {rgid ruid : Nat} {o : Out Unit}
    (hs : ChildShape c rgid ruid o) (h : ∃ e ∈ o.events, e.failed = true) :
    o.res = Res.stop (Stop.exit 1) ∧ ∀ e ∈ o.events, e.op.is_execvp = false := by
  rcases hs with ⟨h1, h2⟩ | ⟨pre, r1, h1, h2, h3, h4, h5⟩ | ⟨pre, r1, r2, h1, h2, h3, h4, h5, h6⟩ |
    ⟨pre, r1, r2, post, h1, h2, h3, h4, h5, h6, h7⟩ |
    ⟨pre, r1, r2, post, r3, h1, h2, h3, h4, h5, h6, h7, h8, h9⟩
  · exact ⟨h1, fun e he => setup_not_execvp (h2 e he)⟩
  · refine ⟨h1, ?_⟩
    rw [h2]
    intro e he
    rcases List.mem_append.mp he with he | he
    · exact setup_not_execvp (h3 e he)
    · simp at he; subst he; rfl
  · refine ⟨h1, ?_⟩
    rw [h2]
    intro e he
    rcases List.mem_append.mp he with he | he
    · exact setup_not_execvp (h3 e he)
    · simp at he; rcases he with rfl | rfl <;> rfl
  · refine ⟨h1, ?_⟩
    rw [h2]
    intro e he
    rcases List.mem_append.mp he with he | he
    · rcases List.mem_append.mp he with he | he
      · exact setup_not_execvp (h3 e he)
      · simp at he; rcases he with rfl | rfl <;> rfl
    · exact exec_prep_not_execvp (h7 e he)
  · exfalso
    obtain ⟨e, he, hf⟩ := h
    rw [h2] at he
    simp only [List.mem_append, List.mem_cons, List.mem_singleton, List.not_mem_nil,
      or_false] at he
    rcases he with ((he | he | he) | he) | he
    · rw [h4 e he] at hf; cases hf
    · subst he
      simp [Event.failed] at hf
      omega
    · subst he
      simp [Event.failed] at hf
      omega
    · rw [h8 e he] at hf; cases hf
    · subst he
      simp [Event.failed] at hf

theorem launch_failed_fatal (x86 : Bool) (c : Config) (w : World) (s : Proc)
    (h : ∃ e ∈ (launch x86 c w s).events, e.failed = true) :
    (launch x86 c w s).res = Res.stop (Stop.exit 1) ∧
      ∀ e ∈ (launch x86 c w s).events, e.op.is_execvp = false := by
  rcases launch_shape x86 c w s with ⟨_, h1, h2⟩ | ⟨_, _, h1, h2⟩ | ⟨_, _, _, h1, h2⟩ |
    ⟨_, _, _, oc, hc, ⟨x, hx1, hx2⟩, h2⟩ | ⟨_, _, hp, hpar⟩
  · exact ⟨h1, by rw [h2]; simp [Op.is_execvp]⟩
  · exact ⟨h1, by rw [h2]; simp [Op.is_execvp]⟩
  · exact ⟨h1, by rw [h2]; simp [Op.is_execvp]⟩
  · have hfail : ∃ e ∈ oc.events, e.failed = true := by
      obtain ⟨e, he, hf⟩ := h
      rw [h2] at he
      simp only [List.mem_cons] at he
      rcases he with rfl | rfl | rfl | he
      · simp [Event.failed] at hf
      · simp [Event.failed] at hf
      · simp [Event.failed] at hf
      · exact ⟨e, he, hf⟩
    obtain ⟨k1, k2⟩ := child_shape_failed_fatal hc hfail
    have hx : x = Stop.exit 1 := by
      rw [hx1] at k1
      exact Res.stop.inj k1
    refine ⟨by rw [hx2, hx], ?_⟩
    rw [h2]
    intro e he
    simp only [List.mem_cons] at he
    rcases he with rfl | rfl | rfl | he
    · rfl
    · rfl
    · rfl
    · exact k2 e he
  · rcases hpar with ⟨_, h1, h2⟩ | ⟨_, _, h1, h2⟩ | ⟨k1, k2, h1, h2⟩
    · exact ⟨h1, by rw [h2]; simp [Op.is_execvp]⟩
    · exact ⟨h1, by rw [h2]; simp [Op.is_execvp]⟩
    · exfalso
      obtain ⟨e, he, hf⟩ := h
      rw [h2] at he
      simp only [List.mem_cons, List.not_mem_nil, or_false] at he
      rcases he with rfl | rfl | rfl | rfl | rfl | rfl <;> simp [Event.failed] at hf <;> omega

theorem main_ok {x86 : Bool} {argv0 : String} {args : List String} {c : Config}
    (h : parse_command_line argv0 args = Parsed.ok c) :
    main x86 (argv0 :: args) = launch x86 c := by
  simp only [main, h]

theorem main_nil (x86 : Bool) : main x86 [] = pure 1 := rfl

theorem main_fatal {x86 : Bool} {argv0 : String} {args : List String} {message : String}
    (h : parse_command_line argv0 args = Parsed.fatal message) :
    main x86 (argv0 :: args) = fatal message := by
  simp only [main, h]

theorem main_help {x86 : Bool} {argv0 : String} {args : List String}
    (h : parse_command_line argv0 args = Parsed.help) :
    main x86 (argv0 :: args) = exit 0 := by
  simp only [main, h]

theorem main_version {x86 : Bool} {argv0 : String} {args : List String}
    (h : parse_command_line argv0 args = Parsed.version) :
    main x86 (argv0 :: args) = exit 0 := by
  simp only [main, h]

/-- C1. In every run of `main`, for every outcome of the library calls: if
`clone`, `prctl`, a `mount`, a `chdir` (those of `fsuid_chdir` included),
`chroot`, `setgid` or `setuid` returns a negative value, or one of the other
calls of `setup_dev` returns -1, then the process ends by `exit (1)` and
`execvp` is not among the calls it made. -/
theorem failed_call_is_fatal (x86 : Bool) (argv : List String) (w : World) (s : Proc)
    (h : ∃ e ∈ (main x86 argv w s).events, e.failed = true) :
    (main x86 argv w s).res = Res.stop (Stop.exit 1) ∧
      ∀ e ∈ (main x86 argv w s).events, e.op.is_execvp = false := by
  cases argv with
  | nil => simp [main_nil] at h
  | cons argv0 args =>
    cases hp : parse_command_line argv0 args with
    | ok c =>
      rw [main_ok hp] at h ⊢
      exact launch_failed_fatal x86 c w s h
    | fatal message =>
      rw [main_fatal hp] at h
      simp at h
    | help =>
      rw [main_help hp] at h
      simp at h
    | version =>
      rw [main_version hp] at h
      simp at h


theorem setup_not_drop {op : Op} (h : op.is_setup = true) : op.is_drop = false := by
  cases op <;> simp_all [Op.is_setup, Op.is_mount_work, Op.is_drop]

theorem exec_prep_not_drop {op : Op} (h : op.is_exec_prep = true) : op.is_drop = false := by
  cases op <;> simp_all [Op.is_exec_prep, Op.is_seccomp, Op.is_drop]

theorem exec_prep_not_mount_work {op : Op} (h : op.is_exec_prep = true) :
    op.is_mount_work = false := by
  cases op <;> simp_all [Op.is_exec_prep, Op.is_seccomp, Op.is_mount_work]

/-- C2. In every run of the child in which `execvp` is called, the calls are
`pre`, then `setgid (rgid)`, then `setuid (ruid)`, then `post`, then `execvp`:
both calls succeed, `pre` and `post` hold no `setgid`, `setuid` or `execvp`,
and `post` holds no `mount`, no `chroot` and no call of `setup_dev`, so every
such call is in `pre`. -/
theorem drop_between_mounts_and_exec (x86 : Bool) (c : Config) (rgid ruid : Nat) (w : World)
    (s : Proc) (h : ∃ e ∈ (child x86 c rgid ruid w s).events, e.op.is_execvp = true) :
    ∃ pre post r1 r2 r3,
      (child x86 c rgid ruid w s).events =
        pre ++ [⟨Op.setgid rgid, r1⟩, ⟨Op.setuid ruid, r2⟩] ++ post ++
          [⟨Op.execvp c.program c.program_argv, r3⟩] ∧
      0 ≤ r1 ∧ 0 ≤ r2 ∧
      (∀ e ∈ pre, e.op.is_drop = false ∧ e.op.is_execvp = false) ∧
      (∀ e ∈ post, e.op.is_drop = false ∧ e.op.is_execvp = false ∧
        e.op.is_mount_work = false) := by
  have hnot : ¬ ∀ e ∈ (child x86 c rgid ruid w s).events, e.op.is_execvp = false := by
    obtain ⟨e, he, hx⟩ := h
    intro hall
    rw [hall e he] at hx
    cases hx
  rcases child_shape x86 c rgid ruid w s with ⟨h1, h2⟩ | ⟨pre, r1, h1, h2, h3, h4, h5⟩ |
    ⟨pre, r1, r2, h1, h2, h3, h4, h5, h6⟩ | ⟨pre, r1, r2, post, h1, h2, h3, h4, h5, h6, h7⟩ |
    ⟨pre, r1, r2, post, r3, h1, h2, h3, h4, h5, h6, h7, h8, h9⟩
  · exact absurd (fun e he => setup_not_execvp (h2 e he)) hnot
  · refine absurd ?_ hnot
    rw [h2]
    intro e he
    rcases List.mem_append.mp he with he | he
    · exact setup_not_execvp (h3 e he)
    · simp at he; subst he; rfl
  · refine absurd ?_ hnot
    rw [h2]
    intro e he
    rcases List.mem_append.mp he with he | he
    · exact setup_not_execvp (h3 e he)
    · simp at he; rcases he with rfl | rfl <;> rfl
  · refine absurd ?_ hnot
    rw [h2]
    intro e he
    rcases List.mem_append.mp he with he | he
    · rcases List.mem_append.mp he with he | he
      · exact setup_not_execvp (h3 e he)
      · simp at he; rcases he with rfl | rfl <;> rfl
    · exact exec_prep_not_execvp (h7 e he)
  · exact ⟨pre, post, r1, r2, r3, h2, h5, h6,
      fun e he => ⟨setup_not_drop (h3 e he), setup_not_execvp (h3 e he)⟩,
      fun e he => ⟨exec_prep_not_drop (h7 e he), exec_prep_not_execvp (h7 e he),
        exec_prep_not_mount_work (h7 e he)⟩⟩

/-- C7. In every run of the child the first call is
`prctl (PR_SET_NO_NEW_PRIVS, 1, 0, 0, 0)`; if it fails the process ends by
`exit (1)` with no further call; otherwise the second call is the remount of
`/` with `MS_PRIVATE | MS_REC`, fatal in the same way, and otherwise the third
call is the remount of `/` with `MS_PRIVATE | MS_REMOUNT | MS_NOSUID`, fatal in
the same way.  Every other call of the child (the mounts of the list,
`setup_dev`, the change of root) is in `rest3`, after the three. -/
theorem child_starts_isolated (x86 : Bool) (c : Config) (rgid ruid : Nat) (w : World)
    (s : Proc) :
    ∃ rest, (child x86 c rgid ruid w s).events =
        ⟨Op.prctl PR_SET_NO_NEW_PRIVS 1 0 0 0, w.ret s.calls⟩ :: rest ∧
      (w.ret s.calls < 0 →
        rest = [] ∧ (child x86 c rgid ruid w s).res = Res.stop (Stop.exit 1)) ∧
      (0 ≤ w.ret s.calls →
        ∃ rest2, rest = ⟨Op.mount none "/" (some "none") (MS_PRIVATE ||| MS_REC) none,
            w.ret (s.calls + 1)⟩ :: rest2 ∧
          (w.ret (s.calls + 1) < 0 →
            rest2 = [] ∧ (child x86 c rgid ruid w s).res = Res.stop (Stop.exit 1)) ∧
          (0 ≤ w.ret (s.calls + 1) →
            ∃ rest3, rest2 = ⟨Op.mount none "/" (some "none")
                (MS_PRIVATE ||| MS_REMOUNT ||| MS_NOSUID) none, w.ret (s.calls + 2)⟩ :: rest3 ∧
              (w.ret (s.calls + 2) < 0 →
                rest3 = [] ∧ (child x86 c rgid ruid w s).res = Res.stop (Stop.exit 1)))) := by
  simp only [child, child_isolate, run_bind_assoc, bind_call_run, ite_bind_run, bind_pure_run,
    bind_fatal_errno_run, fatal_errno_run, ite_run, after_calls, Nat.add_assoc, Nat.reduceAdd]
  by_cases h1 : w.ret s.calls < 0
  · rw [if_pos h1]
    exact ⟨[], rfl, fun _ => ⟨rfl, rfl⟩, fun h => absurd h1 (not_lt.mpr h)⟩
  · rw [if_neg h1]
    refine ⟨_, rfl, fun h => absurd h h1, fun _ => ?_⟩
    by_cases h2 : w.ret (s.calls + 1) < 0
    · rw [if_pos h2]
      exact ⟨[], rfl, fun _ => ⟨rfl, rfl⟩, fun h => absurd h2 (not_lt.mpr h)⟩
    · rw [if_neg h2]
      refine ⟨_, rfl, fun h => absurd h h2, fun _ => ?_⟩
      by_cases h3 : w.ret (s.calls + 2) < 0
      · rw [if_pos h3]
        exact ⟨[], rfl, fun _ => ⟨rfl, rfl⟩⟩
      · rw [if_neg h3]
        exact ⟨_, rfl, fun h => absurd h h3⟩


theorem setup_not_drop_op {e : Event} (h : e.op.is_setup = true) (hd : e.op.is_drop = true) :
    False := by
  rw [setup_not_drop h] at hd
  cases hd

theorem child_shape_drop_ids {c : Config} {rgid ruid : Nat} {o : Out Unit}
    (hs : ChildShape c rgid ruid o) :
    ∀ e ∈ o.events, e.op.is_drop = true → e.op = Op.setgid rgid ∨ e.op = Op.setuid ruid := by
  intro e he hd
  rcases hs with ⟨h1, h2⟩ | ⟨pre, r1, h1, h2, h3, h4, h5⟩ | ⟨pre, r1, r2, h1, h2, h3, h4, h5, h6⟩ |
    ⟨pre, r1, r2, post, h1, h2, h3, h4, h5, h6, h7⟩ |
    ⟨pre, r1, r2, post, r3, h1, h2, h3, h4, h5, h6, h7, h8, h9⟩
  · exact (setup_not_drop_op (h2 e he) hd).elim
  · rw [h2] at he
    simp only [List.mem_append, List.mem_cons, List.not_mem_nil, or_false] at he
    rcases he with he | rfl
    · exact (setup_not_drop_op (h3 e he) hd).elim
    · exact Or.inl rfl
  · rw [h2] at he
    simp only [List.mem_append, List.mem_cons, List.not_mem_nil, or_false] at he
    rcases he with he | rfl | rfl
    · exact (setup_not_drop_op (h3 e he) hd).elim
    · exact Or.inl rfl
    · exact Or.inr rfl
  · rw [h2] at he
    simp only [List.mem_append, List.mem_cons, List.not_mem_nil, or_false] at he
    rcases he with (he | rfl | rfl) | he
    · exact (setup_not_drop_op (h3 e he) hd).elim
    · exact Or.inl rfl
    · exact Or.inr rfl
    · rw [exec_prep_not_drop (h7 e he)] at hd; cases hd
  · rw [h2] at he
    simp only [List.mem_append, List.mem_cons, List.not_mem_nil, or_false] at he
    rcases he with ((he | rfl | rfl) | he) | rfl
    · exact (setup_not_drop_op (h3 e he) hd).elim
    · exact Or.inl rfl
    · exact Or.inr rfl
    · rw [exec_prep_not_drop (h7 e he)] at hd; cases hd
    · cases hd

theorem launch_drop_ids (x86 : Bool) (c : Config) (w : World) (s : Proc) :
    ∀ e ∈ (launch x86 c w s).events, e.op.is_drop = true →
      e.op = Op.setgid (launch_rgid w s) ∨ e.op = Op.setuid (launch_ruid w s) := by
  intro e he hd
  rcases launch_shape x86 c w s with ⟨_, h1, h2⟩ | ⟨_, _, h1, h2⟩ | ⟨_, _, _, h1, h2⟩ |
    ⟨_, _, _, oc, hc, ⟨x, hx1, hx2⟩, h2⟩ | ⟨_, _, hp, hpar⟩
  · rw [h2] at he
    simp only [List.mem_cons, List.not_mem_nil, or_false] at he
    subst he; cases hd
  · rw [h2] at he
    simp only [List.mem_cons, List.not_mem_nil, or_false] at he
    rcases he with rfl | rfl <;> cases hd
  · rw [h2] at he
    simp only [List.mem_cons, List.not_mem_nil, or_false] at he
    rcases he with rfl | rfl | rfl <;> cases hd
  · rw [h2] at he
    simp only [List.mem_cons] at he
    rcases he with rfl | rfl | rfl | he
    · cases hd
    · cases hd
    · cases hd
    · exact child_shape_drop_ids hc e he hd
  · rcases hpar with ⟨_, h1, h2⟩ | ⟨_, _, h1, h2⟩ | ⟨k1, k2, h1, h2⟩
    · rw [h2] at he
      simp only [List.mem_cons, List.not_mem_nil, or_false] at he
      rcases he with rfl | rfl | rfl | rfl
      · cases hd
      · cases hd
      · cases hd
      · exact Or.inl rfl
    · rw [h2] at he
      simp only [List.mem_cons, List.not_mem_nil, or_false] at he
      rcases he with rfl | rfl | rfl | rfl | rfl
      · cases hd
      · cases hd
      · cases hd
      · exact Or.inl rfl
      · exact Or.inr rfl
    · rw [h2] at he
      simp only [List.mem_cons, List.not_mem_nil, or_false] at he
      rcases he with rfl | rfl | rfl | rfl | rfl | rfl
      · cases hd
      · cases hd
      · cases hd
      · exact Or.inl rfl
      · exact Or.inr rfl
      · cases hd

theorem creds_after_no_drop (c : Creds) (es : List Event)
    (h : ∀ e ∈ es, e.op.is_drop = false) : creds_after c es = c := by
  induction es with
  | nil => rfl
  | cons e rest ih =>
    have h1 := h e (List.mem_cons_self _ _)
    have h2 := ih (fun e2 he2 => h e2 (List.mem_cons_of_mem _ he2))
    obtain ⟨op, r⟩ := e
    cases op <;> simp_all [creds_after, Op.is_drop]

theorem creds_after_append (c : Creds) (a b : List Event) :
    creds_after c (a ++ b) = creds_after (creds_after c a) b := by
  induction a generalizing c with
  | nil => rfl
  | cons e rest ih =>
    obtain ⟨op, r⟩ := e
    cases op <;> simp only [List.cons_append, creds_after] <;> exact ih _

/-- The `setgid` and `setuid` calls of a run of the child: none, or a failed
`setgid` at the end, or `setgid` that succeeded followed at once by `setuid`. -/
theorem child_shape_drop_shape {c : Config} {rgid ruid : Nat} {o : Out Unit}
    (hs : ChildShape c rgid ruid o) :
    (∀ e ∈ o.events, e.op.is_drop = false) ∨
    (∃ pre r1, o.events = pre ++ [⟨Op.setgid rgid, r1⟩] ∧ r1 < 0 ∧
      ∀ e ∈ pre, e.op.is_drop = false) ∨
    (∃ pre r1 r2 post, o.events = pre ++ [⟨Op.setgid rgid, r1⟩, ⟨Op.setuid ruid, r2⟩] ++ post ∧
      0 ≤ r1 ∧ (∀ e ∈ pre, e.op.is_drop = false) ∧ (∀ e ∈ post, e.op.is_drop = false)) := by
  rcases hs with ⟨_, h2⟩ | ⟨pre, r1, _, h2, h3, _, h5⟩ | ⟨pre, r1, r2, _, h2, h3, _, h5, _⟩ |
    ⟨pre, r1, r2, post, _, h2, h3, _, h5, _, h7⟩ |
    ⟨pre, r1, r2, post, r3, _, h2, h3, _, h5, _, h7, _, _⟩
  · exact Or.inl (fun e he => setup_not_drop (h2 e he))
  · exact Or.inr (Or.inl ⟨pre, r1, h2, h5, fun e he => setup_not_drop (h3 e he)⟩)
  · exact Or.inr (Or.inr ⟨pre, r1, r2, [], by simpa using h2, h5,
      fun e he => setup_not_drop (h3 e he), by simp⟩)
  · exact Or.inr (Or.inr ⟨pre, r1, r2, post, h2, h5, fun e he => setup_not_drop (h3 e he),
      fun e he => exec_prep_not_drop (h7 e he)⟩)
  · refine Or.inr (Or.inr ⟨pre, r1, r2, post ++ [⟨Op.execvp c.program c.program_argv, r3⟩],
      by simpa using h2, h5, fun e he => setup_not_drop (h3 e he), ?_⟩)
    intro e he
    rcases List.mem_append.mp he with h | h
    · exact exec_prep_not_drop (h7 e h)
    · simp at h
      subst h
      rfl

theorem launch_drop_shape (x86 : Bool) (c : Config) (w : World) (s : Proc) :
    (∀ e ∈ (launch x86 c w s).events, e.op.is_drop = false) ∨
    (∃ pre r1, (launch x86 c w s).events = pre ++ [⟨Op.setgid (launch_rgid w s), r1⟩] ∧ r1 < 0 ∧
      ∀ e ∈ pre, e.op.is_drop = false) ∨
    (∃ pre r1 r2 post, (launch x86 c w s).events =
        pre ++ [⟨Op.setgid (launch_rgid w s), r1⟩, ⟨Op.setuid (launch_ruid w s), r2⟩] ++ post ∧
      0 ≤ r1 ∧ (∀ e ∈ pre, e.op.is_drop = false) ∧ (∀ e ∈ post, e.op.is_drop = false)) := by
  rcases launch_shape x86 c w s with ⟨_, _, h2⟩ | ⟨_, _, _, h2⟩ | ⟨_, _, _, _, h2⟩ |
    ⟨_, _, _, oc, hc, _, h2⟩ | ⟨_, _, _, hpar⟩
  · exact Or.inl (by rw [h2]; simp [Op.is_drop])
  · exact Or.inl (by rw [h2]; simp [Op.is_drop])
  · exact Or.inl (by rw [h2]; simp [Op.is_drop])
  · rw [h2]
    rcases child_shape_drop_shape hc with k | ⟨pre, r1, k1, k2, k3⟩ |
      ⟨pre, r1, r2, post, k1, k2, k3, k4⟩
    · left
      intro e he
      simp only [List.mem_cons] at he
      rcases he with rfl | rfl | rfl | he
      · rfl
      · rfl
      · rfl
      · exact k e he
    · right; left
      refine ⟨_ :: _ :: _ :: pre, r1, by rw [k1]; rfl, k2, ?_⟩
      intro e he
      simp only [List.mem_cons] at he
      rcases he with rfl | rfl | rfl | he
      · rfl
      · rfl
      · rfl
      · exact k3 e he
    · right; right
      refine ⟨_ :: _ :: _ :: pre, r1, r2, post, by rw [k1]; rfl, k2, ?_, k4⟩
      intro e he
      simp only [List.mem_cons] at he
      rcases he with rfl | rfl | rfl | he
      · rfl
      · rfl
      · rfl
      · exact k3 e he
  · rcases hpar with ⟨k1, _, h2⟩ | ⟨k1, _, _, h2⟩ | ⟨k1, _, _, h2⟩
    · right; left
      exact ⟨[_, _, _], _, h2, k1, by simp [Op.is_drop]⟩
    · right; right
      exact ⟨[_, _, _], _, _, [], by rw [h2]; rfl, k1, by simp [Op.is_drop], by simp⟩
    · right; right
      exact ⟨[_, _, _], _, _, [_], by rw [h2]; rfl, k1, by simp [Op.is_drop],
        by simp [Op.is_drop]⟩

/-- The credentials after a run of `launch` in which `setuid` succeeded, for a
process whose effective uid is 0. -/
theorem launch_creds (x86 : Bool) (c : Config) (w : World) (s : Proc)
    (h0 : (w.out_ids (s.calls + 1)).e = 0)
    (hs : ∃ e ∈ (launch x86 c w s).events, e.op = Op.setuid (launch_ruid w s) ∧ 0 ≤ e.ret) :
    creds_after (reported_creds w s) (launch x86 c w s).events =
      ⟨launch_ruid w s, launch_ruid w s, launch_ruid w s,
        launch_rgid w s, launch_rgid w s, launch_rgid w s⟩ := by
  obtain ⟨e, he, hop, hr⟩ := hs
  have hd : e.op.is_drop = true := by rw [hop]; rfl
  rcases launch_drop_shape x86 c w s with k | ⟨pre, r1, k1, _, k3⟩ |
    ⟨pre, r1, r2, post, k1, k2, k3, k4⟩
  · rw [k e he] at hd
    cases hd
  · rw [k1] at he
    rcases List.mem_append.mp he with h | h
    · rw [k3 e h] at hd
      cases hd
    · simp at h
      subst h
      cases hop
  · have hr2 : 0 ≤ r2 := by
      rw [k1] at he
      simp only [List.mem_append, List.mem_cons, List.not_mem_nil, or_false] at he
      rcases he with (h | rfl | rfl) | h
      · rw [k3 e h] at hd
        cases hd
      · cases hop
      · exact hr
      · rw [k4 e h] at hd
        cases hd
    rw [k1, creds_after_append, creds_after_append, creds_after_no_drop _ pre k3,
      creds_after_no_drop _ post k4]
    simp only [creds_after, if_pos k2, if_pos hr2, Creds.setgid, Creds.setuid, reported_creds,
      h0, if_true]

/-- C4, as amended.  In every run of `main` started in state `s`, every
`setgid` or `setuid` call is `setgid (rgid)` or `setuid (ruid)`, where `ruid` is
the real uid written by `getresuid` and `rgid` is the real gid written by
`getresgid` unless that gid is 0, in which case it is the real uid.  Hence,
when the process runs with the effective uid 0 and its `setuid` call succeeds
(the `setgid` before it then succeeded too), the real, effective and saved uid
of the process are `ruid` and its real, effective and saved gid are `rgid`
from then on. -/
theorem drop_uses_captured_ids (x86 : Bool) (argv : List String) (w : World) (s : Proc) :
    (∀ e ∈ (main x86 argv w s).events, e.op.is_drop = true →
      e.op = Op.setgid (if (w.out_ids s.calls).r = 0 then (w.out_ids (s.calls + 1)).r
          else (w.out_ids s.calls).r) ∨
        e.op = Op.setuid (w.out_ids (s.calls + 1)).r) ∧
    ((w.out_ids (s.calls + 1)).e = 0 →
      (∃ e ∈ (main x86 argv w s).events,
        e.op = Op.setuid (w.out_ids (s.calls + 1)).r ∧ 0 ≤ e.ret) →
      creds_after (reported_creds w s) (main x86 argv w s).events =
        ⟨(w.out_ids (s.calls + 1)).r, (w.out_ids (s.calls + 1)).r, (w.out_ids (s.calls + 1)).r,
          (if (w.out_ids s.calls).r = 0 then (w.out_ids (s.calls + 1)).r
            else (w.out_ids s.calls).r),
          (if (w.out_ids s.calls).r = 0 then (w.out_ids (s.calls + 1)).r
            else (w.out_ids s.calls).r),
          (if (w.out_ids s.calls).r = 0 then (w.out_ids (s.calls + 1)).r
            else (w.out_ids s.calls).r)⟩) := by
  cases argv with
  | nil => simp [main_nil]
  | cons argv0 args =>
    cases hp : parse_command_line argv0 args with
    | ok c =>
      rw [main_ok hp]
      exact ⟨launch_drop_ids x86 c w s, launch_creds x86 c w s⟩
    | fatal message =>
      rw [main_fatal hp]
      simp
    | help =>
      rw [main_help hp]
      simp
    | version =>
      rw [main_version hp]
      simp

theorem live_bind {α β : Type} {good : α → Prop} {good2 : β → Prop} {m : Run α}
    {f : α → Run β} (hm : ∀ w s, Live good (m w s))
    (hf : ∀ a, good a → ∀ w s, Live good2 (f a w s)) (w : World) (s : Proc) :
    Live good2 ((m >>= f) w s) := by
  intro hall
  cases hr : (m w s).res with
  | ret a =>
    rw [run_bind_ret hr] at hall ⊢
    simp only [List.mem_append] at hall
    obtain ⟨a2, h1, h2⟩ := hm w s (fun e he => hall e (Or.inl he))
    rw [hr] at h1
    cases h1
    exact hf a h2 w _ (fun e he => hall e (Or.inr he))
  | stop x =>
    rw [run_bind_stop hr] at hall
    obtain ⟨a2, h1, _⟩ := hm w s hall
    rw [hr] at h1
    cases h1

theorem live_pure {α : Type} {good : α → Prop} (a : α) (h : good a) (w : World) (s : Proc) :
    Live good ((pure a : Run α) w s) := fun _ => ⟨a, rfl, h⟩

theorem child_isolate_live (w : World) (s : Proc) :
    Live (fun _ => True) (child_isolate w s) := by
  simp only [child_isolate, bind_call_run, bind_pure_run, bind_fatal_errno_run,
    fatal_errno_run, pure_run, ite_run]
  intro hall
  split_ifs at hall ⊢ <;> simp_all [Event.refused]

theorem root_transition_live (ruid : Nat) (chroot_dir : String) (w : World) (s : Proc) :
    Live (fun _ => True) (root_transition ruid chroot_dir w s) := by
  simp only [root_transition, fsuid_chdir, run_bind_assoc, bind_call_run, bind_get_errno_run,
    bind_set_errno_run, bind_pure_run, bind_fatal_errno_run, fatal_errno_run, pure_run, ite_run]
  intro hall
  split_ifs at hall ⊢ <;> simp_all [Event.refused]

theorem live_cons {α : Type} {good : α → Prop} {o : Out α} (e : Event) (h : Live good o) :
    Live good (o.cons e) :=
  fun hall => h (fun e2 he2 => hall e2 (List.mem_cons_of_mem _ he2))

theorem setup_dev_nodes_live (src_fd dest_fd : Int) (l : List String) (w : World) (s : Proc) :
    Live (fun v => v = none) (setup_dev_nodes src_fd dest_fd l w s) := by
  induction l generalizing s with
  | nil => exact fun _ => ⟨none, rfl, rfl⟩
  | cons nodename rest ih =>
    simp only [setup_dev_nodes, bind_call_out_run, bind_call_run, pure_run, ite_run]
    split_ifs with h1 h2 h3
    · intro hall
      simp_all [Event.refused]
    · intro hall
      simp_all [Event.refused]
    · intro hall
      simp_all [Event.refused]
    · exact live_cons _ (live_cons _ (live_cons _ (ih _)))

theorem setup_dev_live (dest_devdir : String) (w : World) (s : Proc) :
    Live (fun r => ¬ r < 0) (setup_dev dest_devdir w s) := by
  simp only [setup_dev, bind_call_run, pure_run, ite_run]
  split_ifs with h1 h2 h3
  · intro hall
    simp_all [Event.refused]
  · intro hall
    simp_all [Event.refused]
  · intro hall
    simp_all [Event.refused]
  · refine live_cons _ (live_cons _ (live_cons _ ?_))
    refine live_bind (setup_dev_nodes_live _ _ devnodes) ?_ w _
    intro a ha w2 s2
    subst ha
    simp only [bind_call_run, pure_run, ite_run]
    intro hall
    split_ifs at hall ⊢ <;> simp_all [Event.refused]

theorem apply_mount_live (ruid : Nat) (chroot_dir : String) (m : MountSpec) (w : World)
    (s : Proc) : Live (fun _ => True) (apply_mount ruid chroot_dir m w s) := by
  unfold apply_mount
  cases m.type with
  | MOUNT_SPEC_BIND =>
    simp only [fsuid_chdir, run_bind_assoc, bind_call_run, bind_get_errno_run,
      bind_set_errno_run, bind_pure_run, bind_fatal_run, bind_fatal_errno_run, fatal_run,
      fatal_errno_run, pure_run, ite_run]
    intro hall
    split_ifs at hall ⊢ <;> simp_all [Event.refused]
  | MOUNT_SPEC_READONLY =>
    simp only [bind_call_run, bind_pure_run, bind_fatal_errno_run, fatal_errno_run, pure_run,
      ite_run]
    intro hall
    split_ifs at hall ⊢ <;> simp_all [Event.refused]
  | MOUNT_SPEC_PROCFS =>
    simp only [bind_call_run, bind_pure_run, bind_fatal_errno_run, fatal_errno_run, pure_run,
      ite_run]
    intro hall
    split_ifs at hall ⊢ <;> simp_all [Event.refused]
  | MOUNT_SPEC_DEVAPI =>
    simp only []
    refine live_bind (setup_dev_live _) ?_ w s
    intro a ha w2 s2
    simp only [ite_run, fatal_errno_run, pure_run, if_neg ha]
    exact fun _ => ⟨(), rfl, trivial⟩

theorem apply_mounts_live (ruid : Nat) (chroot_dir : String) (l : List MountSpec) :
    ∀ (w : World) (s : Proc), Live (fun _ => True) (apply_mounts ruid chroot_dir l w s) := by
  induction l with
  | nil => exact fun w s => live_pure () trivial w s
  | cons m rest ih =>
    intro w s
    show Live _ ((apply_mount ruid chroot_dir m >>= fun _ =>
      apply_mounts ruid chroot_dir rest) w s)
    exact live_bind (apply_mount_live ruid chroot_dir m) (fun _ _ => ih) w s

theorem child_setup_live (c : Config) (ruid : Nat) (w : World) (s : Proc) :
    Live (fun _ => True)
      ((do
        child_isolate
        apply_mounts ruid c.chroot_dir c.bind_mounts
        root_transition ruid c.chroot_dir : Run Unit) w s) :=
  live_bind child_isolate_live (fun _ _ w s =>
    live_bind (apply_mounts_live ruid c.chroot_dir c.bind_mounts)
      (fun _ _ w s => root_transition_live ruid c.chroot_dir w s) w s) w s


/-- What the child does after the drop of privileges when the value of
`--seccomp-profile-version` is neither 0 nor -1: `chdir`, then the fatal error. -/
theorem bind_child_prepare_exec_unknown {β : Type} (x86 : Bool) (c : Config)
    (f : Unit → Run β) (w : World) (s : Proc)
    (h0 : c.seccomp_profile_version ≠ 0) (h1 : c.seccomp_profile_version ≠ -1) :
    (child_prepare_exec x86 c >>= f) w s =
      if w.ret s.calls < 0 then
        ((fatal_errno "chdir" : Run β) w (s.after w)).cons
          ⟨Op.chdir (some c.chdir_target), w.ret s.calls⟩
      else
        ((fatal "Unknown --seccomp-profile-version" : Run β) w (s.after w)).cons
          ⟨Op.chdir (some c.chdir_target), w.ret s.calls⟩ := by
  simp only [child_prepare_exec, run_bind_assoc, ite_bind_run, bind_call_run, bind_pure_run,
    bind_fatal_errno_run, bind_fatal_run, fatal_errno_run, fatal_run, pure_run, ite_run,
    if_neg h0, if_neg h1]
  split_ifs <;> rfl

/-- A run of the child with a value of `--seccomp-profile-version` other than
0 and -1, in which the code treats no call as failed: the privileged phase is
completed, `setgid`, `setuid` and `chdir` are called, and only then does the
process stop, with the message about the version as its last diagnostic. -/
theorem child_unknown_version_run (x86 : Bool) (c : Config) (rgid ruid : Nat) (w : World)
    (s : Proc) (h0 : c.seccomp_profile_version ≠ 0) (h1 : c.seccomp_profile_version ≠ -1)
    (hall : ∀ e ∈ (child x86 c rgid ruid w s).events, e.refused = false) :
    ∃ pre r1 r2 r3 t,
      (∀ e ∈ pre, e.op.is_setup = true) ∧
      (child x86 c rgid ruid w s).events = pre ++ [⟨Op.setgid rgid, r1⟩, ⟨Op.setuid ruid, r2⟩,
        ⟨Op.chdir (some c.chdir_target), r3⟩] ∧
      (child x86 c rgid ruid w s).res = Res.stop (Stop.exit 1) ∧
      (child x86 c rgid ruid w s).proc.stderr =
        t ++ [Diag.msg "Unknown --seccomp-profile-version"] := by
  revert hall
  rw [child_eq]
  intro hall
  have hsetup := child_setup_phase c ruid w s
  cases hr : ((do
        child_isolate
        apply_mounts ruid c.chroot_dir c.bind_mounts
        root_transition ruid c.chroot_dir : Run Unit) w s).res with
  | stop x =>
    rw [run_bind_stop hr] at hall
    obtain ⟨a, h, _⟩ := child_setup_live c ruid w s hall
    rw [hr] at h
    cases h
  | ret a =>
    rw [run_bind_ret hr, bind_drop_privileges_run,
      bind_child_prepare_exec_unknown x86 c _ w _ h0 h1] at hall ⊢
    have hcls := hsetup.1
    generalize ((do
        child_isolate
        apply_mounts ruid c.chroot_dir c.bind_mounts
        root_transition ruid c.chroot_dir : Run Unit) w s) = o1 at hall hcls ⊢
    by_cases k1 : w.ret o1.proc.calls < 0
    · rw [if_pos k1] at hall
      have := hall ⟨Op.setgid rgid, w.ret o1.proc.calls⟩ (by simp)
      simp [Event.refused] at this
      omega
    · rw [if_neg k1] at hall ⊢
      by_cases k2 : w.ret (o1.proc.calls + 1) < 0
      · rw [if_pos k2] at hall
        have := hall ⟨Op.setuid ruid, w.ret (o1.proc.calls + 1)⟩ (by simp)
        simp [Event.refused] at this
        omega
      · rw [if_neg k2] at hall ⊢
        simp only [after_calls] at hall ⊢
        by_cases k3 : w.ret (o1.proc.calls + 1 + 1) < 0
        · rw [if_pos k3] at hall
          have := hall ⟨Op.chdir (some c.chdir_target), w.ret (o1.proc.calls + 1 + 1)⟩
            (by simp)
          simp [Event.refused] at this
          omega
        · rw [if_neg k3]
          exact ⟨o1.events, w.ret o1.proc.calls, w.ret (o1.proc.calls + 1),
            w.ret (o1.proc.calls + 1 + 1), _, hcls, by simp, rfl, rfl⟩


/-- The run of `launch` in the child: the three calls up to `clone`, then the
run of `child`. -/
theorem launch_child_run (x86 : Bool) (c : Config) (w : World) (s : Proc)
    (h1 : 0 ≤ w.ret s.calls) (h2 : 0 ≤ w.ret (s.calls + 1)) (h3 : w.ret (s.calls + 2) = 0) :
    (launch x86 c w s).events =
        ⟨Op.getresgid, w.ret s.calls⟩ :: ⟨Op.getresuid, w.ret (s.calls + 1)⟩ ::
          ⟨Op.clone (clone_flags c), 0⟩ ::
          (child x86 c (launch_rgid w s) (launch_ruid w s) w
            (((s.after w).after w).after w)).events ∧
      (launch x86 c w s).proc =
        (child x86 c (launch_rgid w s) (launch_ruid w s) w
          (((s.after w).after w).after w)).proc := by
  have e1 : (w.out_ids (s.calls + 1)).r = launch_ruid w s := rfl
  have e2 : (if (w.out_ids s.calls).r = 0 then launch_ruid w s else (w.out_ids s.calls).r) =
      launch_rgid w s := rfl
  have hc := child_shape x86 c (launch_rgid w s) (launch_ruid w s) w
    (((s.after w).after w).after w)
  obtain ⟨x, hx⟩ := child_shape_stops hc
  simp only [launch, raw_clone, bind_call_out_run, bind_call_run, ite_bind_run, bind_pure_run,
    bind_fatal_errno_run, fatal_errno_run, ite_run, after_calls, e1, e2]
  rw [if_neg (not_lt.mpr h1), if_neg (not_lt.mpr h2),
    show w.ret (s.calls + 1 + 1) = 0 from h3, if_neg (lt_irrefl 0), if_pos rfl,
    run_bind_stop hx]
  exact ⟨rfl, rfl⟩

/-- C6, as amended.  For every command line that the argument handling
accepts with a `--seccomp-profile-version` value other than 0 and -1: no run of
`main` calls `execvp`, and in the child (`getresgid` and `getresuid` succeeded
and `clone` returned 0) the process ends by `exit (1)`.  The value is not
examined before `clone`: when the code treats no call of the child as failed,
the child completes the privileged phase `pre`, calls `setgid`, `setuid` and
`chdir`, and only then stops, its last diagnostic being
`Unknown --seccomp-profile-version`. -/
theorem unknown_seccomp_version_never_execs (x86 : Bool) (argv0 : String)
    (args : List String) (c : Config) (w : World) (s : Proc)
    (hp : parse_command_line argv0 args = Parsed.ok c)
    (h0 : c.seccomp_profile_version ≠ 0) (h1 : c.seccomp_profile_version ≠ -1) :
    (∀ e ∈ (main x86 (argv0 :: args) w s).events, e.op.is_execvp = false) ∧
      (0 ≤ w.ret s.calls → 0 ≤ w.ret (s.calls + 1) → w.ret (s.calls + 2) = 0 →
        (main x86 (argv0 :: args) w s).res = Res.stop (Stop.exit 1)) ∧
      (0 ≤ w.ret s.calls → 0 ≤ w.ret (s.calls + 1) → w.ret (s.calls + 2) = 0 →
        (∀ e ∈ (main x86 (argv0 :: args) w s).events, e.refused = false) →
        ∃ pre r1 r2 r3 t,
          (∀ e ∈ pre, e.op.is_setup = true) ∧
          (main x86 (argv0 :: args) w s).events =
            [⟨Op.getresgid, w.ret s.calls⟩, ⟨Op.getresuid, w.ret (s.calls + 1)⟩,
              ⟨Op.clone (clone_flags c), 0⟩] ++ pre ++
            [⟨Op.setgid (launch_rgid w s), r1⟩, ⟨Op.setuid (launch_ruid w s), r2⟩,
              ⟨Op.chdir (some c.chdir_target), r3⟩] ∧
          (main x86 (argv0 :: args) w s).proc.stderr =
            t ++ [Diag.msg "Unknown --seccomp-profile-version"]) := by
  have base : (∀ e ∈ (main x86 (argv0 :: args) w s).events, e.op.is_execvp = false) ∧
      (0 ≤ w.ret s.calls → 0 ≤ w.ret (s.calls + 1) → w.ret (s.calls + 2) = 0 →
        (main x86 (argv0 :: args) w s).res = Res.stop (Stop.exit 1)) := by
    rw [main_ok hp]
    rcases launch_shape x86 c w s with ⟨k0, _, h2⟩ | ⟨_, k0, _, h2⟩ | ⟨_, _, k0, _, h2⟩ |
      ⟨_, _, _, oc, hc, ⟨x, hx1, hx2⟩, h2⟩ | ⟨_, _, hp, hpar⟩
    · exact ⟨by rw [h2]; simp [Op.is_execvp], fun h => absurd k0 (not_lt.mpr h)⟩
    · exact ⟨by rw [h2]; simp [Op.is_execvp], fun _ h => absurd k0 (not_lt.mpr h)⟩
    · exact ⟨by rw [h2]; simp [Op.is_execvp], fun _ _ h => by rw [h] at k0; cases k0⟩
    · have key : oc.res = Res.stop (Stop.exit 1) ∧ ∀ e ∈ oc.events, e.op.is_execvp = false := by
        rcases hc with ⟨h1, h2⟩ | ⟨pre, r1, h1, h2, h3, h4, h5⟩ |
          ⟨pre, r1, r2, h1, h2, h3, h4, h5, h6⟩ |
          ⟨pre, r1, r2, post, h1, h2, h3, h4, h5, h6, h7⟩ |
          ⟨pre, r1, r2, post, r3, h1, h2, h3, h4, h5, h6, h7, h8, h9⟩
        · exact ⟨h1, fun e he => setup_not_execvp (h2 e he)⟩
        · refine ⟨h1, ?_⟩
          rw [h2]
          intro e he
          simp only [List.mem_append, List.mem_cons, List.not_mem_nil, or_false] at he
          rcases he with he | rfl
          · exact setup_not_execvp (h3 e he)
          · rfl
        · refine ⟨h1, ?_⟩
          rw [h2]
          intro e he
          simp only [List.mem_append, List.mem_cons, List.not_mem_nil, or_false] at he
          rcases he with he | rfl | rfl
          · exact setup_not_execvp (h3 e he)
          · rfl
          · rfl
        · refine ⟨h1, ?_⟩
          rw [h2]
          intro e he
          simp only [List.mem_append, List.mem_cons, List.not_mem_nil, or_false] at he
          rcases he with (he | rfl | rfl) | he
          · exact setup_not_execvp (h3 e he)
          · rfl
          · rfl
          · exact exec_prep_not_execvp (h7 e he)
        · rcases h9 with h9 | h9
          · exact absurd h9 h0
          · exact absurd h9 ‹c.seccomp_profile_version ≠ -1›
      have hx : x = Stop.exit 1 := by
        rw [hx1] at key
        exact Res.stop.inj key.1
      refine ⟨?_, fun _ _ _ => by rw [hx2, hx]⟩
      rw [h2]
      intro e he
      simp only [List.mem_cons] at he
      rcases he with rfl | rfl | rfl | he
      · rfl
      · rfl
      · rfl
      · exact key.2 e he
    · refine ⟨?_, fun _ _ h => by rw [h] at hp; cases hp⟩
      rcases hpar with ⟨_, _, h2⟩ | ⟨_, _, _, h2⟩ | ⟨_, _, _, h2⟩ <;>
        (rw [h2]; simp [Op.is_execvp])
  refine ⟨base.1, base.2, ?_⟩
  rw [main_ok hp]
  intro k1 k2 k3 hall
  obtain ⟨he, hpr⟩ := launch_child_run x86 c w s k1 k2 k3
  rw [he] at hall
  obtain ⟨pre, r1, r2, r3, t, q1, q2, _, q4⟩ := child_unknown_version_run x86 c
    (launch_rgid w s) (launch_ruid w s) w (((s.after w).after w).after w) h0 h1
    (fun e h => hall e (by simp [h]))
  exact ⟨pre, r1, r2, r3, t, q1, by rw [he, q2]; simp, by rw [hpr, q4]⟩

theorem child_shape_exit_or_exec {c : Config} {rgid ruid : Nat} {o : Out Unit}
    (hs : ChildShape c rgid ruid o) :
    o.res = Res.stop (Stop.exit 1) ∨ o.res = Res.stop (Stop.exec c.program c.program_argv) := by
  rcases hs with ⟨h, _⟩ | ⟨_, _, h, _⟩ | ⟨_, _, _, h, _⟩ | ⟨_, _, _, _, h, _⟩ |
    ⟨_, _, _, _, r3, h, _⟩
  · exact Or.inl h
  · exact Or.inl h
  · exact Or.inl h
  · exact Or.inl h
  · by_cases h3 : r3 < 0
    · exact Or.inl (by rw [h, if_pos h3])
    · exact Or.inr (by rw [h, if_neg h3])

theorem wait_status_of_exit : ∀ code < 256,
    WIFEXITED (code <<< 8) = true ∧ WEXITSTATUS (code <<< 8) = code := by
  intro code h
  interval_cases code <;> decide

/-- C10. For every run of `main` on a command line: (1) a command line
rejected by the argument handling gives `exit (1)`; on an accepted one, (2) if
`getresgid`, `getresuid` or `clone` fails the process ends by `exit (1)`;
(3) in the parent (`clone` returned a positive pid), if `setgid`, `setuid` or
`waitpid` fails the process ends by `exit (1)`, and otherwise `main` returns
`WEXITSTATUS (child_status)` when `WIFEXITED (child_status)` and 1 when not;
(4) in the child the process either ends by `exit (1)` or is replaced by the
program.  (5) The status of a child that called `exit (code)` satisfies
`WIFEXITED` and has `WEXITSTATUS` equal to `code`, so that the parent of a
child that ended by `exit (1)` returns 1. -/
theorem parent_relays_exit_status (x86 : Bool) (argv0 : String) (args : List String)
    (w : World) (s : Proc) :
    (∀ message, parse_command_line argv0 args = Parsed.fatal message →
      (main x86 (argv0 :: args) w s).res = Res.stop (Stop.exit 1)) ∧
    (∀ c, parse_command_line argv0 args = Parsed.ok c →
      ((w.ret s.calls < 0 ∨ (0 ≤ w.ret s.calls ∧ w.ret (s.calls + 1) < 0) ∨
          (0 ≤ w.ret s.calls ∧ 0 ≤ w.ret (s.calls + 1) ∧ w.ret (s.calls + 2) < 0)) →
        (main x86 (argv0 :: args) w s).res = Res.stop (Stop.exit 1)) ∧
      (0 ≤ w.ret s.calls → 0 ≤ w.ret (s.calls + 1) → 0 < w.ret (s.calls + 2) →
        (main x86 (argv0 :: args) w s).res =
          if w.ret (s.calls + 3) < 0 ∨ w.ret (s.calls + 4) < 0 ∨ w.ret (s.calls + 5) < 0 then
            Res.stop (Stop.exit 1)
          else if WIFEXITED (w.out_status (s.calls + 5)) = true then
            Res.ret (WEXITSTATUS (w.out_status (s.calls + 5)) : Int)
          else Res.ret 1) ∧
      (0 ≤ w.ret s.calls → 0 ≤ w.ret (s.calls + 1) → w.ret (s.calls + 2) = 0 →
        (main x86 (argv0 :: args) w s).res = Res.stop (Stop.exit 1) ∨
        (main x86 (argv0 :: args) w s).res =
          Res.stop (Stop.exec c.program c.program_argv))) ∧
    (∀ code < 256, WIFEXITED (code <<< 8) = true ∧ WEXITSTATUS (code <<< 8) = code) := by
  refine ⟨fun message hp => by rw [main_fatal hp]; rfl, fun c hp => ?_, wait_status_of_exit⟩
  rw [main_ok hp]
  rcases launch_shape x86 c w s with ⟨k0, h1, _⟩ | ⟨k0, k1, h1, _⟩ | ⟨k0, k1, k2, h1, _⟩ |
    ⟨k0, k1, k2, oc, hc, ⟨x, hx1, hx2⟩, _⟩ | ⟨k0, k1, k2, hpar⟩
  · exact ⟨fun _ => h1, fun h => absurd k0 (not_lt.mpr h), fun h => absurd k0 (not_lt.mpr h)⟩
  · exact ⟨fun _ => h1, fun _ h => absurd k1 (not_lt.mpr h),
      fun _ h => absurd k1 (not_lt.mpr h)⟩
  · exact ⟨fun _ => h1, fun _ _ h => absurd k2 (not_lt.mpr (le_of_lt h)),
      fun _ _ h => absurd k2 (by rw [h]; decide)⟩
  · refine ⟨?_, fun _ _ h => absurd h (by rw [k2]; decide), fun _ _ _ => ?_⟩
    · rintro (h | ⟨_, h⟩ | ⟨_, _, h⟩)
      · exact absurd h (not_lt.mpr k0)
      · exact absurd h (not_lt.mpr k1)
      · exact absurd h (by rw [k2]; decide)
    · rcases child_shape_exit_or_exec hc with h | h
      · rw [hx1] at h
        exact Or.inl (by rw [hx2, Res.stop.inj h])
      · rw [hx1] at h
        exact Or.inr (by rw [hx2, Res.stop.inj h])
  · refine ⟨?_, fun _ _ _ => ?_, fun _ _ h => absurd k2 (by rw [h]; decide)⟩
    · rintro (h | ⟨_, h⟩ | ⟨_, _, h⟩)
      · exact absurd h (not_lt.mpr k0)
      · exact absurd h (not_lt.mpr k1)
      · exact absurd h (not_lt.mpr (le_of_lt k2))
    · rcases hpar with ⟨p1, h1, _⟩ | ⟨p1, p2, h1, _⟩ | ⟨p1, p2, h1, _⟩
      · rw [h1, if_pos (Or.inl p1)]
      · rw [h1, if_pos (Or.inr (Or.inl p2))]
      · rw [h1]
        by_cases p3 : w.ret (s.calls + 5) < 0
        · rw [if_pos p3, if_pos (Or.inr (Or.inr p3))]
        · have hn : ¬ (w.ret (s.calls + 3) < 0 ∨ w.ret (s.calls + 4) < 0 ∨
              w.ret (s.calls + 5) < 0) := by
            rintro (h | h | h)
            · exact absurd h (not_lt.mpr p1)
            · exact absurd h (not_lt.mpr p2)
            · exact p3 h
          rw [if_neg p3, if_neg hn]

/-- A run to which the theorem applies: the child of `sample_argv` when the
mount of `proc` fails. -/
theorem failed_call_is_fatal_witness :
    (∃ e ∈ (main true sample_argv proc_mount_fails Proc.start).events, e.failed = true) ∧
    ((main true sample_argv proc_mount_fails Proc.start).res = Res.stop (Stop.exit 1) ∧
      ∀ e ∈ (main true sample_argv proc_mount_fails Proc.start).events,
        e.op.is_execvp = false) :=
  ⟨by decide, failed_call_is_fatal true sample_argv proc_mount_fails Proc.start (by decide)⟩

/-- A run to which the theorem applies: the child of `sample_config` when
every call succeeds. -/
theorem drop_between_mounts_and_exec_witness :
    (∃ e ∈ (child true sample_config 1000 1000 child_oracle Proc.start).events,
      e.op.is_execvp = true) ∧
    ∃ pre post r1 r2 r3,
      (child true sample_config 1000 1000 child_oracle Proc.start).events =
        pre ++ [⟨Op.setgid 1000, r1⟩, ⟨Op.setuid 1000, r2⟩] ++ post ++
          [⟨Op.execvp sample_config.program sample_config.program_argv, r3⟩] ∧
      0 ≤ r1 ∧ 0 ≤ r2 ∧
      (∀ e ∈ pre, e.op.is_drop = false ∧ e.op.is_execvp = false) ∧
      (∀ e ∈ post, e.op.is_drop = false ∧ e.op.is_execvp = false ∧
        e.op.is_mount_work = false) :=
  ⟨by decide,
    drop_between_mounts_and_exec true sample_config 1000 1000 child_oracle Proc.start
      (by decide)⟩

/-- C4 as stated fails: with real gid 0 and real uid 1000 the process calls
`setgid (1000)`, not `setgid (0)`, and its real gid is 1000 afterwards. -/
theorem setgid_differs_from_real_gid :
    (root_group_oracle.out_ids 0).r = 0 ∧
    ⟨Op.setgid 1000, 0⟩ ∈ (main true sample_argv root_group_oracle Proc.start).events ∧
    (∀ e ∈ (main true sample_argv root_group_oracle Proc.start).events,
      e.op ≠ Op.setgid 0) ∧
    (reported_creds root_group_oracle Proc.start).rgid = 0 ∧
    (creds_after (reported_creds root_group_oracle Proc.start)
      (main true sample_argv root_group_oracle Proc.start).events).rgid = 1000 := by
  decide

/-- A run to which the theorem applies: the process starts with the uids
1000, 0, 1000 and the gids 0, 0, 0; the `setgid` call of the child is
`setgid (1000)`, and after `setuid (1000)` all six ids are 1000. -/
theorem drop_uses_captured_ids_witness :
    reported_creds root_group_oracle Proc.start = ⟨1000, 0, 1000, 0, 0, 0⟩ ∧
    (⟨Op.setgid 1000, 0⟩ : Event) ∈
      (main true sample_argv root_group_oracle Proc.start).events ∧
    (⟨Op.setuid 1000, 0⟩ : Event) ∈
      (main true sample_argv root_group_oracle Proc.start).events ∧
    (∀ e ∈ (main true sample_argv root_group_oracle Proc.start).events,
      e.op.is_drop = true → e.op = Op.setgid 1000 ∨ e.op = Op.setuid 1000) ∧
    creds_after (reported_creds root_group_oracle Proc.start)
      (main true sample_argv root_group_oracle Proc.start).events =
        ⟨1000, 1000, 1000, 1000, 1000, 1000⟩ :=
  ⟨by decide, by decide, by decide,
    (drop_uses_captured_ids true sample_argv root_group_oracle Proc.start).1,
    (drop_uses_captured_ids true sample_argv root_group_oracle Proc.start).2 (by decide)
      ⟨⟨Op.setuid 1000, 0⟩, by decide, rfl, by decide⟩⟩

/-- C6 as stated fails: with `--seccomp-profile-version 7` the argument
handling accepts the command line, and the child calls `clone`, `prctl`, the
mounts, `chroot`, `setgid`, `setuid` and `chdir` before it ends by `exit (1)`. -/
theorem unknown_version_checked_after_drop :
    parse_command_line "linux-user-chroot" version7_argv.tail = Parsed.ok version7_config ∧
    (main true version7_argv child_oracle Proc.start).res = Res.stop (Stop.exit 1) ∧
    (main true version7_argv child_oracle Proc.start).events.map Event.op =
      [Op.getresgid, Op.getresuid, Op.clone (SIGCHLD ||| CLONE_NEWNS),
       Op.prctl PR_SET_NO_NEW_PRIVS 1 0 0 0,
       Op.mount none "/" (some "none") (MS_PRIVATE ||| MS_REC) none,
       Op.mount none "/" (some "none") (MS_PRIVATE ||| MS_REMOUNT ||| MS_NOSUID) none,
       Op.setfsuid 1000, Op.chdir (some "/sandbox"), Op.setfsuid 0,
       Op.mount (some ".") "." none (MS_BIND ||| MS_PRIVATE) none,
       Op.mount (some "/sandbox") "/" none MS_MOVE none,
       Op.chroot ".",
       Op.setgid 1000, Op.setuid 1000, Op.chdir (some "/")] := by
  decide

/-- A run to which the theorem applies: the child of `version7_argv` when
every call succeeds. -/
theorem unknown_seccomp_version_never_execs_witness :
    parse_command_line "linux-user-chroot" version7_argv.tail = Parsed.ok version7_config ∧
    version7_config.seccomp_profile_version ≠ 0 ∧
    version7_config.seccomp_profile_version ≠ -1 ∧
    (∀ e ∈ (main true ("linux-user-chroot" :: version7_argv.tail) child_oracle
      Proc.start).events, e.refused = false) ∧
    (∀ e ∈ (main true ("linux-user-chroot" :: version7_argv.tail) child_oracle
      Proc.start).events, e.op.is_execvp = false) ∧
    (main true ("linux-user-chroot" :: version7_argv.tail) child_oracle Proc.start).res =
      Res.stop (Stop.exit 1) ∧
    ∃ pre r1 r2 r3 t,
      (∀ e ∈ pre, e.op.is_setup = true) ∧
      (main true ("linux-user-chroot" :: version7_argv.tail) child_oracle Proc.start).events =
        [⟨Op.getresgid, child_oracle.ret Proc.start.calls⟩,
          ⟨Op.getresuid, child_oracle.ret (Proc.start.calls + 1)⟩,
          ⟨Op.clone (clone_flags version7_config), 0⟩] ++ pre ++
        [⟨Op.setgid (launch_rgid child_oracle Proc.start), r1⟩,
          ⟨Op.setuid (launch_ruid child_oracle Proc.start), r2⟩,
          ⟨Op.chdir (some version7_config.chdir_target), r3⟩] ∧
      (main true ("linux-user-chroot" :: version7_argv.tail) child_oracle
        Proc.start).proc.stderr = t ++ [Diag.msg "Unknown --seccomp-profile-version"] :=
  have h := unknown_seccomp_version_never_execs true "linux-user-chroot" version7_argv.tail
    version7_config child_oracle Proc.start (by decide) (by decide) (by decide)
  ⟨by decide, by decide, by decide, by decide, h.1,
    h.2.1 (by decide) (by decide) (by decide),
    h.2.2 (by decide) (by decide) (by decide) (by decide)⟩

/-- A run to which the theorem applies: the parent of a child that called
`exit (3)` returns 3. -/
theorem parent_relays_exit_status_witness :
    parse_command_line "linux-user-chroot" sample_argv.tail = Parsed.ok sample_config ∧
    0 < parent_oracle.ret 2 ∧
    (main true ("linux-user-chroot" :: sample_argv.tail) parent_oracle Proc.start).res =
      Res.ret 3 := by
  refine ⟨by decide, by decide, ?_⟩
  have h := ((parent_relays_exit_status true "linux-user-chroot" sample_argv.tail
    parent_oracle Proc.start).2.1 sample_config (by decide)).2.1
    (by decide) (by decide) (by decide)
  rw [h]
  decide

theorem reverse_mount_list_loop_eq (l prev : List MountSpec) :
    reverse_mount_list_loop prev l = l.reverse ++ prev := by
  induction l generalizing prev with
  | nil => rfl
  | cons m next ih => simp [reverse_mount_list_loop, ih]

theorem reverse_mount_list_eq (l : List MountSpec) : reverse_mount_list l = l.reverse := by
  simp [reverse_mount_list, reverse_mount_list_loop_eq]

theorem parse_options_mounts_aux (n : Nat) : ∀ (args : List String), args.length ≤ n →
    ∀ (l l2 : Locals) (rest : List String), parse_options l args = Parsed.ok (l2, rest) →
    l2.bind_mounts = (mount_options_in_order args).reverse ++ l.bind_mounts := by
  induction n with
  | zero =>
    intro args hlen l l2 rest h
    have : args = [] := List.length_eq_zero.mp (Nat.le_zero.mp hlen)
    subst this
    simp [parse_options] at h
    simp [mount_options_in_order, h.1]
  | succ n ih =>
    intro args hlen l l2 rest h
    cases args with
    | nil =>
      simp [parse_options] at h
      simp [mount_options_in_order, h.1]
    | cons arg rest0 =>
      rw [parse_options.eq_def] at h
      rw [mount_options_in_order.eq_def]
      simp only [] at h ⊢
      simp only [List.length_cons] at hlen
      by_cases hmax : l.n_mounts ≥ MAX_BIND_MOUNTS
      · rw [if_pos hmax] at h; cases h
      rw [if_neg hmax] at h
      by_cases h1 : arg = "--help"
      · rw [if_pos h1] at h; cases h
      rw [if_neg h1] at h
      by_cases h2 : arg = "--version"
      · rw [if_pos h2] at h; cases h
      rw [if_neg h2] at h
      by_cases h3 : arg = "--mount-bind"
      · rw [if_pos h3] at h ⊢
        match rest0, hlen, h with
        | [], _, h => cases h
        | [_], _, h => cases h
        | source :: dest :: rest2, hlen, h =>
          simp only [List.length_cons] at hlen
          have := ih rest2 (by omega) _ _ _ h
          simp [this]
      rw [if_neg h3] at h ⊢
      by_cases h4 : arg = "--mount-readonly"
      · rw [if_pos h4] at h ⊢
        match rest0, hlen, h with
        | [], _, h => cases h
        | dest :: rest1, hlen, h =>
          simp only [List.length_cons] at hlen
          have := ih rest1 (by omega) _ _ _ h
          simp [this]
      rw [if_neg h4] at h ⊢
      by_cases h5 : arg = "--mount-proc"
      · rw [if_pos h5] at h ⊢
        match rest0, hlen, h with
        | [], _, h => cases h
        | dest :: rest1, hlen, h =>
          simp only [List.length_cons] at hlen
          have := ih rest1 (by omega) _ _ _ h
          simp [this]
      rw [if_neg h5] at h ⊢
      by_cases h6 : arg = "--mount-devapi"
      · rw [if_pos h6] at h ⊢
        match rest0, hlen, h with
        | [], _, h => cases h
        | dest :: rest1, hlen, h =>
          simp only [List.length_cons] at hlen
          have := ih rest1 (by omega) _ _ _ h
          simp [this]
      rw [if_neg h6] at h ⊢
      by_cases h7 : arg = "--unshare-ipc"
      · rw [if_pos h7] at h
        rw [if_pos (Or.inl h7)]
        have := ih rest0 (by omega) _ _ _ h
        simpa using this
      rw [if_neg h7] at h
      by_cases h8 : arg = "--unshare-pid"
      · rw [if_pos h8] at h
        rw [if_pos (Or.inr (Or.inl h8))]
        have := ih rest0 (by omega) _ _ _ h
        simpa using this
      rw [if_neg h8] at h
      by_cases h9 : arg = "--unshare-net"
      · rw [if_pos h9] at h
        rw [if_pos (Or.inr (Or.inr h9))]
        have := ih rest0 (by omega) _ _ _ h
        simpa using this
      rw [if_neg h9] at h
      rw [if_neg (by rintro (h | h | h) <;> contradiction)]
      by_cases h10 : arg = "--chdir"
      · rw [if_pos h10] at h
        rw [if_pos (Or.inl h10)]
        match rest0, hlen, h with
        | [], _, h => cases h
        | dir :: rest1, hlen, h =>
          simp only [List.length_cons] at hlen
          have := ih rest1 (by omega) _ _ _ h
          simpa using this
      rw [if_neg h10] at h
      by_cases h11 : arg = "--seccomp-profile-version"
      · rw [if_pos h11] at h
        rw [if_pos (Or.inr h11)]
        match rest0, hlen, h with
        | [], _, h => cases h
        | v :: rest1, hlen, h =>
          simp only [List.length_cons] at hlen
          have := ih rest1 (by omega) _ _ _ h
          simpa using this
      rw [if_neg h11] at h
      rw [if_neg (by rintro (h | h) <;> contradiction)]
      simp only [Parsed.ok.injEq, Prod.mk.injEq] at h
      rw [← h.1]
      simp


theorem parse_options_mounts (l : Locals) (args : List String) (l2 : Locals)
    (rest : List String) (h : parse_options l args = Parsed.ok (l2, rest)) :
    l2.bind_mounts = (mount_options_in_order args).reverse ++ l.bind_mounts :=
  parse_options_mounts_aux args.length args (le_refl _) l l2 rest h

theorem mount_options_source_aux (n : Nat) : ∀ (args : List String), args.length ≤ n →
    ∀ m ∈ mount_options_in_order args,
      (m.source = none ↔ m.type ≠ MountSpecType.MOUNT_SPEC_BIND) := by
  induction n with
  | zero =>
    intro args hlen m hm
    have : args = [] := List.length_eq_zero.mp (Nat.le_zero.mp hlen)
    subst this
    simp [mount_options_in_order] at hm
  | succ n ih =>
    intro args hlen m hm
    cases args with
    | nil => simp [mount_options_in_order] at hm
    | cons arg rest0 =>
      rw [mount_options_in_order.eq_def] at hm
      simp only [] at hm
      simp only [List.length_cons] at hlen
      split_ifs at hm
      · match rest0, hlen, hm with
        | [], _, hm => simp at hm
        | [_], _, hm => simp at hm
        | source :: dest :: rest2, hlen, hm =>
          simp only [List.length_cons] at hlen
          simp only [List.mem_cons] at hm
          rcases hm with rfl | hm
          · simp
          · exact ih rest2 (by omega) m hm
      · match rest0, hlen, hm with
        | [], _, hm => simp at hm
        | dest :: rest1, hlen, hm =>
          simp only [List.length_cons] at hlen
          simp only [List.mem_cons] at hm
          rcases hm with rfl | hm
          · simp
          · exact ih rest1 (by omega) m hm
      · match rest0, hlen, hm with
        | [], _, hm => simp at hm
        | dest :: rest1, hlen, hm =>
          simp only [List.length_cons] at hlen
          simp only [List.mem_cons] at hm
          rcases hm with rfl | hm
          · simp
          · exact ih rest1 (by omega) m hm
      · match rest0, hlen, hm with
        | [], _, hm => simp at hm
        | dest :: rest1, hlen, hm =>
          simp only [List.length_cons] at hlen
          simp only [List.mem_cons] at hm
          rcases hm with rfl | hm
          · simp
          · exact ih rest1 (by omega) m hm
      · exact ih rest0 (by omega) m hm
      · match rest0, hlen, hm with
        | [], _, hm => simp at hm
        | dest :: rest1, hlen, hm =>
          simp only [List.length_cons] at hlen
          exact ih rest1 (by omega) m hm
      · simp at hm

theorem parse_command_line_ok {argv0 : String} {args : List String} {c : Config}
    (h : parse_command_line argv0 args = Parsed.ok c) :
    ∃ l rest, parse_options Locals.start args = Parsed.ok (l, rest) ∧
      c.bind_mounts = reverse_mount_list l.bind_mounts := by
  unfold parse_command_line at h
  split_ifs at h
  cases hp : parse_options Locals.start args with
  | fatal message => rw [hp] at h; cases h
  | help => rw [hp] at h; cases h
  | version => rw [hp] at h; cases h
  | ok p =>
    obtain ⟨l, rest⟩ := p
    rw [hp] at h
    refine ⟨l, rest, rfl, ?_⟩
    match rest, h with
    | [], h => cases h
    | [_], h => cases h
    | chroot_dir :: program :: program_args, h =>
      simp only [Parsed.ok.injEq] at h
      rw [← h]

theorem parse_options_mount_proc (l : Locals) (dest : String) (rest : List String)
    (h : l.n_mounts < MAX_BIND_MOUNTS) :
    parse_options l ("--mount-proc" :: dest :: rest) =
      parse_options ⟨l.n_mounts + 1,
        ⟨MountSpecType.MOUNT_SPEC_PROCFS, none, dest⟩ :: l.bind_mounts, l.unshare_ipc,
        l.unshare_net, l.unshare_pid, l.chdir_target, l.seccomp_profile_version⟩ rest := by
  rw [parse_options.eq_def]
  simp only []
  rw [if_neg (not_le.mpr h)]
  rfl

theorem parse_options_unshare_net (l : Locals) (rest : List String)
    (h : l.n_mounts < MAX_BIND_MOUNTS) :
    parse_options l ("--unshare-net" :: rest) =
      parse_options ⟨l.n_mounts + 1, l.bind_mounts, l.unshare_ipc, true, l.unshare_pid,
        l.chdir_target, l.seccomp_profile_version⟩ rest := by
  rw [parse_options.eq_def]
  simp only []
  rw [if_neg (not_le.mpr h)]
  rfl

theorem parse_options_full (l : Locals) (arg : String) (rest : List String)
    (h : l.n_mounts = MAX_BIND_MOUNTS) :
    parse_options l (arg :: rest) = Parsed.fatal "Too many mounts (maximum of 1024)" := by
  rw [parse_options.eq_def]
  simp only []
  rw [if_pos (le_of_eq h.symm), h]
  decide

/-- A word that starts with `/` is no option: the loop ends there. -/
theorem parse_options_operand (l : Locals) (arg : String) (rest : List String)
    (h : l.n_mounts < MAX_BIND_MOUNTS) (ha : arg = "/sandbox") :
    parse_options l (arg :: rest) =
      Parsed.ok (⟨l.n_mounts + 1, l.bind_mounts, l.unshare_ipc, l.unshare_net, l.unshare_pid,
        l.chdir_target, l.seccomp_profile_version⟩, arg :: rest) := by
  subst ha
  rw [parse_options.eq_def]
  simp only []
  rw [if_neg (not_le.mpr h)]
  rfl

theorem parse_options_many_mounts (k : Nat) : ∀ (l : Locals) (rest : List String),
    l.n_mounts + k ≤ MAX_BIND_MOUNTS →
    parse_options l ((List.replicate k ["--mount-proc", "/proc"]).flatten ++ rest) =
      parse_options ⟨l.n_mounts + k,
        List.replicate k ⟨MountSpecType.MOUNT_SPEC_PROCFS, none, "/proc"⟩ ++ l.bind_mounts,
        l.unshare_ipc, l.unshare_net, l.unshare_pid, l.chdir_target,
        l.seccomp_profile_version⟩ rest := by
  induction k with
  | zero => intro l rest _; rfl
  | succ k ih =>
    intro l rest h
    have e : (List.replicate (k + 1) ["--mount-proc", "/proc"]).flatten ++ rest =
        "--mount-proc" :: "/proc" ::
          ((List.replicate k ["--mount-proc", "/proc"]).flatten ++ rest) := by
      simp [List.replicate_succ]
    rw [e, parse_options_mount_proc l _ _ (by omega), ih _ _ (by simp only []; omega)]
    congr 1
    simp only [Locals.mk.injEq, true_and, and_true]
    refine ⟨by omega, ?_⟩
    rw [List.replicate_succ', List.append_assoc]
    rfl

theorem parse_options_many_flags (k : Nat) : ∀ (l : Locals) (rest : List String),
    l.n_mounts + k ≤ MAX_BIND_MOUNTS →
    ∃ l2, l2.n_mounts = l.n_mounts + k ∧ l2.bind_mounts = l.bind_mounts ∧
      parse_options l (List.replicate k "--unshare-net" ++ rest) = parse_options l2 rest := by
  induction k with
  | zero => intro l rest _; exact ⟨l, rfl, rfl, rfl⟩
  | succ k ih =>
    intro l rest h
    obtain ⟨l2, h1, h2, h3⟩ := ih ⟨l.n_mounts + 1, l.bind_mounts, l.unshare_ipc, true,
      l.unshare_pid, l.chdir_target, l.seccomp_profile_version⟩ rest (by simp only []; omega)
    refine ⟨l2, by rw [h1]; simp only []; omega, h2, ?_⟩
    rw [List.replicate_succ, List.cons_append, parse_options_unshare_net l _ (by omega), h3]

theorem mount_options_many_mounts (k : Nat) (rest : List String) :
    mount_options_in_order ((List.replicate k ["--mount-proc", "/proc"]).flatten ++ rest) =
      List.replicate k ⟨MountSpecType.MOUNT_SPEC_PROCFS, none, "/proc"⟩ ++
        mount_options_in_order rest := by
  induction k with
  | zero => rfl
  | succ k ih =>
    have e : (List.replicate (k + 1) ["--mount-proc", "/proc"]).flatten ++ rest =
        "--mount-proc" :: "/proc" ::
          ((List.replicate k ["--mount-proc", "/proc"]).flatten ++ rest) := by
      simp [List.replicate_succ]
    rw [e, mount_options_in_order.eq_def]
    simp only []
    rw [if_pos trivial, ih]
    rfl

theorem mount_options_many_flags (k : Nat) (rest : List String) :
    mount_options_in_order (List.replicate k "--unshare-net" ++ rest) =
      mount_options_in_order rest := by
  induction k with
  | zero => rfl
  | succ k ih =>
    rw [List.replicate_succ, List.cons_append, mount_options_in_order.eq_def]
    simp only []
    rw [if_pos (Or.inr (Or.inr trivial)), ih, if_neg (by decide), if_neg (by decide),
      if_neg (by decide), if_neg (by decide)]

/-- C5: the code at the failing inputs.  A command line with exactly 1024
mount options followed by `ROOTDIR PROGRAM` is rejected with "Too many mounts
(maximum of 1024)", and so is one with no mount option and 1024
`--unshare-net` flags; with 1023 mount options the command line is accepted.
In each case `main` makes no library call before it stops. -/
theorem too_many_mounts_counts_every_option :
    (mount_options_in_order (many_mounts_args 1024)).length = 1024 ∧
    parse_command_line "linux-user-chroot" (many_mounts_args 1024) =
      Parsed.fatal "Too many mounts (maximum of 1024)" ∧
    (mount_options_in_order (many_flags_args 1024)).length = 0 ∧
    parse_command_line "linux-user-chroot" (many_flags_args 1024) =
      Parsed.fatal "Too many mounts (maximum of 1024)" ∧
    (∃ c, parse_command_line "linux-user-chroot" (many_mounts_args 1023) = Parsed.ok c ∧
      c.bind_mounts.length = 1023) ∧
    (∀ (x86 : Bool) (w : World) (s : Proc),
      (main x86 ("linux-user-chroot" :: many_mounts_args 1024) w s).res =
        Res.stop (Stop.exit 1) ∧
      (main x86 ("linux-user-chroot" :: many_mounts_args 1024) w s).events = []) := by
  have hlen : ∀ (xs : List String), ¬ (xs ++ ["/sandbox", "true"]).length < 1 := by
    intro xs
    rw [List.length_append]
    simp only [List.length_cons, List.length_nil]
    omega
  have hrest : mount_options_in_order ["/sandbox", "true"] = [] := by decide
  have hp1 : parse_command_line "linux-user-chroot" (many_mounts_args 1024) =
      Parsed.fatal "Too many mounts (maximum of 1024)" := by
    unfold parse_command_line many_mounts_args
    rw [if_neg (hlen _), parse_options_many_mounts 1024 Locals.start _ (by decide),
      parse_options_full _ _ _ (by decide)]
  refine ⟨?_, hp1, ?_, ?_, ?_, fun x86 w s => ?_⟩
  · unfold many_mounts_args
    rw [mount_options_many_mounts, hrest, List.length_append, List.length_replicate]
    rfl
  · unfold many_flags_args
    rw [mount_options_many_flags, hrest]
    rfl
  · unfold parse_command_line many_flags_args
    obtain ⟨l2, h1, _, h3⟩ := parse_options_many_flags 1024 Locals.start ["/sandbox", "true"]
      (by decide)
    rw [if_neg (hlen _), h3, parse_options_full _ _ _ (by rw [h1]; decide)]
  · unfold parse_command_line many_mounts_args
    rw [if_neg (hlen _), parse_options_many_mounts 1023 Locals.start _ (by decide),
      parse_options_operand _ _ _ (by decide) (by decide)]
    refine ⟨_, rfl, ?_⟩
    simp only [reverse_mount_list_eq, List.length_reverse, List.length_append,
      List.length_replicate]
    rfl
  · rw [main_fatal hp1]
    exact ⟨rfl, rfl⟩

theorem bind_ret_inv {α β : Type} {m : Run α} {f : α → Run β} {w : World} {s : Proc} {b : β}
    (h : ((m >>= f) w s).res = Res.ret b) :
    ∃ a, (m w s).res = Res.ret a ∧ (f a w (m w s).proc).res = Res.ret b ∧
      ((m >>= f) w s).events = (m w s).events ++ (f a w (m w s).proc).events := by
  cases hr : (m w s).res with
  | ret a =>
    rw [run_bind_ret hr] at h ⊢
    exact ⟨a, rfl, h, rfl⟩
  | stop x =>
    rw [run_bind_stop hr] at h
    cases h

theorem requested_rules_append (a b : List Event) :
    requested_rules (a ++ b) = requested_rules a ++ requested_rules b := by
  induction a with
  | nil => rfl
  | cons e rest ih =>
    obtain ⟨op, r⟩ := e
    cases op
    case seccomp_rule_add action syscall args =>
      simp only [List.cons_append, requested_rules]
      split_ifs <;> simp [ih]
    all_goals exact ih

theorem requested_rules_base (es : List Event) (h : ∀ e ∈ es, e.op.is_filter_base = true) :
    ∀ r ∈ requested_rules es, r.syscall ≠ "socket" := by
  induction es with
  | nil => simp [requested_rules]
  | cons e rest ih =>
    have ih2 := ih (fun e he => h e (List.mem_cons_of_mem _ he))
    have he := h e (List.mem_cons_self _ _)
    obtain ⟨op, r⟩ := e
    cases op <;> simp only [requested_rules] <;> try exact ih2
    split_ifs
    · intro r hr
      rcases List.mem_cons.mp hr with rfl | hr
      · simpa [Op.is_filter_base] using he
      · exact ih2 r hr
    · exact ih2

theorem block_socket_families_rules (n : Nat) (l : List Nat) :
    ∀ (i : Nat) (w : World) (s : Proc),
      (block_socket_families n i l w s).res = Res.ret () →
      requested_rules (block_socket_families n i l w s).events = socket_rules_of n i l := by
  induction l with
  | nil => intro i w s _; rfl
  | cons family rest ih =>
    intro i w s
    unfold block_socket_families
    by_cases hi : i = n - 1
    · simp only [if_pos hi, bind_call_run, bind_pure_run, bind_die_with_error_run,
        die_with_error_run, ite_run]
      split_ifs with h
      · intro hr; cases hr
      · intro hr
        simp only [cons_events, cons_res] at hr ⊢
        simp only [requested_rules, socket_rules_of, if_pos (not_lt.mp h), if_pos hi, ih _ w _ hr]
    · simp only [if_neg hi, bind_call_run, bind_pure_run, bind_die_with_error_run,
        die_with_error_run, ite_run]
      split_ifs with h
      · intro hr; cases hr
      · intro hr
        simp only [cons_events, cons_res] at hr ⊢
        simp only [requested_rules, socket_rules_of, if_pos (not_lt.mp h), if_neg hi, ih _ w _ hr]

theorem seccomp_shape_cons {w : World} {es : List Event} {e : Event}
    (h : SeccompShape w es) (he : e.op.is_filter_base = true) : SeccompShape w (e :: es) := by
  obtain ⟨pre, k, mid, post, h1, h2, h3, h4, h5⟩ := h
  refine ⟨e :: pre, k, mid, post, by rw [h1]; rfl, ?_, h3, h4, h5⟩
  intro e2 he2
  rcases List.mem_cons.mp he2 with rfl | he2
  · exact he
  · exact h2 e2 he2

theorem seccomp_shape_append {w : World} {es es2 : List Event}
    (h : SeccompShape w es) (he : ∀ e ∈ es2, e.op.is_filter_base = true) :
    SeccompShape w (es2 ++ es) := by
  induction es2 with
  | nil => exact h
  | cons e rest ih =>
    exact seccomp_shape_cons (ih (fun e he2 => he e (List.mem_cons_of_mem _ he2)))
      (he e (List.mem_cons_self _ _))

theorem seccomp_tail_shape (w : World) (s : Proc)
    (hret : ((do
        block_syscalls syscall_blacklist
        let (u, machine) ← call_out Op.uname World.out_machine
        if u = 0 ∧ machine ≠ "i686" then
          block_socket_families socket_family_blacklist.length 0 socket_family_blacklist
        let r ← call Op.seccomp_load
        if r < 0 then
          die_with_error "Failed to install seccomp audit filter: "
        let _ ← call Op.seccomp_release : Run Unit) w s).res = Res.ret ()) :
    SeccompShape w ((do
        block_syscalls syscall_blacklist
        let (u, machine) ← call_out Op.uname World.out_machine
        if u = 0 ∧ machine ≠ "i686" then
          block_socket_families socket_family_blacklist.length 0 socket_family_blacklist
        let r ← call Op.seccomp_load
        if r < 0 then
          die_with_error "Failed to install seccomp audit filter: "
        let _ ← call Op.seccomp_release : Run Unit) w s).events := by
  obtain ⟨a, h1, h2, h3⟩ := bind_ret_inv hret
  rw [h3]
  have hbl := (block_syscalls_phase _ syscall_blacklist_no_socket w s).1
  generalize (block_syscalls syscall_blacklist w s).proc = s1 at h2 ⊢
  refine seccomp_shape_append ?_ hbl
  simp only [bind_call_out_run, ite_bind_run, bind_pure_run, ite_run] at h2 ⊢
  by_cases hc : w.ret s1.calls = 0 ∧ w.out_machine s1.calls ≠ "i686"
  · rw [if_pos hc] at h2 ⊢
    simp only [cons_res, cons_events] at h2 ⊢
    obtain ⟨a2, k1, k2, k3⟩ := bind_ret_inv h2
    rw [k3]
    exact ⟨[], s1.calls, _, _, rfl, by simp, (seccomp_finish_phase w _).1,
      fun _ => block_socket_families_rules _ _ _ w _ k1, fun h => absurd hc h⟩
  · rw [if_neg hc] at h2 ⊢
    simp only [cons_res, cons_events] at h2 ⊢
    exact ⟨[], s1.calls, [], _, rfl, by simp, (seccomp_finish_phase w _).1,
      fun h => absurd h hc, fun _ => rfl⟩

theorem setup_seccomp_v0_shape (x86 : Bool) (w : World) (s : Proc)
    (hret : (setup_seccomp_v0 x86 w s).res = Res.ret ()) :
    SeccompShape w (setup_seccomp_v0 x86 w s).events := by
  simp only [setup_seccomp_v0, bind_call_run, ite_bind_run, bind_pure_run, bind_die_oom_run,
    die_oom_run, ite_run] at hret ⊢
  split_ifs at hret ⊢ with h1 h2
  · cases hret
  · simp only [cons_res, cons_events] at hret ⊢
    obtain ⟨a, k1, k2, k3⟩ := bind_ret_inv hret
    rw [k3]
    exact seccomp_shape_cons
      (seccomp_shape_append (seccomp_tail_shape w _ k2) (add_secondary_archs_phase w _).1) rfl
  · simp only [cons_res, cons_events] at hret ⊢
    exact seccomp_shape_cons (seccomp_tail_shape w _ hret) rfl

theorem socket_rules_explicit :
    socket_rules_of socket_family_blacklist.length 0 socket_family_blacklist =
      [⟨ScmpAction.SCMP_ACT_ERRNO EAFNOSUPPORT, "socket", [⟨0, ScmpCompare.SCMP_CMP_EQ, 3, 0⟩]⟩,
       ⟨ScmpAction.SCMP_ACT_ERRNO EAFNOSUPPORT, "socket", [⟨0, ScmpCompare.SCMP_CMP_EQ, 4, 0⟩]⟩,
       ⟨ScmpAction.SCMP_ACT_ERRNO EAFNOSUPPORT, "socket", [⟨0, ScmpCompare.SCMP_CMP_EQ, 5, 0⟩]⟩,
       ⟨ScmpAction.SCMP_ACT_ERRNO EAFNOSUPPORT, "socket", [⟨0, ScmpCompare.SCMP_CMP_EQ, 6, 0⟩]⟩,
       ⟨ScmpAction.SCMP_ACT_ERRNO EAFNOSUPPORT, "socket", [⟨0, ScmpCompare.SCMP_CMP_EQ, 7, 0⟩]⟩,
       ⟨ScmpAction.SCMP_ACT_ERRNO EAFNOSUPPORT, "socket", [⟨0, ScmpCompare.SCMP_CMP_EQ, 8, 0⟩]⟩,
       ⟨ScmpAction.SCMP_ACT_ERRNO EAFNOSUPPORT, "socket", [⟨0, ScmpCompare.SCMP_CMP_EQ, 9, 0⟩]⟩,
       ⟨ScmpAction.SCMP_ACT_ERRNO EAFNOSUPPORT, "socket", [⟨0, ScmpCompare.SCMP_CMP_EQ, 11, 0⟩]⟩,
       ⟨ScmpAction.SCMP_ACT_ERRNO EAFNOSUPPORT, "socket", [⟨0, ScmpCompare.SCMP_CMP_EQ, 12, 0⟩]⟩,
       ⟨ScmpAction.SCMP_ACT_ERRNO EAFNOSUPPORT, "socket", [⟨0, ScmpCompare.SCMP_CMP_EQ, 13, 0⟩]⟩,
       ⟨ScmpAction.SCMP_ACT_ERRNO EAFNOSUPPORT, "socket", [⟨0, ScmpCompare.SCMP_CMP_EQ, 14, 0⟩]⟩,
       ⟨ScmpAction.SCMP_ACT_ERRNO EAFNOSUPPORT, "socket", [⟨0, ScmpCompare.SCMP_CMP_EQ, 15, 0⟩]⟩,
       ⟨ScmpAction.SCMP_ACT_ERRNO EAFNOSUPPORT, "socket",
         [⟨0, ScmpCompare.SCMP_CMP_GE, 17, 0⟩]⟩] := by
  decide

theorem applies_eq_rule (a : ScmpAction) (family f : Nat) (rest : List Nat) :
    (⟨a, "socket", [⟨0, ScmpCompare.SCMP_CMP_EQ, family, 0⟩]⟩ : ScmpRule).applies "socket"
      (f :: rest) = (f == family) := by
  simp [ScmpRule.applies, ScmpArgCmp.holds]

theorem applies_ge_rule (a : ScmpAction) (family f : Nat) (rest : List Nat) :
    (⟨a, "socket", [⟨0, ScmpCompare.SCMP_CMP_GE, family, 0⟩]⟩ : ScmpRule).applies "socket"
      (f :: rest) = decide (family ≤ f) := by
  simp [ScmpRule.applies, ScmpArgCmp.holds]

theorem applies_other_syscall (r : ScmpRule) (args : List Nat) (h : r.syscall ≠ "socket") :
    r.applies "socket" args = false := by
  simp [ScmpRule.applies, h]

theorem find_skip {α : Type} (p : α → Bool) (l1 l2 : List α) (h : ∀ a ∈ l1, p a = false) :
    (l1 ++ l2).find? p = l2.find? p := by
  induction l1 with
  | nil => rfl
  | cons a rest ih =>
    rw [List.cons_append, List.find?_cons, h a (List.mem_cons_self _ _)]
    exact ih (fun b hb => h b (List.mem_cons_of_mem _ hb))

theorem find_none {α : Type} (p : α → Bool) (l : List α) (h : ∀ a ∈ l, p a = false) :
    l.find? p = none := by
  induction l with
  | nil => rfl
  | cons a rest ih =>
    rw [List.find?_cons, h a (List.mem_cons_self _ _)]
    exact ih (fun b hb => h b (List.mem_cons_of_mem _ hb))

theorem socket_rules_action (f : Nat) (rest : List Nat) (tail : List ScmpRule)
    (ht : ∀ r ∈ tail, r.applies "socket" (f :: rest) = false) :
    rules_action ScmpAction.SCMP_ACT_ALLOW
        (socket_rules_of socket_family_blacklist.length 0 socket_family_blacklist ++ tail)
        "socket" (f :: rest) =
      if f = 0 ∨ f = 1 ∨ f = 2 ∨ f = 10 ∨ f = 16 then ScmpAction.SCMP_ACT_ALLOW
      else ScmpAction.SCMP_ACT_ERRNO EAFNOSUPPORT := by
  rw [socket_rules_explicit]
  unfold rules_action
  simp only [List.cons_append, List.nil_append, List.find?_cons, applies_eq_rule,
    applies_ge_rule, find_none _ tail ht]
  by_cases h17 : 17 ≤ f
  · have h1 : ¬ (f = 0 ∨ f = 1 ∨ f = 2 ∨ f = 10 ∨ f = 16) := by omega
    rw [if_neg h1]
    have e : ∀ k, k < 17 → (f == k) = false := fun k hk => by
      simp only [beq_eq_false_iff_ne, ne_eq]; omega
    simp [e, h17]
  · have hf : f < 17 := by omega
    interval_cases f <;> simp

theorem requested_rules_shape {w : World} {es : List Event} (h : SeccompShape w es)
    (hu : ∀ e ∈ es, e.op = Op.uname → e.ret = 0) (hm : ∀ k, w.out_machine k ≠ "i686") :
    ∃ before after,
      requested_rules es = before ++
        (socket_rules_of socket_family_blacklist.length 0 socket_family_blacklist ++ after) ∧
      (∀ r ∈ before, r.syscall ≠ "socket") ∧ (∀ r ∈ after, r.syscall ≠ "socket") := by
  obtain ⟨pre, k, mid, post, h1, h2, h3, h4, _⟩ := h
  have hk : w.ret k = 0 := hu ⟨Op.uname, w.ret k⟩ (by rw [h1]; simp) rfl
  refine ⟨requested_rules pre, requested_rules post, ?_, requested_rules_base pre h2,
    requested_rules_base post h3⟩
  rw [h1, requested_rules_append]
  simp only [requested_rules]
  rw [requested_rules_append, h4 ⟨hk, hm k⟩]

/-- In `setup_seccomp_v0` these failures end the process by `exit (1)`:
`seccomp_init` returning the null pointer, `seccomp_arch_add` failing with an
error other than `EEXIST`, `seccomp_rule_add` for a blacklisted system call
returning `-EFAULT`, `seccomp_rule_add` for a socket family failing,
`seccomp_load` failing. -/
theorem seccomp_fatal_failure_exits (x86 : Bool) (w : World) (s : Proc)
    (h : ∃ e ∈ (setup_seccomp_v0 x86 w s).events, e.seccomp_fatal = true) :
    (setup_seccomp_v0 x86 w s).res = Res.stop (Stop.exit 1) := by
  have hp := setup_seccomp_v0_phase x86 w s
  cases hr : (setup_seccomp_v0 x86 w s).res with
  | ret a =>
    obtain ⟨e, he, hf⟩ := h
    rw [phase_ret hp hr e he] at hf
    cases hf
  | stop x => rw [phase_stop hp hr]

/-- C14. For every uid, path, starting state and outcome of the calls,
`fsuid_chdir` makes exactly the calls `setfsuid (uid)`, `chdir (path)`,
`setfsuid (0)`, in this order and whatever `chdir` returned; it returns, and
its value is the value `chdir` returned; `errno` on return is the `errno` left
by `chdir`, whatever the second `setfsuid` left in `errno`; nothing is written
to standard error. -/
theorem fsuid_chdir_switches_back (uid : Nat) (path : Option String) (w : World) (s : Proc) :
    (fsuid_chdir uid path w s).events =
        [⟨Op.setfsuid uid, w.ret s.calls⟩, ⟨Op.chdir path, w.ret (s.calls + 1)⟩,
          ⟨Op.setfsuid 0, w.ret (s.calls + 2)⟩] ∧
      (fsuid_chdir uid path w s).res = Res.ret (w.ret (s.calls + 1)) ∧
      (fsuid_chdir uid path w s).proc.errno = w.err (s.calls + 1) ∧
      (fsuid_chdir uid path w s).proc.calls = s.calls + 3 ∧
      (fsuid_chdir uid path w s).proc.stderr = s.stderr :=
  ⟨rfl, rfl, rfl, rfl, rfl⟩

theorem events_bind_all {α β : Type} {P : Event → Prop} {m : Run α} {f : α → Run β}
    {w : World} {s : Proc} (hm : ∀ e ∈ (m w s).events, P e)
    (hf : ∀ a, ∀ e ∈ (f a w (m w s).proc).events, P e) :
    ∀ e ∈ ((m >>= f) w s).events, P e := by
  cases hr : (m w s).res with
  | ret a =>
    rw [run_bind_ret hr]
    intro e he
    rcases List.mem_append.mp he with h | h
    · exact hm e h
    · exact hf a e h
  | stop x =>
    rw [run_bind_stop hr]
    exact hm

theorem child_isolate_no_root_move (w : World) (s : Proc) :
    ∀ e ∈ (child_isolate w s).events, e.op.is_root_move = false := by
  simp only [child_isolate, bind_call_run, bind_pure_run, bind_fatal_errno_run,
    fatal_errno_run, pure_run, ite_run]
  split_ifs <;> simp +decide [Op.is_root_move]

theorem setup_dev_nodes_no_root_move (src_fd dest_fd : Int) (l : List String) (w : World)
    (s : Proc) : ∀ e ∈ (setup_dev_nodes src_fd dest_fd l w s).events,
      e.op.is_root_move = false := by
  induction l generalizing s with
  | nil => simp [setup_dev_nodes]
  | cons nodename rest ih =>
    simp only [setup_dev_nodes, bind_call_out_run, bind_call_run, pure_run, ite_run]
    split_ifs
    · simp [Op.is_root_move]
    · simp [Op.is_root_move]
    · simp [Op.is_root_move]
    · simp only [cons_events, List.mem_cons]
      rintro e (rfl | rfl | rfl | he)
      · rfl
      · rfl
      · rfl
      · exact ih _ e he

theorem setup_dev_no_root_move (dest_devdir : String) (w : World) (s : Proc) :
    ∀ e ∈ (setup_dev dest_devdir w s).events, e.op.is_root_move = false := by
  simp only [setup_dev, bind_call_run, pure_run, ite_run]
  split_ifs
  · simp [Op.is_root_move]
  · simp +decide [Op.is_root_move]
  · simp +decide [Op.is_root_move]
  · simp only [cons_events, List.mem_cons]
    rintro e (rfl | rfl | rfl | he)
    · rfl
    · simp +decide [Op.is_root_move]
    · rfl
    · revert e he
      refine events_bind_all (setup_dev_nodes_no_root_move _ _ _ _ _) ?_
      intro a
      cases a with
      | some v => simp
      | none =>
        simp only [bind_call_run, pure_run, ite_run]
        split_ifs <;> simp [Op.is_root_move]

theorem apply_mount_no_root_move (ruid : Nat) (chroot_dir : String) (m : MountSpec) (w : World)
    (s : Proc) : ∀ e ∈ (apply_mount ruid chroot_dir m w s).events,
      e.op.is_root_move = false := by
  unfold apply_mount
  cases m.type with
  | MOUNT_SPEC_BIND =>
    simp only [fsuid_chdir, run_bind_assoc, bind_call_run, bind_get_errno_run,
      bind_set_errno_run, bind_pure_run, bind_fatal_run, bind_fatal_errno_run, fatal_run,
      fatal_errno_run, pure_run, ite_run]
    split_ifs <;> simp +decide [Op.is_root_move]
  | MOUNT_SPEC_READONLY =>
    simp only [bind_call_run, bind_pure_run, bind_fatal_errno_run, fatal_errno_run, pure_run,
      ite_run]
    split_ifs <;> simp +decide [Op.is_root_move]
  | MOUNT_SPEC_PROCFS =>
    simp only [bind_call_run, bind_pure_run, bind_fatal_errno_run, fatal_errno_run, pure_run,
      ite_run]
    split_ifs <;> simp +decide [Op.is_root_move]
  | MOUNT_SPEC_DEVAPI =>
    simp only []
    refine events_bind_all (setup_dev_no_root_move _ _ _) ?_
    intro a
    simp only [ite_run, fatal_errno_run, pure_run]
    split_ifs <;> simp

theorem apply_mounts_no_root_move (ruid : Nat) (chroot_dir : String) (l : List MountSpec) :
    ∀ (w : World) (s : Proc), ∀ e ∈ (apply_mounts ruid chroot_dir l w s).events,
      e.op.is_root_move = false := by
  induction l with
  | nil => intro w s; simp [apply_mounts]
  | cons m rest ih =>
    intro w s
    show ∀ e ∈ ((apply_mount ruid chroot_dir m >>= fun _ =>
      apply_mounts ruid chroot_dir rest) w s).events, _
    exact events_bind_all (apply_mount_no_root_move ruid chroot_dir m w s) (fun _ => ih w _)

/-- A run of `root_transition` that returns: the three calls of `fsuid_chdir`,
the bind of `.` on itself, and, only when the directory is not `/`, the move
and `chroot`. -/
theorem root_transition_ret (ruid : Nat) (chroot_dir : String) (w : World) (s : Proc)
    (a : Unit) (h : (root_transition ruid chroot_dir w s).res = Res.ret a) :
    (root_transition ruid chroot_dir w s).events =
      [⟨Op.setfsuid ruid, w.ret s.calls⟩, ⟨Op.chdir (some chroot_dir), w.ret (s.calls + 1)⟩,
        ⟨Op.setfsuid 0, w.ret (s.calls + 2)⟩,
        ⟨Op.mount (some ".") "." none (MS_BIND ||| MS_PRIVATE) none, w.ret (s.calls + 3)⟩] ++
      (if chroot_dir = "/" then []
        else [⟨Op.mount (some chroot_dir) "/" none MS_MOVE none, w.ret (s.calls + 4)⟩,
          ⟨Op.chroot ".", w.ret (s.calls + 5)⟩]) := by
  simp only [root_transition, fsuid_chdir, run_bind_assoc, ite_bind_run, bind_call_run,
    bind_get_errno_run, bind_set_errno_run, bind_pure_run, bind_fatal_errno_run,
    fatal_errno_run, pure_run, ite_run, after_calls, Nat.add_assoc, Nat.reduceAdd] at h ⊢
  split_ifs at h ⊢ <;> simp_all

/-- With the directory `/`, no run of `root_transition` moves the root. -/
theorem root_transition_slash (ruid : Nat) (w : World) (s : Proc) :
    ∀ e ∈ (root_transition ruid "/" w s).events, e.op.is_root_move = false := by
  simp only [root_transition, fsuid_chdir, run_bind_assoc, ite_bind_run, bind_call_run,
    bind_get_errno_run, bind_set_errno_run, bind_pure_run, bind_fatal_errno_run,
    fatal_errno_run, pure_run, ite_run, after_calls, ne_eq, not_true_eq_false, if_false]
  split_ifs <;> simp +decide [Op.is_root_move]

theorem exec_prep_not_root_move {op : Op} (h : op.is_exec_prep = true) :
    op.is_root_move = false := by
  cases op <;> simp_all [Op.is_exec_prep, Op.is_seccomp, Op.is_root_move]

/-- The calls of the child from the drop of privileges on: `setgid` first, and
no call that moves the root. -/
theorem drop_tail_events (x86 : Bool) (c : Config) (rgid ruid : Nat) (w : World) (s : Proc) :
    ∃ post, ((drop_privileges rgid ruid >>= fun _ =>
        child_prepare_exec x86 c >>= fun _ =>
        execvp c.program c.program_argv >>= fun r =>
        if r < 0 then fatal_errno "execv" else pure ()) w s).events =
          ⟨Op.setgid rgid, w.ret s.calls⟩ :: post ∧
      ∀ e ∈ post, e.op.is_root_move = false := by
  rw [bind_drop_privileges_run]
  split_ifs with h1 h2
  · exact ⟨[], rfl, by simp⟩
  · exact ⟨[⟨Op.setuid ruid, w.ret (s.calls + 1)⟩], rfl, by simp [Op.is_root_move]⟩
  · refine ⟨_, rfl, ?_⟩
    simp only [cons_events, List.mem_cons]
    rintro e (rfl | he)
    · rfl
    · rcases child_tail_shape x86 c w ((s.after w).after w) with
        ⟨_, k2⟩ | ⟨post, r3, _, k2, k3, _, _⟩
      · exact exec_prep_not_root_move (k2 e he)
      · rw [k2] at he
        rcases List.mem_append.mp he with h | h
        · exact exec_prep_not_root_move (k3 e h)
        · simp at h
          subst h
          rfl

theorem child_pre_root_eq (c : Config) (ruid : Nat) :
    (do
      child_isolate
      apply_mounts ruid c.chroot_dir c.bind_mounts
      root_transition ruid c.chroot_dir : Run Unit) =
    (child_isolate >>= fun _ => apply_mounts ruid c.chroot_dir c.bind_mounts) >>= fun _ =>
      root_transition ruid c.chroot_dir := by
  rw [run_bind_assoc]




/-- C15. In every run of the child: when `ROOTDIR` is exactly `/`, no call of
the run is a `mount` with `MS_MOVE` or a `chroot`; and in a run that reaches
the drop of privileges, the calls are `pre` (the start of the child and the
mounts of the list, none of which moves the root), then the three calls of
`fsuid_chdir (ruid, ROOTDIR)`, then the bind of `.` on itself, then the move
of `ROOTDIR` to `/` followed by `chroot (".")` if and only if `ROOTDIR` is not
`/`, then at once `setgid (rgid)`, and no call after it moves the root. -/
theorem root_moved_unless_slash (x86 : Bool) (c : Config) (rgid ruid : Nat) (w : World)
    (s : Proc) :
    (c.chroot_dir = "/" →
      ∀ e ∈ (child x86 c rgid ruid w s).events, e.op.is_root_move = false) ∧
    ((∃ e ∈ (child x86 c rgid ruid w s).events, e.op = Op.setgid rgid) →
      ∃ pre r0 r1 r2 r3 r4 r5 r6 post,
        (∀ e ∈ pre, e.op.is_setup = true ∧ e.op.is_root_move = false) ∧
        (∀ e ∈ post, e.op.is_root_move = false) ∧
        (child x86 c rgid ruid w s).events =
          pre ++
          [⟨Op.setfsuid ruid, r0⟩, ⟨Op.chdir (some c.chroot_dir), r1⟩, ⟨Op.setfsuid 0, r2⟩,
            ⟨Op.mount (some ".") "." none (MS_BIND ||| MS_PRIVATE) none, r3⟩] ++
          (if c.chroot_dir = "/" then []
            else [⟨Op.mount (some c.chroot_dir) "/" none MS_MOVE none, r4⟩,
              ⟨Op.chroot ".", r5⟩]) ++
          ⟨Op.setgid rgid, r6⟩ :: post) := by
  have hA : ∀ e ∈ ((child_isolate >>= fun _ =>
      apply_mounts ruid c.chroot_dir c.bind_mounts) w s).events,
      e.op.is_root_move = false :=
    events_bind_all (child_isolate_no_root_move w s)
      (fun _ => apply_mounts_no_root_move _ _ _ w _)
  have hA2 := (phase_bind child_isolate_phase
    (fun _ => apply_mounts_phase ruid c.chroot_dir c.bind_mounts) w s).1
  have hph := child_setup_phase c ruid w s
  rw [child_eq, child_pre_root_eq]
  rw [child_pre_root_eq] at hph
  constructor
  · intro hd
    refine events_bind_all (events_bind_all hA (fun _ => ?_)) (fun _ => ?_)
    · rw [hd]
      exact root_transition_slash _ _ _
    · obtain ⟨post, hp, hq⟩ := drop_tail_events x86 c rgid ruid w
        (((child_isolate >>= fun _ => apply_mounts ruid c.chroot_dir c.bind_mounts) >>=
          fun _ => root_transition ruid c.chroot_dir) w s).proc
      rw [hp]
      intro e he
      rcases List.mem_cons.mp he with rfl | h
      · rfl
      · exact hq e h
  · rintro ⟨e, he, hop⟩
    cases hS : (((child_isolate >>= fun _ => apply_mounts ruid c.chroot_dir c.bind_mounts) >>=
          fun _ => root_transition ruid c.chroot_dir) w s).res with
    | stop x =>
      rw [run_bind_stop hS] at he
      have := hph.1 e he
      rw [hop] at this
      cases this
    | ret a =>
      rw [run_bind_ret hS]
      obtain ⟨a1, _, hR, hev⟩ := bind_ret_inv hS
      have hroot := root_transition_ret _ _ w _ a hR
      obtain ⟨post, hp, hq⟩ := drop_tail_events x86 c rgid ruid w
        (((child_isolate >>= fun _ => apply_mounts ruid c.chroot_dir c.bind_mounts) >>=
          fun _ => root_transition ruid c.chroot_dir) w s).proc
      obtain ⟨k, hk⟩ : ∃ k, k = ((child_isolate >>= fun _ =>
        apply_mounts ruid c.chroot_dir c.bind_mounts) w s).proc.calls := ⟨_, rfl⟩
      rw [← hk] at hroot
      refine ⟨_, w.ret k, w.ret (k + 1), w.ret (k + 2), w.ret (k + 3), w.ret (k + 4),
        w.ret (k + 5), w.ret (((child_isolate >>= fun _ =>
          apply_mounts ruid c.chroot_dir c.bind_mounts) >>=
          fun _ => root_transition ruid c.chroot_dir) w s).proc.calls, post, fun e he => ⟨hA2 e he, hA e he⟩, hq, ?_⟩
      simp only []
      rw [hev, hroot, hp]
      simp only [List.append_assoc]

/-- Two runs in which every call succeeds: with `ROOTDIR` equal to `/` the
child goes from the bind of `.` straight to `setgid`; with `/sandbox` the move
and `chroot` come in between. -/
theorem root_moved_unless_slash_witness :
    (child true slash_root_config 1000 1000 child_oracle Proc.start).events.map Event.op =
      [Op.prctl PR_SET_NO_NEW_PRIVS 1 0 0 0,
       Op.mount none "/" (some "none") (MS_PRIVATE ||| MS_REC) none,
       Op.mount none "/" (some "none") (MS_PRIVATE ||| MS_REMOUNT ||| MS_NOSUID) none,
       Op.setfsuid 1000, Op.chdir (some "/"), Op.setfsuid 0,
       Op.mount (some ".") "." none (MS_BIND ||| MS_PRIVATE) none,
       Op.setgid 1000, Op.setuid 1000, Op.chdir (some "/"),
       Op.execvp "true" ["true"]] ∧
    (∀ e ∈ (child true slash_root_config 1000 1000 child_oracle Proc.start).events,
      e.op.is_root_move = false) ∧
    (∃ pre r0 r1 r2 r3 r4 r5 r6 post,
      (∀ e ∈ pre, e.op.is_setup = true ∧ e.op.is_root_move = false) ∧
      (∀ e ∈ post, e.op.is_root_move = false) ∧
      (child true sample_config 1000 1000 child_oracle Proc.start).events =
        pre ++
        [⟨Op.setfsuid 1000, r0⟩, ⟨Op.chdir (some sample_config.chroot_dir), r1⟩,
          ⟨Op.setfsuid 0, r2⟩,
          ⟨Op.mount (some ".") "." none (MS_BIND ||| MS_PRIVATE) none, r3⟩] ++
        (if sample_config.chroot_dir = "/" then []
          else [⟨Op.mount (some sample_config.chroot_dir) "/" none MS_MOVE none, r4⟩,
            ⟨Op.chroot ".", r5⟩]) ++
        ⟨Op.setgid 1000, r6⟩ :: post) :=
  ⟨by decide,
    (root_moved_unless_slash true slash_root_config 1000 1000 child_oracle Proc.start).1 rfl,
    (root_moved_unless_slash true sample_config 1000 1000 child_oracle Proc.start).2
      (by decide)⟩

theorem setup_dev_nodes_calls (src_fd dest_fd : Int) (l : List String) (w : World) (s : Proc) :
    ∃ tail, node_calls w src_fd dest_fd s.calls l =
        (setup_dev_nodes src_fd dest_fd l w s).events ++ tail ∧
      ((setup_dev_nodes src_fd dest_fd l w s).res = Res.ret none →
        tail = [] ∧ (setup_dev_nodes src_fd dest_fd l w s).proc.calls = s.calls + 3 * l.length) := by
  induction l generalizing s with
  | nil => exact ⟨[], by simp [node_calls, setup_dev_nodes], fun _ => ⟨rfl, rfl⟩⟩
  | cons nodename rest ih =>
    simp only [setup_dev_nodes, node_calls, bind_call_out_run, bind_call_run, pure_run, ite_run,
      after_calls]
    split_ifs with h1 h2 h3
    · exact ⟨_, rfl, fun h => by simp at h⟩
    · exact ⟨_, rfl, fun h => by simp at h⟩
    · exact ⟨_, rfl, fun h => by simp at h⟩
    · obtain ⟨tail, ht, hr⟩ := ih (((s.after w).after w).after w)
      simp only [after_calls, Nat.add_assoc, Nat.reduceAdd] at ht hr ⊢
      refine ⟨tail, by simp [ht], fun h => ?_⟩
      obtain ⟨k1, k2⟩ := hr (by simpa using h)
      refine ⟨k1, ?_⟩
      simp only [cons_proc, List.length_cons]
      rw [k2]
      ring




/-- C13, as amended.  In every run of `setup_dev` the calls made are an
initial part of `setup_dev_calls`, and all of it when the function returns 0:
after the two `openat` calls and the mount of the tmpfs, for each of the names
`null`, `zero`, `full`, `random`, `urandom`, `tty` in this order, `fstatat`
reads the host node, `mknodat` creates the node with the whole `st_mode` of
the host node (its file type and its permission bits) and its `st_rdev`, and
`fchmodat` is then called with the same `st_mode`; the three symbolic links
follow.  The function returns 0 or -1. -/
theorem setup_dev_copies_host_mode (dest_devdir : String) (w : World) (s : Proc) :
    ∃ tail, setup_dev_calls w dest_devdir s.calls =
        (setup_dev dest_devdir w s).events ++ tail ∧
      ((setup_dev dest_devdir w s).res = Res.ret 0 → tail = []) ∧
      ((setup_dev dest_devdir w s).res = Res.ret 0 ∨
        (setup_dev dest_devdir w s).res = Res.ret (-1)) := by
  simp only [setup_dev, setup_dev_calls, bind_call_run, pure_run, ite_run, after_calls]
  split_ifs with h1 h2 h3
  · exact ⟨_, rfl, fun h => by simp at h, Or.inr rfl⟩
  · exact ⟨_, rfl, fun h => by simp at h, Or.inr rfl⟩
  · exact ⟨_, rfl, fun h => by simp at h, Or.inr rfl⟩
  · obtain ⟨tail, ht, hn⟩ := setup_dev_nodes_calls (w.ret s.calls) (w.ret (s.calls + 1 + 1))
      devnodes w (((s.after w).after w).after w)
    obtain ⟨_, a, hr, _⟩ := setup_dev_nodes_sub (w.ret s.calls) (w.ret (s.calls + 1 + 1))
      devnodes w (((s.after w).after w).after w)
    have hv := setup_dev_nodes_ret _ _ _ _ _ _ hr
    simp only [after_calls, Nat.add_assoc, Nat.reduceAdd] at ht hn hr ⊢
    rw [run_bind_ret hr, ht]
    rcases hv with rfl | rfl
    · obtain ⟨k1, k2⟩ := hn hr
      subst k1
      have k3 : (setup_dev_nodes (w.ret s.calls) (w.ret (s.calls + 2)) devnodes w
          (((s.after w).after w).after w)).proc.calls = s.calls + 21 := by
        rw [k2]
        simp [devnodes, Nat.add_assoc]
      simp only [bind_call_run, pure_run, ite_run, after_calls, k3, Nat.add_assoc,
        Nat.reduceAdd]
      split_ifs
      · exact ⟨[⟨Op.symlinkat "/proc/self/fd/1" (w.ret (s.calls + 2)) "stdout",
            w.ret (s.calls + 22)⟩,
          ⟨Op.symlinkat "/proc/self/fd/2" (w.ret (s.calls + 2)) "stderr",
            w.ret (s.calls + 23)⟩], by simp, fun h => by simp at h, Or.inr rfl⟩
      · exact ⟨[⟨Op.symlinkat "/proc/self/fd/2" (w.ret (s.calls + 2)) "stderr",
            w.ret (s.calls + 23)⟩], by simp, fun h => by simp at h, Or.inr rfl⟩
      · exact ⟨[], by simp, fun h => by simp at h, Or.inr rfl⟩
      · exact ⟨[], by simp, fun _ => rfl, Or.inl rfl⟩
    · exact ⟨tail ++
        [⟨Op.symlinkat "/proc/self/fd/0" (w.ret (s.calls + 2)) "stdin", w.ret (s.calls + 21)⟩,
          ⟨Op.symlinkat "/proc/self/fd/1" (w.ret (s.calls + 2)) "stdout",
            w.ret (s.calls + 22)⟩,
          ⟨Op.symlinkat "/proc/self/fd/2" (w.ret (s.calls + 2)) "stderr",
            w.ret (s.calls + 23)⟩], by simp, fun h => by simp at h, Or.inr rfl⟩

/-- C13 as stated fails: in a run of `setup_dev` that returns 0, with the host
node `null` of mode 020666, the mode passed to `mknodat` is 020666, whose
permission bits are 0666 and not zero. -/
theorem mknodat_mode_has_permission_bits :
    (setup_dev "/sandbox/dev" dev_oracle Proc.start).res = Res.ret 0 ∧
    (dev_oracle.out_stat 3).st_mode = 0o20666 ∧
    ⟨Op.mknodat 4 "null" 0o20666 0x103, 0⟩ ∈
      (setup_dev "/sandbox/dev" dev_oracle Proc.start).events ∧
    ⟨Op.fchmodat 4 "null" 0o20666 0, 0⟩ ∈
      (setup_dev "/sandbox/dev" dev_oracle Proc.start).events ∧
    permission_bits 0o20666 = 0o666 ∧
    permission_bits 0o20666 ≠ 0 := by
  decide

/-- A run of `setup_dev` that returns 0: its calls are all of `setup_dev_calls`. -/
theorem setup_dev_copies_host_mode_witness :
    (setup_dev "/sandbox/dev" dev_oracle Proc.start).res = Res.ret 0 ∧
    (setup_dev "/sandbox/dev" dev_oracle Proc.start).events =
      setup_dev_calls dev_oracle "/sandbox/dev" 0 := by
  obtain ⟨tail, h1, h2, _⟩ := setup_dev_copies_host_mode "/sandbox/dev" dev_oracle Proc.start
  have h3 := h2 (by decide)
  subst h3
  exact ⟨by decide, by simpa using h1.symm⟩

theorem parse_options_unshare_aux (n : Nat) : ∀ (args : List String), args.length ≤ n →
    ∀ (l l2 : Locals) (rest : List String), parse_options l args = Parsed.ok (l2, rest) →
    (l2.unshare_ipc = true ↔ l.unshare_ipc = true ∨ "--unshare-ipc" ∈ unshare_options args) ∧
    (l2.unshare_pid = true ↔ l.unshare_pid = true ∨ "--unshare-pid" ∈ unshare_options args) ∧
    (l2.unshare_net = true ↔ l.unshare_net = true ∨ "--unshare-net" ∈ unshare_options args) := by
  induction n with
  | zero =>
    intro args hlen l l2 rest h
    have : args = [] := List.length_eq_zero.mp (Nat.le_zero.mp hlen)
    subst this
    simp [parse_options] at h
    simp [unshare_options, h.1]
  | succ n ih =>
    intro args hlen l l2 rest h
    cases args with
    | nil =>
      simp [parse_options] at h
      simp [unshare_options, h.1]
    | cons arg rest0 =>
      rw [parse_options.eq_def] at h
      rw [unshare_options.eq_def]
      simp only [] at h ⊢
      simp only [List.length_cons] at hlen
      by_cases hmax : l.n_mounts ≥ MAX_BIND_MOUNTS
      · rw [if_pos hmax] at h; cases h
      rw [if_neg hmax] at h
      by_cases h1 : arg = "--help"
      · rw [if_pos h1] at h; cases h
      rw [if_neg h1] at h
      by_cases h2 : arg = "--version"
      · rw [if_pos h2] at h; cases h
      rw [if_neg h2] at h
      by_cases h3 : arg = "--mount-bind"
      · rw [if_pos h3] at h
        rw [if_pos h3]
        match rest0, hlen, h with
        | [], _, h => cases h
        | [_], _, h => cases h
        | source :: dest :: rest2, hlen, h =>
          simp only [List.length_cons] at hlen
          have := ih rest2 (by omega) _ _ _ h
          simpa using this
      rw [if_neg h3] at h
      rw [if_neg h3]
      by_cases h4 : arg = "--mount-readonly"
      · rw [if_pos h4] at h
        rw [if_pos (Or.inl h4)]
        match rest0, hlen, h with
        | [], _, h => cases h
        | dest :: rest1, hlen, h =>
          simp only [List.length_cons] at hlen
          have := ih rest1 (by omega) _ _ _ h
          simpa using this
      rw [if_neg h4] at h
      by_cases h5 : arg = "--mount-proc"
      · rw [if_pos h5] at h
        rw [if_pos (Or.inr (Or.inl h5))]
        match rest0, hlen, h with
        | [], _, h => cases h
        | dest :: rest1, hlen, h =>
          simp only [List.length_cons] at hlen
          have := ih rest1 (by omega) _ _ _ h
          simpa using this
      rw [if_neg h5] at h
      by_cases h6 : arg = "--mount-devapi"
      · rw [if_pos h6] at h
        rw [if_pos (Or.inr (Or.inr h6))]
        match rest0, hlen, h with
        | [], _, h => cases h
        | dest :: rest1, hlen, h =>
          simp only [List.length_cons] at hlen
          have := ih rest1 (by omega) _ _ _ h
          simpa using this
      rw [if_neg h6] at h
      rw [if_neg (by rintro (h | h | h) <;> contradiction)]
      by_cases h7 : arg = "--unshare-ipc"
      · rw [if_pos h7] at h
        rw [if_pos (Or.inl h7)]
        have := ih rest0 (by omega) _ _ _ h
        subst h7
        simpa using this
      rw [if_neg h7] at h
      by_cases h8 : arg = "--unshare-pid"
      · rw [if_pos h8] at h
        rw [if_pos (Or.inr (Or.inl h8))]
        have := ih rest0 (by omega) _ _ _ h
        subst h8
        simpa using this
      rw [if_neg h8] at h
      by_cases h9 : arg = "--unshare-net"
      · rw [if_pos h9] at h
        rw [if_pos (Or.inr (Or.inr h9))]
        have := ih rest0 (by omega) _ _ _ h
        subst h9
        simpa using this
      rw [if_neg h9] at h
      rw [if_neg (by rintro (h | h | h) <;> contradiction)]
      by_cases h10 : arg = "--chdir"
      · rw [if_pos h10] at h
        rw [if_pos (Or.inl h10)]
        match rest0, hlen, h with
        | [], _, h => cases h
        | dir :: rest1, hlen, h =>
          simp only [List.length_cons] at hlen
          have := ih rest1 (by omega) _ _ _ h
          simpa using this
      rw [if_neg h10] at h
      by_cases h11 : arg = "--seccomp-profile-version"
      · rw [if_pos h11] at h
        rw [if_pos (Or.inr h11)]
        match rest0, hlen, h with
        | [], _, h => cases h
        | v :: rest1, hlen, h =>
          simp only [List.length_cons] at hlen
          have := ih rest1 (by omega) _ _ _ h
          simpa using this
      rw [if_neg h11] at h
      rw [if_neg (by rintro (h | h) <;> contradiction)]
      simp only [Parsed.ok.injEq, Prod.mk.injEq] at h
      rw [← h.1]
      simp

theorem parse_command_line_unshare {argv0 : String} {args : List String} {c : Config}
    (h : parse_command_line argv0 args = Parsed.ok c) :
    (c.unshare_ipc = true ↔ "--unshare-ipc" ∈ unshare_options args) ∧
    (c.unshare_pid = true ↔ "--unshare-pid" ∈ unshare_options args) ∧
    (c.unshare_net = true ↔ "--unshare-net" ∈ unshare_options args) := by
  unfold parse_command_line at h
  split_ifs at h
  cases hp : parse_options Locals.start args with
  | fatal message => rw [hp] at h; cases h
  | help => rw [hp] at h; cases h
  | version => rw [hp] at h; cases h
  | ok p =>
    obtain ⟨l, rest⟩ := p
    rw [hp] at h
    have hu := parse_options_unshare_aux args.length args (le_refl _) _ _ _ hp
    match rest, h with
    | [], h => cases h
    | [_], h => cases h
    | chroot_dir :: program :: program_args, h =>
      simp only [Parsed.ok.injEq] at h
      rw [← h]
      simpa [Locals.start] using hu

theorem clone_flags_requested {argv0 : String} {args : List String} {c : Config}
    (h : parse_command_line argv0 args = Parsed.ok c) :
    clone_flags c = requested_clone_flags args := by
  obtain ⟨h1, h2, h3⟩ := parse_command_line_unshare h
  have e1 : c.unshare_ipc = decide ("--unshare-ipc" ∈ unshare_options args) := by
    rw [Bool.eq_iff_iff]
    simpa using h1
  have e2 : c.unshare_pid = decide ("--unshare-pid" ∈ unshare_options args) := by
    rw [Bool.eq_iff_iff]
    simpa using h2
  have e3 : c.unshare_net = decide ("--unshare-net" ∈ unshare_options args) := by
    rw [Bool.eq_iff_iff]
    simpa using h3
  unfold clone_flags requested_clone_flags
  rw [e1, e2, e3]
  by_cases k1 : "--unshare-ipc" ∈ unshare_options args <;>
  by_cases k2 : "--unshare-pid" ∈ unshare_options args <;>
  by_cases k3 : "--unshare-net" ∈ unshare_options args <;>
  simp [k1, k2, k3]

theorem setup_not_clone {op : Op} (h : op.is_setup = true) : op.is_clone = false := by
  cases op <;> simp_all [Op.is_setup, Op.is_mount_work, Op.is_clone]

theorem exec_prep_not_clone {op : Op} (h : op.is_exec_prep = true) : op.is_clone = false := by
  cases op <;> simp_all [Op.is_exec_prep, Op.is_seccomp, Op.is_clone]

/-- The child calls `clone` in no run. -/
theorem child_shape_no_clone {c : Config} {rgid ruid : Nat} {o : Out Unit}
    (hs : ChildShape c rgid ruid o) : ∀ e ∈ o.events, e.op.is_clone = false := by
  rcases hs with ⟨_, h2⟩ | ⟨pre, r1, _, h2, h3, _⟩ | ⟨pre, r1, r2, _, h2, h3, _⟩ |
    ⟨pre, r1, r2, post, _, h2, h3, _, _, _, h7⟩ |
    ⟨pre, r1, r2, post, r3, _, h2, h3, _, _, _, h7, _⟩
  · exact fun e he => setup_not_clone (h2 e he)
  · rw [h2]
    intro e he
    simp only [List.mem_append, List.mem_cons, List.not_mem_nil, or_false] at he
    rcases he with he | rfl
    · exact setup_not_clone (h3 e he)
    · rfl
  · rw [h2]
    intro e he
    simp only [List.mem_append, List.mem_cons, List.not_mem_nil, or_false] at he
    rcases he with he | rfl | rfl
    · exact setup_not_clone (h3 e he)
    · rfl
    · rfl
  · rw [h2]
    intro e he
    simp only [List.mem_append, List.mem_cons, List.not_mem_nil, or_false] at he
    rcases he with (he | rfl | rfl) | he
    · exact setup_not_clone (h3 e he)
    · rfl
    · rfl
    · exact exec_prep_not_clone (h7 e he)
  · rw [h2]
    intro e he
    simp only [List.mem_append, List.mem_cons, List.not_mem_nil, or_false] at he
    rcases he with ((he | rfl | rfl) | he) | rfl
    · exact setup_not_clone (h3 e he)
    · rfl
    · rfl
    · exact exec_prep_not_clone (h7 e he)
    · rfl

/-- The `clone` calls of a run of `launch`: none when `getresgid` or
`getresuid` fails, and otherwise one, with the flags `clone_flags`. -/
theorem launch_clone_calls (x86 : Bool) (c : Config) (w : World) (s : Proc) :
    (∀ e ∈ (launch x86 c w s).events, e.op.is_clone = true → e.op = Op.clone (clone_flags c)) ∧
    List.countP (fun e => e.op.is_clone) (launch x86 c w s).events =
      (if 0 ≤ w.ret s.calls ∧ 0 ≤ w.ret (s.calls + 1) then 1 else 0) := by
  rcases launch_shape x86 c w s with ⟨k0, _, h2⟩ | ⟨k0, k1, _, h2⟩ | ⟨k0, k1, _, _, h2⟩ |
    ⟨k0, k1, _, oc, hc, _, h2⟩ | ⟨k0, k1, _, hpar⟩
  · rw [h2, if_neg (fun h => absurd k0 (not_lt.mpr h.1))]
    simp [Op.is_clone]
  · rw [h2, if_neg (fun h => absurd k1 (not_lt.mpr h.2))]
    simp [Op.is_clone]
  · rw [h2, if_pos ⟨k0, k1⟩]
    simp [Op.is_clone]
  · rw [h2, if_pos ⟨k0, k1⟩]
    have hn := child_shape_no_clone hc
    constructor
    · intro e he hcl
      simp only [List.mem_cons] at he
      rcases he with rfl | rfl | rfl | he
      · cases hcl
      · cases hcl
      · rfl
      · rw [hn e he] at hcl
        cases hcl
    · have h0 : List.countP (fun e => e.op.is_clone) oc.events = 0 :=
        List.countP_eq_zero.mpr (fun e he => by simp [hn e he])
      rw [List.countP_cons, List.countP_cons, List.countP_cons, h0]
      rfl
  · rw [if_pos ⟨k0, k1⟩]
    rcases hpar with ⟨_, _, h2⟩ | ⟨_, _, _, h2⟩ | ⟨_, _, _, h2⟩ <;>
      (rw [h2]; simp [Op.is_clone])

/-- C12. For every command line that the argument handling accepts, every
`clone` call of a run of `main` has the flags `requested_clone_flags`:
`SIGCHLD | CLONE_NEWNS`, with `CLONE_NEWIPC | CLONE_NEWUTS` if and only if
`--unshare-ipc` is among the options, `CLONE_NEWPID` if and only if
`--unshare-pid` is, and `CLONE_NEWNET` if and only if `--unshare-net` is;
`clone` is called once when `getresgid` and `getresuid` succeed (and not at all
otherwise); `CLONE_NEWNS` is always set, and no bit outside `SIGCHLD` and these
five namespace bits is set, `CLONE_NEWUSER` in particular. -/
theorem clone_once_with_requested_flags (x86 : Bool) (argv0 : String) (args : List String)
    (c : Config) (w : World) (s : Proc)
    (hp : parse_command_line argv0 args = Parsed.ok c) :
    (∀ e ∈ (main x86 (argv0 :: args) w s).events, e.op.is_clone = true →
      e.op = Op.clone (requested_clone_flags args)) ∧
    List.countP (fun e => e.op.is_clone) (main x86 (argv0 :: args) w s).events =
      (if 0 ≤ w.ret s.calls ∧ 0 ≤ w.ret (s.calls + 1) then 1 else 0) ∧
    requested_clone_flags args &&& SIGCHLD = SIGCHLD ∧
    requested_clone_flags args &&& CLONE_NEWNS = CLONE_NEWNS ∧
    (requested_clone_flags args &&& CLONE_NEWIPC = CLONE_NEWIPC ↔
      "--unshare-ipc" ∈ unshare_options args) ∧
    (requested_clone_flags args &&& CLONE_NEWUTS = CLONE_NEWUTS ↔
      "--unshare-ipc" ∈ unshare_options args) ∧
    (requested_clone_flags args &&& CLONE_NEWPID = CLONE_NEWPID ↔
      "--unshare-pid" ∈ unshare_options args) ∧
    (requested_clone_flags args &&& CLONE_NEWNET = CLONE_NEWNET ↔
      "--unshare-net" ∈ unshare_options args) ∧
    requested_clone_flags args &&& CLONE_NEWUSER = 0 ∧
    requested_clone_flags args |||
        (SIGCHLD ||| CLONE_NEWNS ||| CLONE_NEWIPC ||| CLONE_NEWUTS ||| CLONE_NEWPID |||
          CLONE_NEWNET) =
      SIGCHLD ||| CLONE_NEWNS ||| CLONE_NEWIPC ||| CLONE_NEWUTS ||| CLONE_NEWPID |||
        CLONE_NEWNET := by
  have hl := launch_clone_calls x86 c w s
  rw [clone_flags_requested hp] at hl
  rw [main_ok hp]
  refine ⟨hl.1, hl.2, ?_⟩
  unfold requested_clone_flags
  by_cases k1 : "--unshare-ipc" ∈ unshare_options args <;>
  by_cases k2 : "--unshare-pid" ∈ unshare_options args <;>
  by_cases k3 : "--unshare-net" ∈ unshare_options args <;>
  simp only [k1, k2, k3, if_true, if_false, iff_true, iff_false] <;> decide

/-- A command line to which the theorem applies: `unshare_args`, with
`--unshare-ipc` and `--unshare-net`; the flags are 0x4C020011. -/
theorem clone_once_with_requested_flags_witness :
    parse_command_line "linux-user-chroot" unshare_args = Parsed.ok unshare_config ∧
    unshare_options unshare_args = ["--unshare-ipc", "--unshare-net"] ∧
    requested_clone_flags unshare_args = 0x4C020011 ∧
    (∀ e ∈ (main true ("linux-user-chroot" :: unshare_args) child_oracle Proc.start).events,
      e.op.is_clone = true → e.op = Op.clone (requested_clone_flags unshare_args)) ∧
    List.countP (fun e => e.op.is_clone)
      (main true ("linux-user-chroot" :: unshare_args) child_oracle Proc.start).events = 1 := by
  have h := clone_once_with_requested_flags true "linux-user-chroot" unshare_args
    unshare_config child_oracle Proc.start (by decide)
  exact ⟨by decide, by decide, by decide, h.1, by rw [h.2.1]; decide⟩

@[simp] theorem bind_perror_run {β : Type} (message : String) (f : Unit → Run β) (w : World)
    (s : Proc) :
    (perror message >>= f) w s =
      f () w ⟨s.calls, s.errno, s.stderr ++ [Diag.perror message s.errno]⟩ := by
  have hr : (perror message w s).res = Res.ret () := rfl
  rw [run_bind_ret hr]
  simp [perror, get_errno, eprint, bind, Run.bind]

theorem newnet_fatal_errno_eq {α : Type} (message : String) :
    (Newnet.fatal_errno message : Run α) = fatal_errno message := rfl

/-- C11: what the code does when `clone` fails in the helper.  In every run
of the helper's `main` in which `getresgid` and `getresuid` succeed and `clone`
returns a negative value, the process goes on: the next call is `setgid`; when
`setgid`, `setuid` and `waitpid` succeed, the calls are `getresgid`,
`getresuid`, `clone`, `setgid`, `setuid`, `waitpid` with the negative value as
pid, and `main` returns the exit status that `waitpid` reported, which need not
be 1.  The launcher's own `main` stops by `exit (1)` right after a failed
`clone`. -/
theorem newnet_clone_failure_goes_on (x86 : Bool) (c : Config) (argv0 program : String)
    (args : List String) (w : World) (s : Proc)
    (h0 : 0 ≤ w.ret s.calls) (h1 : 0 ≤ w.ret (s.calls + 1)) (h2 : w.ret (s.calls + 2) < 0) :
    (∃ rest, (Newnet.main (argv0 :: program :: args) w s).events =
      ⟨Op.getresgid, w.ret s.calls⟩ :: ⟨Op.getresuid, w.ret (s.calls + 1)⟩ ::
        ⟨Op.clone (SIGCHLD ||| CLONE_NEWNET), w.ret (s.calls + 2)⟩ ::
        ⟨Op.setgid (launch_rgid w s), w.ret (s.calls + 3)⟩ :: rest) ∧
    (0 ≤ w.ret (s.calls + 3) → 0 ≤ w.ret (s.calls + 4) → 0 ≤ w.ret (s.calls + 5) →
      (Newnet.main (argv0 :: program :: args) w s).events =
        [⟨Op.getresgid, w.ret s.calls⟩, ⟨Op.getresuid, w.ret (s.calls + 1)⟩,
          ⟨Op.clone (SIGCHLD ||| CLONE_NEWNET), w.ret (s.calls + 2)⟩,
          ⟨Op.setgid (launch_rgid w s), w.ret (s.calls + 3)⟩,
          ⟨Op.setuid (launch_ruid w s), w.ret (s.calls + 4)⟩,
          ⟨Op.waitpid (w.ret (s.calls + 2)) 0, w.ret (s.calls + 5)⟩] ∧
      (Newnet.main (argv0 :: program :: args) w s).res =
        Res.ret (if WIFEXITED (w.out_status (s.calls + 5)) = true
          then (WEXITSTATUS (w.out_status (s.calls + 5)) : Int) else 1)) ∧
    ((launch x86 c w s).res = Res.stop (Stop.exit 1) ∧
      (launch x86 c w s).events =
        [⟨Op.getresgid, w.ret s.calls⟩, ⟨Op.getresuid, w.ret (s.calls + 1)⟩,
          ⟨Op.clone (clone_flags c), w.ret (s.calls + 2)⟩]) := by
  have e1 : (w.out_ids (s.calls + 1)).r = launch_ruid w s := rfl
  have e2 : (if (w.out_ids s.calls).r = 0 then launch_ruid w s else (w.out_ids s.calls).r) =
      launch_rgid w s := rfl
  refine ⟨?_, ?_, ?_⟩
  · simp only [Newnet.main, newnet_fatal_errno_eq, bind_call_out_run, bind_call_run,
      ite_bind_run, bind_pure_run, bind_perror_run, bind_execvp_run, bind_fatal_errno_run,
      fatal_errno_run, pure_run, ite_run, after_calls, e1, e2, Nat.add_assoc, Nat.reduceAdd,
      if_neg (not_lt.mpr h0), if_neg (not_lt.mpr h1), if_pos h2, if_neg (ne_of_lt h2)]
    exact ⟨_, rfl⟩
  · intro h3 h4 h5
    simp only [Newnet.main, newnet_fatal_errno_eq, bind_call_out_run, bind_call_run,
      ite_bind_run, bind_pure_run, bind_perror_run, bind_execvp_run, bind_fatal_errno_run,
      fatal_errno_run, pure_run, ite_run, after_calls, e1, e2, Nat.add_assoc, Nat.reduceAdd,
      if_neg (not_lt.mpr h0), if_neg (not_lt.mpr h1), if_pos h2, if_neg (ne_of_lt h2),
      if_neg (not_lt.mpr h3), if_neg (not_lt.mpr h4), if_neg (not_lt.mpr h5)]
    split_ifs <;> exact ⟨rfl, rfl⟩
  · rcases launch_shape x86 c w s with ⟨k0, _⟩ | ⟨_, k1, _⟩ | ⟨_, _, _, h3, h4⟩ |
      ⟨_, _, k2, _⟩ | ⟨_, _, k2, _⟩
    · exact absurd k0 (not_lt.mpr h0)
    · exact absurd k1 (not_lt.mpr h1)
    · exact ⟨h3, h4⟩
    · rw [k2] at h2; cases h2
    · exact absurd h2 (not_lt.mpr (le_of_lt k2))




/-- Two runs of the helper in which `clone` fails.  When `waitpid` then
reports a child that exited with status 0, `main` returns 0 after `setgid`,
`setuid` and `waitpid (-1, ...)`, the only diagnostic being that of `perror`;
when `waitpid` fails too, the process ends by `exit (1)`, but only after
`setgid`, `setuid` and `waitpid`. -/
theorem newnet_clone_failure_goes_on_witness :
    clone_fails.ret 2 < 0 ∧
    ((Newnet.main ["linux-user-chroot-newnet", "true"] clone_fails Proc.start).events =
        [⟨Op.getresgid, 0⟩, ⟨Op.getresuid, 0⟩, ⟨Op.clone (SIGCHLD ||| CLONE_NEWNET), -1⟩,
          ⟨Op.setgid 1000, 0⟩, ⟨Op.setuid 1000, 0⟩, ⟨Op.waitpid (-1) 0, 0⟩] ∧
      (Newnet.main ["linux-user-chroot-newnet", "true"] clone_fails Proc.start).res =
        Res.ret 0) ∧
    (Newnet.main ["linux-user-chroot-newnet", "true"] clone_fails Proc.start).proc.stderr =
      [Diag.perror "clone" 12] ∧
    (Newnet.main ["linux-user-chroot-newnet", "true"] clone_fails_no_child
        Proc.start).events =
      [⟨Op.getresgid, 0⟩, ⟨Op.getresuid, 0⟩, ⟨Op.clone (SIGCHLD ||| CLONE_NEWNET), -1⟩,
        ⟨Op.setgid 1000, 0⟩, ⟨Op.setuid 1000, 0⟩, ⟨Op.waitpid (-1) 0, -1⟩] ∧
    (Newnet.main ["linux-user-chroot-newnet", "true"] clone_fails_no_child Proc.start).res =
      Res.stop (Stop.exit 1) ∧
    (main true sample_argv clone_fails Proc.start).events =
      [⟨Op.getresgid, 0⟩, ⟨Op.getresuid, 0⟩, ⟨Op.clone (SIGCHLD ||| CLONE_NEWNS), -1⟩] :=
  ⟨by decide,
    (newnet_clone_failure_goes_on true sample_config "linux-user-chroot-newnet" "true" []
      clone_fails Proc.start (by decide) (by decide) (by decide)).2.1
      (by decide) (by decide) (by decide),
    by decide, by decide, by decide, by decide⟩

/-- The calls of a run of `setup_dev` are an initial part of `setup_dev_calls`,
and all 24 of them when the value returned is not negative. -/
theorem setup_dev_trace (dest_devdir : String) (w : World) (s : Proc) :
    ∃ tail, setup_dev_calls w dest_devdir s.calls =
        (setup_dev dest_devdir w s).events ++ tail ∧
      ∃ v, (setup_dev dest_devdir w s).res = Res.ret v ∧
        (¬ v < 0 → tail = [] ∧ (setup_dev dest_devdir w s).proc.calls = s.calls + 24) := by
  simp only [setup_dev, setup_dev_calls, bind_call_run, pure_run, ite_run, after_calls]
  split_ifs with h1 h2 h3
  · exact ⟨_, rfl, -1, rfl, fun h => absurd (by decide) h⟩
  · exact ⟨_, rfl, -1, rfl, fun h => absurd (by decide) h⟩
  · exact ⟨_, rfl, -1, rfl, fun h => absurd (by decide) h⟩
  · obtain ⟨tail, ht, hn⟩ := setup_dev_nodes_calls (w.ret s.calls) (w.ret (s.calls + 1 + 1))
      devnodes w (((s.after w).after w).after w)
    obtain ⟨_, a, hr, _⟩ := setup_dev_nodes_sub (w.ret s.calls) (w.ret (s.calls + 1 + 1))
      devnodes w (((s.after w).after w).after w)
    have hv := setup_dev_nodes_ret _ _ _ _ _ _ hr
    simp only [after_calls, Nat.add_assoc, Nat.reduceAdd] at ht hn hr ⊢
    rw [run_bind_ret hr, ht]
    rcases hv with rfl | rfl
    · obtain ⟨k1, k2⟩ := hn hr
      subst k1
      have k3 : (setup_dev_nodes (w.ret s.calls) (w.ret (s.calls + 2)) devnodes w
          (((s.after w).after w).after w)).proc.calls = s.calls + 21 := by
        rw [k2]
        simp [devnodes, Nat.add_assoc]
      simp only [bind_call_run, pure_run, ite_run, after_calls, k3, Nat.add_assoc,
        Nat.reduceAdd]
      split_ifs
      · exact ⟨[⟨Op.symlinkat "/proc/self/fd/1" (w.ret (s.calls + 2)) "stdout",
            w.ret (s.calls + 22)⟩,
          ⟨Op.symlinkat "/proc/self/fd/2" (w.ret (s.calls + 2)) "stderr",
            w.ret (s.calls + 23)⟩], by simp, -1, rfl, fun h => absurd (by decide) h⟩
      · exact ⟨[⟨Op.symlinkat "/proc/self/fd/2" (w.ret (s.calls + 2)) "stderr",
            w.ret (s.calls + 23)⟩], by simp, -1, rfl, fun h => absurd (by decide) h⟩
      · exact ⟨[], by simp, -1, rfl, fun h => absurd (by decide) h⟩
      · exact ⟨[], by simp, 0, rfl, fun _ => ⟨rfl, by simp [k3]⟩⟩
    · exact ⟨tail ++
        [⟨Op.symlinkat "/proc/self/fd/0" (w.ret (s.calls + 2)) "stdin", w.ret (s.calls + 21)⟩,
          ⟨Op.symlinkat "/proc/self/fd/1" (w.ret (s.calls + 2)) "stdout",
            w.ret (s.calls + 22)⟩,
          ⟨Op.symlinkat "/proc/self/fd/2" (w.ret (s.calls + 2)) "stderr",
            w.ret (s.calls + 23)⟩], by simp, -1, rfl, fun h => absurd (by decide) h⟩

theorem setup_dev_calls_length (w : World) (dest_devdir : String) (k : Nat) :
    (setup_dev_calls w dest_devdir k).length = 24 := by
  simp [setup_dev_calls, node_calls, devnodes]

/-- The calls of one pass of the loop over `bind_mounts` are an initial part
of `mount_spec_calls`, and all of it when the pass is completed. -/
theorem apply_mount_trace (ruid : Nat) (chroot_dir : String) (m : MountSpec) (w : World)
    (s : Proc) :
    ∃ tail, mount_spec_calls w ruid chroot_dir s.calls m =
        (apply_mount ruid chroot_dir m w s).events ++ tail ∧
      ((apply_mount ruid chroot_dir m w s).res = Res.ret () →
        tail = [] ∧ (apply_mount ruid chroot_dir m w s).proc.calls =
          s.calls + (mount_spec_calls w ruid chroot_dir s.calls m).length) := by
  unfold apply_mount mount_spec_calls
  cases m.type with
  | MOUNT_SPEC_BIND =>
    simp only [fsuid_chdir, run_bind_assoc, bind_call_run, bind_get_errno_run,
      bind_set_errno_run, bind_pure_run, bind_fatal_run, bind_fatal_errno_run, fatal_run,
      fatal_errno_run, pure_run, ite_run, after_calls, Nat.add_assoc, Nat.reduceAdd]
    split_ifs
    · exact ⟨_, rfl, fun h => by simp at h⟩
    · exact ⟨[], rfl, fun h => by simp at h⟩
    · exact ⟨[], rfl, fun _ => ⟨rfl, rfl⟩⟩
  | MOUNT_SPEC_READONLY =>
    simp only [bind_call_run, bind_pure_run, bind_fatal_errno_run, fatal_errno_run, pure_run,
      ite_run, after_calls, Nat.add_assoc, Nat.reduceAdd]
    split_ifs
    · exact ⟨_, rfl, fun h => by simp at h⟩
    · exact ⟨[], rfl, fun h => by simp at h⟩
    · exact ⟨[], rfl, fun _ => ⟨rfl, rfl⟩⟩
  | MOUNT_SPEC_PROCFS =>
    simp only [bind_call_run, bind_pure_run, bind_fatal_errno_run, fatal_errno_run, pure_run,
      ite_run, after_calls]
    split_ifs
    · exact ⟨[], rfl, fun h => by simp at h⟩
    · exact ⟨[], rfl, fun _ => ⟨rfl, rfl⟩⟩
  | MOUNT_SPEC_DEVAPI =>
    obtain ⟨tail, ht, v, hr, hv⟩ := setup_dev_trace (chroot_dir ++ m.dest) w s
    simp only []
    rw [run_bind_ret hr, setup_dev_calls_length]
    simp only [ite_run, fatal_errno_run, pure_run]
    split_ifs with h
    · exact ⟨tail, by simpa using ht, fun h => by simp at h⟩
    · obtain ⟨k1, k2⟩ := hv h
      exact ⟨tail, by simpa using ht, fun _ => ⟨k1, k2⟩⟩




/-- The calls of the loop over `bind_mounts` are an initial part of
`mount_list_calls`, and all of it when the loop is completed. -/
theorem apply_mounts_trace (ruid : Nat) (chroot_dir : String) (l : List MountSpec) :
    ∀ (w : World) (s : Proc),
    ∃ tail, mount_list_calls w ruid chroot_dir s.calls l =
        (apply_mounts ruid chroot_dir l w s).events ++ tail ∧
      ((apply_mounts ruid chroot_dir l w s).res = Res.ret () → tail = []) := by
  induction l with
  | nil => exact fun w s => ⟨[], rfl, fun _ => rfl⟩
  | cons m rest ih =>
    intro w s
    obtain ⟨t1, h1, h2⟩ := apply_mount_trace ruid chroot_dir m w s
    show ∃ tail, mount_list_calls w ruid chroot_dir s.calls (m :: rest) =
        ((apply_mount ruid chroot_dir m >>= fun _ =>
          apply_mounts ruid chroot_dir rest) w s).events ++ tail ∧
      (((apply_mount ruid chroot_dir m >>= fun _ =>
          apply_mounts ruid chroot_dir rest) w s).res = Res.ret () → tail = [])
    cases hr : (apply_mount ruid chroot_dir m w s).res with
    | stop x =>
      rw [run_bind_stop hr]
      refine ⟨t1 ++ mount_list_calls w ruid chroot_dir
        (s.calls + (mount_spec_calls w ruid chroot_dir s.calls m).length) rest, ?_,
        fun h => by cases h⟩
      simp only [mount_list_calls]
      rw [h1, List.append_assoc]
    | ret a =>
      obtain ⟨k1, k2⟩ := h2 hr
      subst k1
      obtain ⟨t2, h3, h4⟩ := ih w (apply_mount ruid chroot_dir m w s).proc
      rw [run_bind_ret hr]
      refine ⟨t2, ?_, fun h => h4 h⟩
      simp only [mount_list_calls]
      rw [← k2, h3]
      simp only [List.append_nil] at h1
      rw [h1, List.append_assoc]

/-- The calls of the child up to the end of the loop over `bind_mounts`. -/
theorem child_mounts_trace (ruid : Nat) (chroot_dir : String) (l : List MountSpec)
    (w : World) (s : Proc) :
    ∃ tail, isolate_calls w s.calls ++ mount_list_calls w ruid chroot_dir (s.calls + 3) l =
        ((child_isolate >>= fun _ => apply_mounts ruid chroot_dir l) w s).events ++ tail ∧
      (∀ a, ((child_isolate >>= fun _ => apply_mounts ruid chroot_dir l) w s).res = Res.ret a →
        tail = []) := by
  simp only [child_isolate, isolate_calls, run_bind_assoc, ite_bind_run, bind_call_run,
    bind_pure_run, bind_fatal_errno_run, fatal_errno_run, pure_run, ite_run, after_calls,
    Nat.add_assoc, Nat.reduceAdd]
  split_ifs
  · exact ⟨_, rfl, fun a h => by simp at h⟩
  · exact ⟨_, rfl, fun a h => by simp at h⟩
  · exact ⟨_, rfl, fun a h => by simp at h⟩
  · obtain ⟨tail, h1, h2⟩ := apply_mounts_trace ruid chroot_dir l w
      (((s.after w).after w).after w)
    simp only [after_calls, Nat.add_assoc, Nat.reduceAdd] at h1
    exact ⟨tail, by simp [h1], fun a h => h2 (by simpa using h)⟩

theorem bind_events_start {α β : Type} (m : Run α) (f : α → Run β) (w : World) (s : Proc) :
    ∃ rest, ((m >>= f) w s).events = (m w s).events ++ rest := by
  cases hr : (m w s).res with
  | ret a => exact ⟨_, by rw [run_bind_ret hr]⟩
  | stop x => exact ⟨[], by rw [run_bind_stop hr]; simp⟩

/-- The calls of a run of the child and the calls the mount list asks for:
either the run stops inside them, or it makes them all, in the order of the
list, before any other call; a run that reaches `setgid` makes them all, and
so does a run in which the code treats no call as failed. -/
theorem child_mounts_in_order (x86 : Bool) (c : Config) (rgid ruid : Nat) (w : World)
    (s : Proc) :
    ((∃ tail, isolate_calls w s.calls ++
          mount_list_calls w ruid c.chroot_dir (s.calls + 3) c.bind_mounts =
        (child x86 c rgid ruid w s).events ++ tail) ∨
      (∃ rest, (child x86 c rgid ruid w s).events =
        isolate_calls w s.calls ++
          mount_list_calls w ruid c.chroot_dir (s.calls + 3) c.bind_mounts ++ rest)) ∧
    ((∃ e ∈ (child x86 c rgid ruid w s).events, e.op = Op.setgid rgid) →
      ∃ rest, (child x86 c rgid ruid w s).events =
        isolate_calls w s.calls ++
          mount_list_calls w ruid c.chroot_dir (s.calls + 3) c.bind_mounts ++ rest) ∧
    ((∀ e ∈ (child x86 c rgid ruid w s).events, e.refused = false) →
      ∃ rest, (child x86 c rgid ruid w s).events =
        isolate_calls w s.calls ++
          mount_list_calls w ruid c.chroot_dir (s.calls + 3) c.bind_mounts ++ rest) := by
  obtain ⟨tail, h1, h2⟩ := child_mounts_trace ruid c.chroot_dir c.bind_mounts w s
  have hlive : Live (fun _ => True) ((child_isolate >>= fun _ =>
      apply_mounts ruid c.chroot_dir c.bind_mounts) w s) :=
    live_bind child_isolate_live
      (fun _ _ w s => apply_mounts_live ruid c.chroot_dir c.bind_mounts w s) w s
  have hA2 := (phase_bind child_isolate_phase
    (fun _ => apply_mounts_phase ruid c.chroot_dir c.bind_mounts) w s).1
  rw [child_eq, child_pre_root_eq, run_bind_assoc]
  cases hA : ((child_isolate >>= fun _ =>
      apply_mounts ruid c.chroot_dir c.bind_mounts) w s).res with
  | stop x =>
    rw [run_bind_stop hA]
    refine ⟨Or.inl ⟨tail, h1⟩, ?_, ?_⟩
    · rintro ⟨e, he, hop⟩
      have := hA2 e he
      rw [hop] at this
      cases this
    · intro hall
      obtain ⟨a, ha, _⟩ := hlive hall
      rw [hA] at ha
      cases ha
  | ret a =>
    have ht := h2 a hA
    subst ht
    simp only [List.append_nil] at h1
    obtain ⟨rest, hrest⟩ := bind_events_start (child_isolate >>= fun _ =>
      apply_mounts ruid c.chroot_dir c.bind_mounts)
      (fun _ => root_transition ruid c.chroot_dir >>= fun _ =>
        drop_privileges rgid ruid >>= fun _ =>
        child_prepare_exec x86 c >>= fun _ =>
        execvp c.program c.program_argv >>= fun r =>
        if r < 0 then fatal_errno "execv" else pure ()) w s
    rw [hrest, ← h1]
    exact ⟨Or.inr ⟨rest, rfl⟩, fun _ => ⟨rest, rfl⟩, fun _ => ⟨rest, rfl⟩⟩




/-- C3. For every command line that the argument handling accepts, the list
`bind_mounts` that `main` hands to the child is the list of the mount options
in the order of the command line, each with its kind, its destination, and a
source that is null unless the kind is Bind; `reverse_mount_list` returns the
reversal of any list, a permutation of it of the same length; and the loop of
the child goes over that list from its first element on: in every run of
`main` in the child, the calls after `clone` and the three calls at the start
of the child are the calls that the mount options ask for, option after
option in the order of the command line, up to the point where the run stops
or the list is done; a run that reaches `setgid`, and a run in which the code
treats no call as failed, has made them all before any other call. -/
theorem mounts_in_command_line_order (x86 : Bool) (argv0 : String) (args : List String)
    (c : Config) (w : World) (s : Proc) (h : parse_command_line argv0 args = Parsed.ok c) :
    main x86 (argv0 :: args) = launch x86 c ∧
    c.bind_mounts = mount_options_in_order args ∧
    (∀ m ∈ c.bind_mounts, (m.source = none ↔ m.type ≠ MountSpecType.MOUNT_SPEC_BIND)) ∧
    (∀ l : List MountSpec, reverse_mount_list l = l.reverse ∧
      (reverse_mount_list l).length = l.length ∧ (reverse_mount_list l).Perm l) ∧
    (0 ≤ w.ret s.calls → 0 ≤ w.ret (s.calls + 1) → w.ret (s.calls + 2) = 0 →
      ((∃ tail,
          ⟨Op.getresgid, w.ret s.calls⟩ :: ⟨Op.getresuid, w.ret (s.calls + 1)⟩ ::
            ⟨Op.clone (clone_flags c), 0⟩ ::
            (isolate_calls w (s.calls + 3) ++
              mount_list_calls w (launch_ruid w s) c.chroot_dir (s.calls + 6)
                (mount_options_in_order args)) =
          (main x86 (argv0 :: args) w s).events ++ tail) ∨
        (∃ rest, (main x86 (argv0 :: args) w s).events =
          ⟨Op.getresgid, w.ret s.calls⟩ :: ⟨Op.getresuid, w.ret (s.calls + 1)⟩ ::
            ⟨Op.clone (clone_flags c), 0⟩ ::
            (isolate_calls w (s.calls + 3) ++
              mount_list_calls w (launch_ruid w s) c.chroot_dir (s.calls + 6)
                (mount_options_in_order args) ++ rest))) ∧
      ((∃ e ∈ (main x86 (argv0 :: args) w s).events, e.op = Op.setgid (launch_rgid w s)) →
        ∃ rest, (main x86 (argv0 :: args) w s).events =
          ⟨Op.getresgid, w.ret s.calls⟩ :: ⟨Op.getresuid, w.ret (s.calls + 1)⟩ ::
            ⟨Op.clone (clone_flags c), 0⟩ ::
            (isolate_calls w (s.calls + 3) ++
              mount_list_calls w (launch_ruid w s) c.chroot_dir (s.calls + 6)
                (mount_options_in_order args) ++ rest)) ∧
      ((∀ e ∈ (main x86 (argv0 :: args) w s).events, e.refused = false) →
        ∃ rest, (main x86 (argv0 :: args) w s).events =
          ⟨Op.getresgid, w.ret s.calls⟩ :: ⟨Op.getresuid, w.ret (s.calls + 1)⟩ ::
            ⟨Op.clone (clone_flags c), 0⟩ ::
            (isolate_calls w (s.calls + 3) ++
              mount_list_calls w (launch_ruid w s) c.chroot_dir (s.calls + 6)
                (mount_options_in_order args) ++ rest))) := by
  obtain ⟨l, rest, hp, hc⟩ := parse_command_line_ok h
  have hm := parse_options_mounts _ _ _ _ hp
  have hc2 : c.bind_mounts = mount_options_in_order args := by
    rw [hc, reverse_mount_list_eq, hm]
    simp [Locals.start]
  refine ⟨main_ok h, hc2, ?_, fun l => ?_, ?_⟩
  · rw [hc2]
    exact mount_options_source_aux args.length args (le_refl _)
  · rw [reverse_mount_list_eq]
    exact ⟨rfl, List.length_reverse l, List.reverse_perm l⟩
  · intro k1 k2 k3
    obtain ⟨he, _⟩ := launch_child_run x86 c w s k1 k2 k3
    obtain ⟨q1, q2, q3⟩ := child_mounts_in_order x86 c (launch_rgid w s) (launch_ruid w s) w
      (((s.after w).after w).after w)
    simp only [after_calls, Nat.add_assoc, Nat.reduceAdd] at q1 q2 q3
    rw [main_ok h, he, ← hc2]
    refine ⟨?_, ?_, ?_⟩
    · rcases q1 with ⟨tail, ht⟩ | ⟨rest, hr⟩
      · exact Or.inl ⟨tail, by rw [ht]; rfl⟩
      · exact Or.inr ⟨rest, by rw [hr]⟩
    · rintro ⟨e, hmem, hop⟩
      simp only [List.mem_cons] at hmem
      rcases hmem with rfl | rfl | rfl | hmem
      · cases hop
      · cases hop
      · cases hop
      · obtain ⟨rest, hr⟩ := q2 ⟨e, hmem, hop⟩
        exact ⟨rest, by rw [hr]⟩
    · intro hall
      obtain ⟨rest, hr⟩ := q3 (fun e he2 => hall e (by simp [he2]))
      exact ⟨rest, by rw [hr]⟩

/-- A command line to which the theorem applies: `two_binds_args`, two binds
on the same destination.  In the run of the child in which every call
succeeds, the bind of `A` is made before the bind of `B`. -/
theorem mounts_in_command_line_order_witness :
    parse_command_line "linux-user-chroot" two_binds_args = Parsed.ok two_binds_config ∧
    two_binds_config.bind_mounts = mount_options_in_order two_binds_args ∧
    ∃ rest, (main true ("linux-user-chroot" :: two_binds_args) child_oracle Proc.start).events =
      [⟨Op.getresgid, 0⟩, ⟨Op.getresuid, 0⟩, ⟨Op.clone (SIGCHLD ||| CLONE_NEWNS), 0⟩,
        ⟨Op.prctl PR_SET_NO_NEW_PRIVS 1 0 0 0, 0⟩,
        ⟨Op.mount none "/" (some "none") (MS_PRIVATE ||| MS_REC) none, 0⟩,
        ⟨Op.mount none "/" (some "none") (MS_PRIVATE ||| MS_REMOUNT ||| MS_NOSUID) none, 0⟩,
        ⟨Op.setfsuid 1000, 0⟩, ⟨Op.chdir (some "A"), 0⟩, ⟨Op.setfsuid 0, 0⟩,
        ⟨Op.mount (some ".") "/sandbox/x" none (MS_BIND ||| MS_PRIVATE) none, 0⟩,
        ⟨Op.setfsuid 1000, 0⟩, ⟨Op.chdir (some "B"), 0⟩, ⟨Op.setfsuid 0, 0⟩,
        ⟨Op.mount (some ".") "/sandbox/x" none (MS_BIND ||| MS_PRIVATE) none, 0⟩] ++ rest := by
  have h := mounts_in_command_line_order true "linux-user-chroot" two_binds_args
    two_binds_config child_oracle Proc.start (by decide)
  refine ⟨by decide, h.2.1, ?_⟩
  obtain ⟨rest, hr⟩ := (h.2.2.2.2 (by decide) (by decide) (by decide)).2.2 (by decide)
  have hE : ⟨Op.getresgid, child_oracle.ret Proc.start.calls⟩ ::
      ⟨Op.getresuid, child_oracle.ret (Proc.start.calls + 1)⟩ ::
      ⟨Op.clone (clone_flags two_binds_config), 0⟩ ::
      (isolate_calls child_oracle (Proc.start.calls + 3) ++
        mount_list_calls child_oracle (launch_ruid child_oracle Proc.start)
          two_binds_config.chroot_dir (Proc.start.calls + 6)
          (mount_options_in_order two_binds_args)) =
      [⟨Op.getresgid, 0⟩, ⟨Op.getresuid, 0⟩, ⟨Op.clone (SIGCHLD ||| CLONE_NEWNS), 0⟩,
        ⟨Op.prctl PR_SET_NO_NEW_PRIVS 1 0 0 0, 0⟩,
        ⟨Op.mount none "/" (some "none") (MS_PRIVATE ||| MS_REC) none, 0⟩,
        ⟨Op.mount none "/" (some "none") (MS_PRIVATE ||| MS_REMOUNT ||| MS_NOSUID) none, 0⟩,
        ⟨Op.setfsuid 1000, 0⟩, ⟨Op.chdir (some "A"), 0⟩, ⟨Op.setfsuid 0, 0⟩,
        ⟨Op.mount (some ".") "/sandbox/x" none (MS_BIND ||| MS_PRIVATE) none, 0⟩,
        ⟨Op.setfsuid 1000, 0⟩, ⟨Op.chdir (some "B"), 0⟩, ⟨Op.setfsuid 0, 0⟩,
        ⟨Op.mount (some ".") "/sandbox/x" none (MS_BIND ||| MS_PRIVATE) none, 0⟩] := by
    decide
  exact ⟨rest, by rw [hr, ← hE]; simp⟩

theorem arch_present_append (arch : ScmpArch) (p : Bool) (a b : List Event) :
    arch_present arch p (a ++ b) = arch_present arch (arch_present arch p a) b := by
  induction a generalizing p with
  | nil => rfl
  | cons e rest ih =>
    obtain ⟨op, r⟩ := e
    cases op <;> simp only [List.cons_append, arch_present] <;> exact ih _

theorem stored_rules_append (arch : ScmpArch) (p : Bool) (a b : List Event) :
    stored_rules arch p (a ++ b) =
      stored_rules arch p a ++ stored_rules arch (arch_present arch p a) b := by
  induction a generalizing p with
  | nil => rfl
  | cons e rest ih =>
    obtain ⟨op, r⟩ := e
    cases op
    case seccomp_rule_add action syscall args =>
      simp only [List.cons_append, stored_rules, arch_present]
      split_ifs <;> simp [ih]
    all_goals simp only [List.cons_append, stored_rules, arch_present]
    all_goals exact ih _

theorem arch_present_no_add (arch : ScmpArch) (p : Bool) (es : List Event)
    (h : ∀ e ∈ es, e.op.is_arch_add = false) : arch_present arch p es = p := by
  induction es with
  | nil => rfl
  | cons e rest ih =>
    have h1 := h e (List.mem_cons_self _ _)
    have h2 := ih (fun e2 he2 => h e2 (List.mem_cons_of_mem _ he2))
    obtain ⟨op, r⟩ := e
    cases op <;> simp_all [arch_present, Op.is_arch_add]

theorem stored_rules_no_add (arch : ScmpArch) (es : List Event)
    (h : ∀ e ∈ es, e.op.is_arch_add = false) :
    stored_rules arch true es = (requested_rules es).map (stored_rule arch) := by
  induction es with
  | nil => rfl
  | cons e rest ih =>
    have h1 := h e (List.mem_cons_self _ _)
    have h2 := ih (fun e2 he2 => h e2 (List.mem_cons_of_mem _ he2))
    obtain ⟨op, r⟩ := e
    cases op
    case seccomp_rule_add action syscall args =>
      simp only [stored_rules, requested_rules]
      split_ifs with k1 k2 k3
      · simp [h2]
      · exact absurd k1.1 k2
      · exact absurd ⟨k3, trivial⟩ k1
      · exact h2
    case seccomp_arch_add a => simp [Op.is_arch_add] at h1
    all_goals simpa [stored_rules, requested_rules] using h2

theorem stored_rules_no_rule (arch : ScmpArch) (p : Bool) (es : List Event)
    (h : ∀ e ∈ es, e.op.is_rule_add = false) : stored_rules arch p es = [] := by
  induction es generalizing p with
  | nil => rfl
  | cons e rest ih =>
    have h1 := h e (List.mem_cons_self _ _)
    have h2 := fun p => ih p (fun e2 he2 => h e2 (List.mem_cons_of_mem _ he2))
    obtain ⟨op, r⟩ := e
    cases op
    case seccomp_rule_add action syscall args => simp [Op.is_rule_add] at h1
    all_goals simp only [stored_rules]
    all_goals exact h2 _

theorem stored_rule_direct (arch : ScmpArch) (h : arch ≠ ScmpArch.SCMP_ARCH_X86)
    (l : List ScmpRule) : l.map (stored_rule arch) = l := by
  have : stored_rule arch = id := by
    funext r
    simp [stored_rule, h]
  rw [this, List.map_id]

theorem block_syscalls_no_arch_add (l : List BlacklistEntry) :
    ∀ (w : World) (s : Proc), ∀ e ∈ (block_syscalls l w s).events,
      e.op.is_arch_add = false := by
  induction l with
  | nil => intro w s; simp [block_syscalls]
  | cons entry rest ih =>
    intro w s
    unfold block_syscalls
    cases harg : entry.arg with
    | none =>
      simp only [bind_call_run, bind_pure_run, bind_die_with_error_run, die_with_error_run,
        ite_run]
      split_ifs
      · simp [Op.is_arch_add]
      · simp only [cons_events, List.mem_cons]
        rintro e (rfl | he)
        · rfl
        · exact ih w _ e he
    | some arg =>
      simp only [bind_call_run, bind_pure_run, bind_die_with_error_run, die_with_error_run,
        ite_run]
      split_ifs
      · simp [Op.is_arch_add]
      · simp only [cons_events, List.mem_cons]
        rintro e (rfl | he)
        · rfl
        · exact ih w _ e he

theorem seccomp_tail_no_arch_add (w : World) (s : Proc) :
    ∀ e ∈ ((do
        block_syscalls syscall_blacklist
        let (u, machine) ← call_out Op.uname World.out_machine
        if u = 0 ∧ machine ≠ "i686" then
          block_socket_families socket_family_blacklist.length 0 socket_family_blacklist
        let r ← call Op.seccomp_load
        if r < 0 then
          die_with_error "Failed to install seccomp audit filter: "
        let _ ← call Op.seccomp_release : Run Unit) w s).events,
      e.op.is_arch_add = false := by
  have hfin : ∀ (w : World) (s : Proc), ∀ e ∈ ((do
        let r ← call Op.seccomp_load
        if r < 0 then
          die_with_error "Failed to install seccomp audit filter: "
        let _ ← call Op.seccomp_release : Run Unit) w s).events,
      e.op.is_arch_add = false := by
    intro w s
    simp only [bind_call_run, bind_pure_run, bind_die_with_error_run, die_with_error_run,
      pure_run, ite_run]
    split_ifs <;> simp [Op.is_arch_add]
  have hsock : ∀ (l : List Nat) (n i : Nat) (w : World) (s : Proc),
      ∀ e ∈ (block_socket_families n i l w s).events, e.op.is_arch_add = false := by
    intro l
    induction l with
    | nil => intro n i w s; simp [block_socket_families]
    | cons family rest ih =>
      intro n i w s
      unfold block_socket_families
      by_cases hi : i = n - 1
      · simp only [if_pos hi, bind_call_run, bind_pure_run, bind_die_with_error_run,
          die_with_error_run, ite_run]
        split_ifs
        · simp [Op.is_arch_add]
        · simp only [cons_events, List.mem_cons]
          rintro e (rfl | he)
          · rfl
          · exact ih _ _ w _ e he
      · simp only [if_neg hi, bind_call_run, bind_pure_run, bind_die_with_error_run,
          die_with_error_run, ite_run]
        split_ifs
        · simp [Op.is_arch_add]
        · simp only [cons_events, List.mem_cons]
          rintro e (rfl | he)
          · rfl
          · exact ih _ _ w _ e he
  refine events_bind_all (block_syscalls_no_arch_add _ w s) (fun _ => ?_)
  simp only [bind_call_out_run, ite_bind_run, bind_pure_run, ite_run]
  split_ifs
  · simp only [cons_events, List.mem_cons]
    rintro e (rfl | he)
    · rfl
    · exact events_bind_all (hsock _ _ _ w _) (fun _ => hfin w _) e he
  · simp only [cons_events, List.mem_cons]
    rintro e (rfl | he)
    · rfl
    · exact hfin w _ e he

theorem add_secondary_archs_no_rule (w : World) (s : Proc) :
    ∀ e ∈ (add_secondary_archs w s).events, e.op.is_rule_add = false := by
  simp only [add_secondary_archs, bind_call_run, bind_pure_run, bind_die_with_error_run,
    die_with_error_run, pure_run, ite_run]
  split_ifs <;> simp [Op.is_rule_add]

/-- The calls of a run of `setup_seccomp_v0` that returned: first `seccomp_init`
and the `seccomp_arch_add` calls, then calls that add no architecture. -/
theorem setup_seccomp_v0_split (x86 : Bool) (w : World) (s : Proc)
    (hret : (setup_seccomp_v0 x86 w s).res = Res.ret ()) :
    ∃ A B, (setup_seccomp_v0 x86 w s).events = A ++ B ∧
      (∀ e ∈ A, e.op.is_rule_add = false) ∧ (∀ e ∈ B, e.op.is_arch_add = false) ∧
      SeccompShape w B := by
  simp only [setup_seccomp_v0, bind_call_run, ite_bind_run, bind_pure_run, bind_die_oom_run,
    die_oom_run, ite_run] at hret ⊢
  split_ifs at hret ⊢ with h1 h2
  · cases hret
  · simp only [cons_res, cons_events] at hret ⊢
    obtain ⟨a, k1, k2, k3⟩ := bind_ret_inv hret
    rw [k3]
    refine ⟨_ :: (add_secondary_archs w (s.after w)).events, _, rfl, ?_,
      seccomp_tail_no_arch_add w _, seccomp_tail_shape w _ k2⟩
    intro e he
    rcases List.mem_cons.mp he with rfl | he
    · rfl
    · exact add_secondary_archs_no_rule w _ e he
  · simp only [cons_res, cons_events] at hret ⊢
    exact ⟨[_], _, rfl, by simp [Op.is_rule_add], seccomp_tail_no_arch_add w _,
      seccomp_tail_shape w _ hret⟩

/-- After a run of `setup_seccomp_v0` that returned, in which `uname` succeeded
on a machine whose name is not `i686`: for every architecture that the filter
holds and on which `socket` is a system call of its own (any but x86), and for
every value `f` of the first argument of `socket`, the filter allows the call
when `f` is one of `AF_UNSPEC`, `AF_UNIX`, `AF_INET`, `AF_INET6`, `AF_NETLINK`
and denies it with `EAFNOSUPPORT` otherwise. -/
theorem socket_filter_allows_five_values (x86 : Bool) (native : ScmpArch) (w : World)
    (s : Proc) (hret : (setup_seccomp_v0 x86 w s).res = Res.ret ())
    (hu : ∀ e ∈ (setup_seccomp_v0 x86 w s).events, e.op = Op.uname → e.ret = 0)
    (hm : ∀ k, w.out_machine k ≠ "i686") (arch : ScmpArch)
    (harch : filter_has_arch native (setup_seccomp_v0 x86 w s).events arch = true)
    (hx : arch ≠ ScmpArch.SCMP_ARCH_X86) (f : Nat) (rest : List Nat) :
    filter_action ScmpAction.SCMP_ACT_ALLOW native (setup_seccomp_v0 x86 w s).events arch
        "socket" (f :: rest) =
      if f = AF_UNSPEC ∨ f = AF_UNIX ∨ f = AF_INET ∨ f = AF_INET6 ∨ f = AF_NETLINK
        then ScmpAction.SCMP_ACT_ALLOW else ScmpAction.SCMP_ACT_ERRNO EAFNOSUPPORT := by
  obtain ⟨A, B, hAB, hA, hB, hshape⟩ := setup_seccomp_v0_split x86 w s hret
  have hu2 : ∀ e ∈ B, e.op = Op.uname → e.ret = 0 := fun e he =>
    hu e (by rw [hAB]; exact List.mem_append_right _ he)
  obtain ⟨before, after, h1, h2, h3⟩ := requested_rules_shape hshape hu2 hm
  unfold filter_action
  rw [if_pos harch]
  unfold filter_has_arch at harch
  unfold added_rules
  rw [hAB] at harch ⊢
  rw [arch_present_append, arch_present_no_add _ _ B hB] at harch
  rw [stored_rules_append, stored_rules_no_rule _ _ A hA, harch, stored_rules_no_add _ B hB,
    stored_rule_direct arch hx, h1, List.nil_append]
  have hskip : rules_action ScmpAction.SCMP_ACT_ALLOW (before ++
      (socket_rules_of socket_family_blacklist.length 0 socket_family_blacklist ++ after))
      "socket" (f :: rest) =
      rules_action ScmpAction.SCMP_ACT_ALLOW
        (socket_rules_of socket_family_blacklist.length 0 socket_family_blacklist ++ after)
        "socket" (f :: rest) := by
    unfold rules_action
    rw [find_skip _ before _ (fun r hr => applies_other_syscall r _ (h2 r hr))]
  rw [hskip, socket_rules_action f rest after
    (fun r hr => applies_other_syscall r _ (h3 r hr))]
  rfl




/-- C8: the code at the failing input.  The program is built for x86_64 and
every call of `setup_seccomp_v0` succeeds, on a machine whose name is not
`i686`.  For a `socket` call entered from x86_64 or x32 code the filter denies
the call with `EAFNOSUPPORT` unless the family is one of `AF_UNSPEC`, `AF_UNIX`,
`AF_INET`, `AF_INET6`, `AF_NETLINK`: it allows `socket (AF_UNSPEC, ...)`,
though `AF_UNSPEC` is none of the four families that the comment on
`socket_family_blacklist` names.  For a `socket` call entered from i386 code
through `socketcall` the filter denies the call whatever the family. -/
theorem socket_filter_allows_af_unspec :
    (setup_seccomp_v0 true seccomp_oracle Proc.start).res = Res.ret () ∧
    (AF_UNSPEC ≠ AF_UNIX ∧ AF_UNSPEC ≠ AF_INET ∧ AF_UNSPEC ≠ AF_INET6 ∧
      AF_UNSPEC ≠ AF_NETLINK) ∧
    filter_action ScmpAction.SCMP_ACT_ALLOW ScmpArch.SCMP_ARCH_X86_64
      (setup_seccomp_v0 true seccomp_oracle Proc.start).events ScmpArch.SCMP_ARCH_X86_64
      "socket" [AF_UNSPEC, 1, 0] = ScmpAction.SCMP_ACT_ALLOW ∧
    (∀ (f : Nat) (rest : List Nat),
      filter_action ScmpAction.SCMP_ACT_ALLOW ScmpArch.SCMP_ARCH_X86_64
        (setup_seccomp_v0 true seccomp_oracle Proc.start).events ScmpArch.SCMP_ARCH_X86_64
        "socket" (f :: rest) =
      if f = AF_UNSPEC ∨ f = AF_UNIX ∨ f = AF_INET ∨ f = AF_INET6 ∨ f = AF_NETLINK
        then ScmpAction.SCMP_ACT_ALLOW else ScmpAction.SCMP_ACT_ERRNO EAFNOSUPPORT) ∧
    (∀ (f : Nat) (rest : List Nat),
      filter_action ScmpAction.SCMP_ACT_ALLOW ScmpArch.SCMP_ARCH_X86_64
        (setup_seccomp_v0 true seccomp_oracle Proc.start).events ScmpArch.SCMP_ARCH_X32
        "socket" (f :: rest) =
      if f = AF_UNSPEC ∨ f = AF_UNIX ∨ f = AF_INET ∨ f = AF_INET6 ∨ f = AF_NETLINK
        then ScmpAction.SCMP_ACT_ALLOW else ScmpAction.SCMP_ACT_ERRNO EAFNOSUPPORT) ∧
    (∀ rest : List Nat,
      filter_action ScmpAction.SCMP_ACT_ALLOW ScmpArch.SCMP_ARCH_X86_64
        (setup_seccomp_v0 true seccomp_oracle Proc.start).events ScmpArch.SCMP_ARCH_X86
        "socketcall" (SYS_SOCKET :: rest) = ScmpAction.SCMP_ACT_ERRNO EAFNOSUPPORT) := by
  have hm : ∀ k, seccomp_oracle.out_machine k ≠ "i686" := fun _ => by
    show "x86_64" ≠ "i686"
    decide
  have hp2 : filter_has_arch ScmpArch.SCMP_ARCH_X86_64
      (setup_seccomp_v0 true seccomp_oracle Proc.start).events ScmpArch.SCMP_ARCH_X86 =
      true := by decide
  have h86 : added_rules ScmpArch.SCMP_ARCH_X86_64
      (setup_seccomp_v0 true seccomp_oracle Proc.start).events ScmpArch.SCMP_ARCH_X86 =
      (added_rules ScmpArch.SCMP_ARCH_X86_64
        (setup_seccomp_v0 true seccomp_oracle Proc.start).events
        ScmpArch.SCMP_ARCH_X86).take 16 ++
      (⟨ScmpAction.SCMP_ACT_ERRNO EAFNOSUPPORT, "socketcall",
        [⟨0, ScmpCompare.SCMP_CMP_EQ, SYS_SOCKET, 0⟩]⟩ ::
        (added_rules ScmpArch.SCMP_ARCH_X86_64
          (setup_seccomp_v0 true seccomp_oracle Proc.start).events
          ScmpArch.SCMP_ARCH_X86).drop 17) := by
    decide
  have hb86 : ∀ r ∈ (added_rules ScmpArch.SCMP_ARCH_X86_64
      (setup_seccomp_v0 true seccomp_oracle Proc.start).events
      ScmpArch.SCMP_ARCH_X86).take 16, r.syscall ≠ "socketcall" := by decide
  refine ⟨by decide, by decide, by decide, fun f rest => ?_, fun f rest => ?_, fun rest => ?_⟩
  · exact socket_filter_allows_five_values true ScmpArch.SCMP_ARCH_X86_64 seccomp_oracle
      Proc.start (by decide) (by decide) hm ScmpArch.SCMP_ARCH_X86_64 (by decide) (by decide)
      f rest
  · exact socket_filter_allows_five_values true ScmpArch.SCMP_ARCH_X86_64 seccomp_oracle
      Proc.start (by decide) (by decide) hm ScmpArch.SCMP_ARCH_X32 (by decide) (by decide)
      f rest
  · unfold filter_action
    rw [if_pos hp2, h86]
    unfold rules_action
    rw [find_skip _ _ _ (fun r hr => by
      simp [ScmpRule.applies, hb86 r hr])]
    simp [ScmpRule.applies, ScmpArgCmp.holds]

/-- C9: the code at the failing input.  The program is built for a machine
that is neither i386 nor x86_64.  When the `seccomp_rule_add` for `syslog`
fails with `-ENOMEM`, `setup_seccomp_v0` goes on, loads the filter and
returns; the filter has no rule for `syslog` and allows it (when every call
succeeds it answers `EPERM`); and `main` run with
`--seccomp-profile-version 0` then replaces the process by the program. -/
theorem blacklist_rule_failure_is_ignored :
    (setup_seccomp_v0 false rule_add_enomem Proc.start).res = Res.ret () ∧
    ⟨Op.seccomp_rule_add (ScmpAction.SCMP_ACT_ERRNO EPERM) "syslog" [], -12⟩ ∈
      (setup_seccomp_v0 false rule_add_enomem Proc.start).events ∧
    ⟨Op.seccomp_load, 0⟩ ∈ (setup_seccomp_v0 false rule_add_enomem Proc.start).events ∧
    filter_action ScmpAction.SCMP_ACT_ALLOW ScmpArch.other
      (setup_seccomp_v0 false rule_add_enomem Proc.start).events ScmpArch.other
      "syslog" [] = ScmpAction.SCMP_ACT_ALLOW ∧
    filter_action ScmpAction.SCMP_ACT_ALLOW ScmpArch.other
      (setup_seccomp_v0 false seccomp_oracle Proc.start).events ScmpArch.other
      "syslog" [] = ScmpAction.SCMP_ACT_ERRNO EPERM ∧
    (main false version0_argv main_rule_add_enomem Proc.start).res =
      Res.stop (Stop.exec "true" ["true"]) ∧
    ⟨Op.seccomp_rule_add (ScmpAction.SCMP_ACT_ERRNO EPERM) "syslog" [], -12⟩ ∈
      (main false version0_argv main_rule_add_enomem Proc.start).events := by
  decide

end LinuxUserChroot

